import Mathlib

/-!
# laundry-golang: order pricing and lifecycle

A shallow embedding of `internal/models`, `internal/repository`,
`internal/service` and `internal/utils`, followed by theorems about order
creation, cancellation and status updates, the laundry listing and the
distance between two points.

Conventions of the embedding

* `float64` is an abstract carrier `α` with the operations the code uses
  (`+`, `*`, the zero value, `<`, and for the distance `-`, `/` and the
  functions of `math`); every theorem holds for any interpretation of them,
  under the laws it states.  Concrete evaluations instantiate `α` with `Int`
  for whole amounts, with the decimal numbers `Dec` where a column rounds,
  with `FloatOrNaN` where a comparison meets NaN, and with `Binary64` where
  the rounding of the arithmetic matters.
* A column `decimal(p,2)` keeps the value it is given rounded to two
  decimals and refuses a value with too many digits (`DecimalColumns`).
* `uuid.UUID` is a number (`uuid.Nil` is `0`); `uuid.Parse` and
  `UUID.String` are library functions supplied by the environment.
* The database is an explicit `Store` value threaded through every
  repository call.  A service method returns its Go result together with the
  store it leaves behind.
* The outcome of a write the database may refuse is read from the
  environment (`orderCreateErr`, `createBatchErr`, `orderUpdateErr`), and so
  is the failure of a read of the order listing (`orderCountErr`,
  `orderFindErr`).
* `Store.trace` is ghost state: the sequence of write calls handed to the
  repositories, refused ones included.
-/

namespace LaundryGo

/-! ## Basic types -/

/-- A `uuid.UUID`; only equality and the nil value are used by the code. -/
abbrev UUID := Nat

/-- The value `uuid.Nil`. -/
def uuidNil : UUID := 0

/-- A `time.Time` instant, in nanoseconds; the zero value is `0`. -/
abbrev Time := Int

/-- The constant `time.Hour`, a `time.Duration` in nanoseconds. -/
def timeHour : Int := 3600000000000

/-- Reduction of an integer to the range of Go's `int64`. -/
def wrapInt64 (x : Int) : Int := (x + 2 ^ 63) % 2 ^ 64 - 2 ^ 63

/-- The method `Time.Add` for a duration in nanoseconds. -/
def Time.Add (t : Time) (d : Int) : Time := t + d

/-! ## internal/models -/

/-- The model `models.Service` (the `Laundry` association is never loaded). -/
structure Service (α : Type) where
  ID : UUID
  LaundryID : UUID
  Name : String
  Description : String
  Price : α
  Unit : String
  EstimatedTimeHours : Int
  Category : String
  IsActive : Bool
  CreatedAt : Time
  UpdatedAt : Time
deriving DecidableEq, Repr

/-- The model `models.Laundry` (the `Owner` association is never loaded). -/
structure Laundry (α : Type) where
  ID : UUID
  OwnerID : UUID
  Name : String
  Description : String
  Address : String
  Latitude : Option α
  Longitude : Option α
  ImageURL : String
  Rating : α
  ReviewCount : Int
  IsOpen : Bool
  OperatingHoursOpen : String
  OperatingHoursClose : String
  Services : List (Service α)
  CreatedAt : Time
  UpdatedAt : Time
deriving DecidableEq, Repr

/-- The model `models.OrderService`, one line item of an order (its `Order`
and `Service` associations are never loaded). -/
structure OrderService (α : Type) where
  ID : UUID
  OrderID : UUID
  ServiceID : UUID
  ServiceName : String
  Quantity : α
  UnitPrice : α
  Unit : String
  Subtotal : α
  CreatedAt : Time
deriving DecidableEq, Repr

/-- The model `models.Order` (the `User` association is never loaded on the
paths of the order service). -/
structure Order (α : Type) where
  ID : UUID
  UserID : UUID
  LaundryID : UUID
  Laundry : Laundry α
  Status : String
  TotalPrice : α
  DeliveryAddress : String
  Notes : String
  EstimatedPickupAt : Option Time
  EstimatedDeliveryAt : Option Time
  ActualPickupAt : Option Time
  ActualDeliveryAt : Option Time
  OrderServices : List (OrderService α)
  CreatedAt : Time
  UpdatedAt : Time
deriving DecidableEq, Repr

/-- The Go zero value of `models.Laundry`. -/
def Laundry.zero {α : Type} [Zero α] : Laundry α :=
  { ID := uuidNil, OwnerID := uuidNil, Name := "", Description := "", Address := "",
    Latitude := none, Longitude := none, ImageURL := "", Rating := 0, ReviewCount := 0,
    IsOpen := false, OperatingHoursOpen := "", OperatingHoursClose := "", Services := [],
    CreatedAt := 0, UpdatedAt := 0 }

/-- The hook `Order.BeforeCreate`: a nil id is replaced by a generated one. -/
def Order.BeforeCreate {α : Type} (fresh : UUID) (o : Order α) : Order α :=
  if o.ID = uuidNil then { o with ID := fresh } else o

/-- The hook `OrderService.BeforeCreate`. -/
def OrderService.BeforeCreate {α : Type} (fresh : UUID) (os : OrderService α) :
    OrderService α :=
  if os.ID = uuidNil then { os with ID := fresh } else os

/-! ## The store and the environment -/

/-- A write call handed to a repository, with its argument. -/
inductive WriteCall (α : Type) where
  | orderCreate (order : Order α)
  | orderServiceCreateBatch (orderServices : List (OrderService α))
  | orderUpdate (order : Order α)
deriving DecidableEq, Repr

/-- The database tables behind the repositories.  Rows of `orders` and
`laundries` hold columns only: their association fields are empty and are
filled by `Preload` on reads.  `trace` is the ghost sequence of write
calls made so far. -/
structure Store (α : Type) where
  laundries : List (Laundry α)
  services : List (Service α)
  orders : List (Order α)
  orderServices : List (OrderService α)
  trace : List (WriteCall α)
deriving DecidableEq, Repr

/-- What a call depends on besides the store: the uuid library, the clock,
the ids `uuid.New` hands out, whether the database refuses a write, and
whether the count query or the page query of the order listing fails. -/
structure Env where
  parse : String → Option UUID
  str : UUID → String
  now : Time
  newOrderID : UUID
  newOrderServiceID : Nat → UUID
  orderCreateErr : Bool
  createBatchErr : Bool
  orderUpdateErr : Bool
  orderCountErr : Bool := false
  orderFindErr : Bool := false

/-- How the database keeps a `float64` in a `decimal` column with two
decimals: the value rounded to two decimals, or `none` when the rounded value
has more digits than the column holds, and then the statement is refused.
`decimal10` is a column `decimal(10,2)` and `decimal12` a column
`decimal(12,2)`. -/
class DecimalColumns (α : Type) where
  decimal10 : α → Option α
  decimal12 : α → Option α

/-- Whole amounts have no decimals to round: a column keeps them as they are
when they are below `10 ^ 8`, or `10 ^ 10`, in absolute value. -/
instance : DecimalColumns Int where
  decimal10 x := if x.natAbs < 10 ^ 8 then some x else none
  decimal12 x := if x.natAbs < 10 ^ 10 then some x else none

/-- The columns of an order, as written to its table row. -/
def Order.row {α : Type} [Zero α] (o : Order α) : Order α :=
  { o with Laundry := Laundry.zero, OrderServices := [] }

/-- The autoCreateTime rule of the ORM: a zero timestamp becomes now. -/
def stamp (now : Time) (t : Time) : Time := if t = 0 then now else t

/-! ## internal/repository -/

/-- The method `laundryRepository.FindByID`: the row with the id, with its
active services preloaded; `none` is the error result. -/
def laundryRepository.FindByID {α : Type} (db : Store α) (id : UUID) : Option (Laundry α) :=
  match db.laundries.find? (fun l => decide (l.ID = id)) with
  | none => none
  | some laundry =>
    some { laundry with
      Services := db.services.filter (fun s => decide (s.LaundryID = laundry.ID) && s.IsActive) }

/-- The method `serviceRepository.FindByID`. -/
def serviceRepository.FindByID {α : Type} (db : Store α) (id : UUID) : Option (Service α) :=
  db.services.find? (fun s => decide (s.ID = id))

/-- The method `orderRepository.FindByID`: the row with the id, with
`OrderServices` and `Laundry` preloaded. -/
def orderRepository.FindByID {α : Type} [Zero α] (db : Store α) (id : UUID) :
    Option (Order α) :=
  match db.orders.find? (fun o => decide (o.ID = id)) with
  | none => none
  | some order =>
    some { order with
      OrderServices := db.orderServices.filter (fun os => decide (os.OrderID = order.ID))
      Laundry := (db.laundries.find? (fun l => decide (l.ID = order.LaundryID))).getD
        Laundry.zero }

/-- The method `orderRepository.Create`: one INSERT.  The hook and the
timestamps are applied to the record, which is handed back to the caller
with the total it was given; the row holds the total as the column
`total_price decimal(12,2)` keeps it.  The insert is refused when the total
does not fit the column, when the database says so or when the primary key
is taken, and then no row is written. -/
def orderRepository.Create {α : Type} [Zero α] [DecimalColumns α] (env : Env) (db : Store α)
    (order : Order α) : Option (Order α) × Store α :=
  let db1 := { db with trace := db.trace ++ [WriteCall.orderCreate order] }
  let o := Order.BeforeCreate env.newOrderID order
  let o := { o with CreatedAt := stamp env.now o.CreatedAt, UpdatedAt := stamp env.now o.UpdatedAt }
  match DecimalColumns.decimal12 o.TotalPrice with
  | none => (none, db1)
  | some totalPrice =>
    if env.orderCreateErr || db.orders.any (fun r => decide (r.ID = o.ID)) then (none, db1)
    else (some o, { db1 with orders := db1.orders ++ [{ o.row with TotalPrice := totalPrice }] })

/-- The hook and creation time applied to the items of a batch, the i-th
generated id going to the i-th item. -/
def prepareBatch {α : Type} (env : Env) : Nat → List (OrderService α) → List (OrderService α)
  | _, [] => []
  | i, os :: rest =>
    let os1 := OrderService.BeforeCreate (env.newOrderServiceID i) os
    { os1 with CreatedAt := stamp env.now os1.CreatedAt } :: prepareBatch env (i + 1) rest

/-- The row of a line item: the quantity as the column
`quantity decimal(10,2)` keeps it and the subtotal as the column
`subtotal decimal(12,2)` keeps it, `none` when one of them does not fit.
The unit price is the price read from `services.price`, a column of the type
of `unit_price`, and is kept as it is. -/
def OrderService.stored {α : Type} [DecimalColumns α] (os : OrderService α) :
    Option (OrderService α) :=
  match DecimalColumns.decimal10 os.Quantity, DecimalColumns.decimal12 os.Subtotal with
  | some quantity, some subtotal => some { os with Quantity := quantity, Subtotal := subtotal }
  | _, _ => none

/-- The rows of the items of a batch, `none` when an item has no row. -/
def storedBatch {α : Type} [DecimalColumns α] :
    List (OrderService α) → Option (List (OrderService α))
  | [] => some []
  | os :: rest =>
    match OrderService.stored os, storedBatch rest with
    | some row, some rows => some (row :: rows)
    | _, _ => none

/-- The method `orderServiceRepository.CreateBatch`: one multi-row INSERT,
which writes all rows or, when refused, none.  The ORM refuses an empty
slice; the database refuses a quantity or subtotal that does not fit its
column, a primary key that is taken, or for its own reasons.  The records
handed back to the caller keep the values they were given. -/
def orderServiceRepository.CreateBatch {α : Type} [DecimalColumns α] (env : Env) (db : Store α)
    (orderServices : List (OrderService α)) : Option (List (OrderService α)) × Store α :=
  let db1 := { db with trace := db.trace ++ [WriteCall.orderServiceCreateBatch orderServices] }
  let items := prepareBatch env 0 orderServices
  if orderServices.isEmpty then (none, db1)
  else
    match storedBatch items with
    | none => (none, db1)
    | some rows =>
      if env.createBatchErr || !decide ((items.map (fun os => os.ID) ++
          db.orderServices.map (fun os => os.ID)).Nodup) then (none, db1)
      else (some items, { db1 with orderServices := db1.orderServices ++ rows })

/-- The method `orderRepository.Update`, the ORM's `Save`: every column of
the row with the record's id is overwritten and the update time is set; a
record whose id has no row is inserted.  The service hands it a record read
by `FindByID`, whose total comes from the column it is written back to. -/
def orderRepository.Update {α : Type} [Zero α] (env : Env) (db : Store α) (order : Order α) :
    Option (Order α) × Store α :=
  let db1 := { db with trace := db.trace ++ [WriteCall.orderUpdate order] }
  if env.orderUpdateErr then (none, db1)
  else
    let o := { order with UpdatedAt := env.now }
    if db.orders.any (fun r => decide (r.ID = o.ID)) then
      (some o, { db1 with
        orders := db1.orders.map (fun r => if r.ID = o.ID then o.row else r) })
    else (some o, { db1 with orders := db1.orders ++ [o.row] })

/-! ## internal/service/order_service.go -/

/-- The request type `OrderServiceRequest`. -/
structure OrderServiceRequest (α : Type) where
  ServiceID : String
  Quantity : α
deriving DecidableEq, Repr

/-- The request type `CreateOrderRequest`. -/
structure CreateOrderRequest (α : Type) where
  LaundryID : String
  Services : List (OrderServiceRequest α)
  DeliveryAddress : String
  Notes : String
  EstimatedPickupAt : Option Time
deriving DecidableEq, Repr

/-- The response type `OrderServiceDetail`. -/
structure OrderServiceDetail (α : Type) where
  ServiceID : String
  ServiceName : String
  Quantity : α
  Price : α
  Unit : String
deriving DecidableEq, Repr

/-- The response type `OrderResponse`. -/
structure OrderResponse (α : Type) where
  ID : String
  LaundryID : String
  LaundryName : String
  Services : List (OrderServiceDetail α)
  TotalPrice : α
  Status : String
  CreatedAt : Time
  EstimatedPickup : Option Time
  EstimatedDelivery : Option Time
  Address : String
  Notes : String
deriving DecidableEq, Repr

/-- What the first loop of `Create` carries from one request to the next:
`totalPrice`, `orderServices` and `maxEstimatedHours`. -/
structure Pricing (α : Type) where
  totalPrice : α
  orderServices : List (OrderService α)
  maxEstimatedHours : Int
deriving DecidableEq, Repr

/-- The body of the first loop of `Create`, for one requested service. -/
def orderService.Create.step {α : Type} [Add α] [Mul α] [Zero α] (env : Env) (db : Store α)
    (laundryUUID : UUID) (acc : Pricing α) (svcReq : OrderServiceRequest α) :
    Except String (Pricing α) :=
  match env.parse svcReq.ServiceID with
  | none => .error "invalid service ID"
  | some serviceUUID =>
    match serviceRepository.FindByID db serviceUUID with
    | none => .error "service not found"
    | some service =>
      if !service.IsActive then .error "service is not active"
      else if service.LaundryID ≠ laundryUUID then
        .error "service does not belong to this laundry"
      else
        let subtotal := service.Price * svcReq.Quantity
        .ok
          { totalPrice := acc.totalPrice + subtotal
            maxEstimatedHours :=
              if service.EstimatedTimeHours > acc.maxEstimatedHours then
                service.EstimatedTimeHours
              else acc.maxEstimatedHours
            orderServices := acc.orderServices ++
              [{ ID := uuidNil, OrderID := uuidNil, ServiceID := service.ID,
                 ServiceName := service.Name, Quantity := svcReq.Quantity,
                 UnitPrice := service.Price, Unit := service.Unit, Subtotal := subtotal,
                 CreatedAt := 0 }] }

/-- The first loop of `Create`, over the requested services in order; the
first request that is rejected ends it with that error. -/
def orderService.Create.loop {α : Type} [Add α] [Mul α] [Zero α] (env : Env) (db : Store α)
    (laundryUUID : UUID) : List (OrderServiceRequest α) → Pricing α → Except String (Pricing α)
  | [], acc => .ok acc
  | svcReq :: rest, acc =>
    match orderService.Create.step env db laundryUUID acc svcReq with
    | .error e => .error e
    | .ok acc1 => orderService.Create.loop env db laundryUUID rest acc1

/-- The conversion of line items to `OrderServiceDetail`, shared by `Create`
and `toOrderResponse`. -/
def serviceDetails {α : Type} (env : Env) (orderServices : List (OrderService α)) :
    List (OrderServiceDetail α) :=
  orderServices.map fun os =>
    { ServiceID := env.str os.ServiceID, ServiceName := os.ServiceName,
      Quantity := os.Quantity, Price := os.UnitPrice, Unit := os.Unit }

/-- The method `orderService.toOrderResponse`. -/
def orderService.toOrderResponse {α : Type} (env : Env) (order : Order α) : OrderResponse α :=
  { ID := env.str order.ID
    LaundryID := env.str order.LaundryID
    LaundryName := if order.Laundry.Name ≠ "" then order.Laundry.Name else ""
    Services := serviceDetails env order.OrderServices
    TotalPrice := order.TotalPrice
    Status := order.Status
    CreatedAt := order.CreatedAt
    EstimatedPickup := order.EstimatedPickupAt
    EstimatedDelivery := order.EstimatedDeliveryAt
    Address := order.DeliveryAddress
    Notes := order.Notes }

/-- The method `orderService.Create`. -/
def orderService.Create {α : Type} [Add α] [Mul α] [Zero α] [DecimalColumns α] (env : Env)
    (db : Store α) (userID : String) (req : CreateOrderRequest α) :
    Except String (OrderResponse α) × Store α :=
  match env.parse userID with
  | none => (.error "invalid user ID", db)
  | some userUUID =>
  match env.parse req.LaundryID with
  | none => (.error "invalid laundry ID", db)
  | some laundryUUID =>
  if req.Services.length = 0 then (.error "at least one service is required", db)
  else if req.DeliveryAddress = "" then (.error "delivery address is required", db)
  else
  match laundryRepository.FindByID db laundryUUID with
  | none => (.error "laundry not found", db)
  | some laundry =>
  match orderService.Create.loop env db laundryUUID req.Services
      { totalPrice := 0, orderServices := [], maxEstimatedHours := 0 } with
  | .error e => (.error e, db)
  | .ok priced =>
  let estimatedDeliveryAt : Option Time :=
    match req.EstimatedPickupAt with
    | none => none
    | some pickup => some (Time.Add pickup (wrapInt64 (priced.maxEstimatedHours * timeHour)))
  let order : Order α :=
    { ID := uuidNil, UserID := userUUID, LaundryID := laundryUUID, Laundry := Laundry.zero,
      Status := "pending", TotalPrice := priced.totalPrice,
      DeliveryAddress := req.DeliveryAddress, Notes := req.Notes,
      EstimatedPickupAt := req.EstimatedPickupAt, EstimatedDeliveryAt := estimatedDeliveryAt,
      ActualPickupAt := none, ActualDeliveryAt := none, OrderServices := [],
      CreatedAt := 0, UpdatedAt := 0 }
  match orderRepository.Create env db order with
  | (none, db1) => (.error "failed to create order", db1)
  | (some order, db1) =>
  let orderServices := priced.orderServices.map fun os => { os with OrderID := order.ID }
  match orderServiceRepository.CreateBatch env db1 orderServices with
  | (none, db2) => (.error "failed to create order services", db2)
  | (some orderServices, db2) =>
  (.ok
    { ID := env.str order.ID
      LaundryID := env.str order.LaundryID
      LaundryName := laundry.Name
      Services := serviceDetails env orderServices
      TotalPrice := order.TotalPrice
      Status := order.Status
      CreatedAt := order.CreatedAt
      EstimatedPickup := order.EstimatedPickupAt
      EstimatedDelivery := order.EstimatedDeliveryAt
      Address := order.DeliveryAddress
      Notes := order.Notes }, db2)

/-- The method `orderService.GetByID`. -/
def orderService.GetByID {α : Type} [Zero α] (env : Env) (db : Store α)
    (userID orderID : String) : Except String (OrderResponse α) × Store α :=
  match env.parse orderID with
  | none => (.error "invalid order ID", db)
  | some orderUUID =>
  match orderRepository.FindByID db orderUUID with
  | none => (.error "order not found", db)
  | some order =>
  match env.parse userID with
  | none => (.error "invalid user ID", db)
  | some userUUID =>
  if order.UserID ≠ userUUID then (.error "unauthorized", db)
  else (.ok (orderService.toOrderResponse env order), db)

/-- The method `orderService.CancelOrder`. -/
def orderService.CancelOrder {α : Type} [Zero α] (env : Env) (db : Store α)
    (userID orderID : String) : Except String (OrderResponse α) × Store α :=
  match env.parse orderID with
  | none => (.error "invalid order ID", db)
  | some orderUUID =>
  match orderRepository.FindByID db orderUUID with
  | none => (.error "order not found", db)
  | some order =>
  match env.parse userID with
  | none => (.error "invalid user ID", db)
  | some userUUID =>
  if order.UserID ≠ userUUID then (.error "unauthorized", db)
  else if order.Status ≠ "pending" ∧ order.Status ≠ "confirmed" then
    (.error "order cannot be cancelled at this stage", db)
  else
    match orderRepository.Update env db { order with Status := "cancelled" } with
    | (none, db1) => (.error "failed to cancel order", db1)
    | (some order, db1) => (.ok (orderService.toOrderResponse env order), db1)

/-- The slice `validStatuses` of `UpdateStatus`. -/
def validStatuses : List String :=
  ["pending", "confirmed", "picked-up", "washing", "drying", "ironing", "ready", "delivered",
   "completed", "cancelled"]

/-- The membership loop of `UpdateStatus`: `valid` after the loop. -/
def orderService.UpdateStatus.valid (status : String) : List String → Bool
  | [] => false
  | vs :: rest => if status = vs then true else orderService.UpdateStatus.valid status rest

/-- The method `orderService.UpdateStatus`. -/
def orderService.UpdateStatus {α : Type} [Zero α] (env : Env) (db : Store α)
    (laundryOwnerID orderID status : String) : Except String (OrderResponse α) × Store α :=
  match env.parse orderID with
  | none => (.error "invalid order ID", db)
  | some orderUUID =>
  match orderRepository.FindByID db orderUUID with
  | none => (.error "order not found", db)
  | some order =>
  match env.parse laundryOwnerID with
  | none => (.error "invalid user ID", db)
  | some laundryOwnerUUID =>
  match laundryRepository.FindByID db order.LaundryID with
  | none => (.error "laundry not found", db)
  | some laundry =>
  if laundry.OwnerID ≠ laundryOwnerUUID then (.error "unauthorized", db)
  else if !orderService.UpdateStatus.valid status validStatuses then
    (.error "invalid status", db)
  else
    match orderRepository.Update env db { order with Status := status } with
    | (none, db1) => (.error "failed to update order status", db1)
    | (some order, db1) => (.ok (orderService.toOrderResponse env order), db1)

/-! ## internal/models/user.go and internal/service/laundry_service.go -/

/-- The model `models.User`. -/
structure User (α : Type) where
  ID : UUID
  Name : String
  Email : String
  PasswordHash : String
  Phone : String
  Address : String
  Latitude : Option α
  Longitude : Option α
  Role : String
  CreatedAt : Time
  UpdatedAt : Time
deriving DecidableEq, Repr

/-- The response type `UserLocation`. -/
structure UserLocation (α : Type) where
  Latitude : α
  Longitude : α
deriving DecidableEq, Repr

/-- The response type `OperatingHours`. -/
structure OperatingHours where
  Open : String
  Close : String
deriving DecidableEq, Repr

/-- The response type `LaundryListItem`. -/
structure LaundryListItem (α : Type) where
  ID : String
  Name : String
  Description : String
  Address : String
  Rating : α
  ReviewCount : Int
  Image : String
  PriceRange : String
  Distance : Option α
  IsOpen : Bool
  OperatingHours : OperatingHours
deriving DecidableEq, Repr

/-- The response type `ServiceResponse`. -/
structure ServiceResponse (α : Type) where
  ID : String
  Name : String
  Description : String
  Price : α
  Unit : String
  EstimatedTime : Int
  Category : String
deriving DecidableEq, Repr

/-- The response type `LaundryDetailResponse`. -/
structure LaundryDetailResponse (α : Type) where
  ID : String
  Name : String
  Description : String
  Address : String
  Rating : α
  ReviewCount : Int
  Image : String
  PriceRange : String
  Distance : Option α
  IsOpen : Bool
  OperatingHours : OperatingHours
  Services : List (ServiceResponse α)
deriving DecidableEq, Repr

/-- The response type `Pagination`. -/
structure Pagination where
  Page : Int
  Limit : Int
  Total : Int
  TotalPages : Int
deriving DecidableEq, Repr

/-- The response type `LaundryListResponse`. -/
structure LaundryListResponse (α : Type) where
  Laundries : List (LaundryListItem α)
  Pagination : Pagination
  UserLocation : Option (UserLocation α)
deriving DecidableEq, Repr

/-- The response type `OrderListResponse`. -/
structure OrderListResponse (α : Type) where
  Orders : List (OrderResponse α)
  Pagination : Pagination
deriving DecidableEq, Repr

/-- What the laundry service depends on besides the store and the uuid
library: the floating-point function `utils.CalculateDistance`, the
formatting verb `%.0f`, the SQL operator `ILIKE` (pattern, then text), the
method `userRepo.FindByID` of the user repository, whose source is not part
of the repository files at hand (`none` is its error result), and whether
the database fails the listing query or the price query of a laundry. -/
structure LaundryEnv (α : Type) where
  CalculateDistance : α → α → α → α → α
  sprintf0 : α → String
  ilike : String → String → Bool
  userFindByID : UUID → Option (User α)
  findAllErr : Bool
  priceRangeErr : UUID → Bool

/-- The method `laundryRepository.FindAll`: the rows that pass the text and
open filters, counted, then cut to the page by OFFSET and LIMIT in the row
order of the table (the query has no ORDER BY).  The offset is computed in
`int`; the ORM leaves out an offset that is not positive and a limit that
is negative.  `none` is the error result. -/
def laundryRepository.FindAll {α : Type} (lenv : LaundryEnv α) (db : Store α) (search : String)
    (isOpen : Option Bool) (page limit : Int) : Option (List (Laundry α) × Int) :=
  let query := db.laundries.filter fun l =>
    (decide (search = "") ||
      (lenv.ilike ("%" ++ search ++ "%") l.Name || lenv.ilike ("%" ++ search ++ "%") l.Address)) &&
    (match isOpen with
     | none => true
     | some b => l.IsOpen == b)
  if lenv.findAllErr then none
  else
    let total : Int := query.length
    let offset := wrapInt64 ((page - 1) * limit)
    let rows := query.drop offset.toNat
    some (if limit < 0 then rows else rows.take limit.toNat, total)

/-- The method `serviceRepository.GetPriceRange`: MIN and MAX of the prices
of the laundry's active services, both zero when there is none; the third
component is the error, with which both results are zero. -/
def serviceRepository.GetPriceRange {α : Type} [Zero α] [LT α]
    [DecidableRel (fun a b : α => a < b)] (lenv : LaundryEnv α) (db : Store α)
    (laundryID : UUID) : α × α × Bool :=
  if lenv.priceRangeErr laundryID then (0, 0, true)
  else
    match (db.services.filter
        (fun s => decide (s.LaundryID = laundryID) && s.IsActive)).map (fun s => s.Price) with
    | [] => (0, 0, false)
    | p :: ps =>
      (ps.foldl (fun m x => if x < m then x else m) p,
       ps.foldl (fun m x => if m < x then x else m) p, false)

/-- The function `formatPriceRange`. -/
def formatPriceRange {α : Type} [Zero α] [DecidableEq α] (lenv : LaundryEnv α)
    (minPrice maxPrice : α) : String :=
  if minPrice = 0 ∧ maxPrice = 0 then "Rp 0"
  else if minPrice = maxPrice then "Rp " ++ lenv.sprintf0 minPrice
  else "Rp " ++ lenv.sprintf0 minPrice ++ " - Rp " ++ lenv.sprintf0 maxPrice

/-- The locals `finalLat`, `finalLng` and `userLocation` of `GetAll`. -/
structure GeoContext (α : Type) where
  finalLat : Option α
  finalLng : Option α
  userLocation : Option (UserLocation α)
deriving DecidableEq, Repr

/-- The resolution of the coordinates in `GetAll`: the query parameters when
both are given, else the profile of the user when the id is given, parses,
resolves and the profile has both coordinates, else nothing. -/
def laundryService.GetAll.geo {α : Type} (lenv : LaundryEnv α) (env : Env) (lat lng : Option α)
    (userID : Option String) : GeoContext α :=
  match lat, lng with
  | some la, some ln =>
    { finalLat := some la, finalLng := some ln, userLocation := some ⟨la, ln⟩ }
  | _, _ =>
    match userID with
    | none => { finalLat := none, finalLng := none, userLocation := none }
    | some uid =>
      match env.parse uid with
      | none => { finalLat := none, finalLng := none, userLocation := none }
      | some userUUID =>
        match lenv.userFindByID userUUID with
        | none => { finalLat := none, finalLng := none, userLocation := none }
        | some user =>
          match user.Latitude, user.Longitude with
          | some la, some ln =>
            { finalLat := some la, finalLng := some ln, userLocation := some ⟨la, ln⟩ }
          | _, _ => { finalLat := none, finalLng := none, userLocation := none }

/-- The body of the first loop of `GetAll`: the list item of one laundry. -/
def laundryService.GetAll.item {α : Type} [Zero α] [DecidableEq α] [LT α]
    [DecidableRel (fun a b : α => a < b)] (lenv : LaundryEnv α) (env : Env) (db : Store α)
    (geo : GeoContext α) (laundry : Laundry α) : LaundryListItem α :=
  let range := serviceRepository.GetPriceRange lenv db laundry.ID
  let priceRange := formatPriceRange lenv range.1 range.2.1
  let distance : Option α :=
    match geo.finalLat, geo.finalLng, laundry.Latitude, laundry.Longitude with
    | some la, some ln, some lla, some lln => some (lenv.CalculateDistance la ln lla lln)
    | _, _, _, _ => none
  { ID := env.str laundry.ID
    Name := laundry.Name
    Description := laundry.Description
    Address := laundry.Address
    Rating := laundry.Rating
    ReviewCount := laundry.ReviewCount
    Image := laundry.ImageURL
    PriceRange := priceRange
    Distance := distance
    IsOpen := laundry.IsOpen
    OperatingHours := { Open := laundry.OperatingHoursOpen, Close := laundry.OperatingHoursClose } }

/-- The body of the inner sorting loop of `GetAll` for the indices `i` and
`j`: the two items are exchanged when the condition of the branch holds. -/
def laundryService.GetAll.swapIf {β : Type} (cond : β → β → Bool) (i : Nat) (items : List β)
    (j : Nat) : List β :=
  match items[i]?, items[j]? with
  | some a, some b => if cond a b then (items.set i b).set j a else items
  | _, _ => items

/-- The two nested sorting loops of `GetAll`, `i` from `0` below
`len(items)-1` and `j` from `i+1` below `len(items)`; the two branches differ
in the exchange condition only. -/
def laundryService.GetAll.sort {β : Type} (cond : β → β → Bool) (items : List β) : List β :=
  (List.range (items.length - 1)).foldl
    (fun items i =>
      (List.range' (i + 1) (items.length - (i + 1))).foldl
        (laundryService.GetAll.swapIf cond i) items)
    items

/-- The exchange condition of the distance branch. -/
def laundryService.GetAll.distanceSwap {α : Type} [LT α] [DecidableRel (fun a b : α => a < b)]
    (a b : LaundryListItem α) : Bool :=
  match a.Distance, b.Distance with
  | some da, some db => decide (db < da)
  | none, some _ => true
  | _, _ => false

/-- The exchange condition of the rating branch. -/
def laundryService.GetAll.ratingSwap {α : Type} [LT α] [DecidableRel (fun a b : α => a < b)]
    (a b : LaundryListItem α) : Bool :=
  decide (a.Rating < b.Rating)

/-- The ranking step of `GetAll`: by distance when both coordinates are
resolved, else by rating. -/
def laundryService.GetAll.rank {α : Type} [LT α] [DecidableRel (fun a b : α => a < b)]
    (geo : GeoContext α) (items : List (LaundryListItem α)) : List (LaundryListItem α) :=
  if geo.finalLat.isSome && geo.finalLng.isSome then
    laundryService.GetAll.sort laundryService.GetAll.distanceSwap items
  else laundryService.GetAll.sort laundryService.GetAll.ratingSwap items

/-- The computation of `totalPages`, with Go's truncating division. -/
def totalPages (total limit : Int) : Int :=
  if Int.tmod total limit > 0 then Int.tdiv total limit + 1 else Int.tdiv total limit

/-- The method `laundryService.GetAll`. -/
def laundryService.GetAll {α : Type} [Zero α] [DecidableEq α] [LT α]
    [DecidableRel (fun a b : α => a < b)] (lenv : LaundryEnv α) (env : Env) (db : Store α)
    (search : String) (isOpen : Option Bool) (lat lng : Option α) (userID : Option String)
    (page limit : Int) : Except String (LaundryListResponse α) :=
  let page := if page < 1 then 1 else page
  let limit := if limit < 1 then 10 else limit
  let geo := laundryService.GetAll.geo lenv env lat lng userID
  match laundryRepository.FindAll lenv db search isOpen page limit with
  | none => .error "failed to fetch laundries"
  | some (laundries, total) =>
    let items := laundries.map (laundryService.GetAll.item lenv env db geo)
    let items := laundryService.GetAll.rank geo items
    .ok
      { Laundries := items
        Pagination :=
          { Page := page, Limit := limit, Total := total, TotalPages := totalPages total limit }
        UserLocation := geo.userLocation }

/-- The method `laundryService.GetByID`. -/
def laundryService.GetByID {α : Type} [Zero α] [DecidableEq α] [LT α]
    [DecidableRel (fun a b : α => a < b)] (lenv : LaundryEnv α) (env : Env) (db : Store α)
    (id : String) (lat lng : Option α) : Except String (LaundryDetailResponse α) :=
  match env.parse id with
  | none => .error "invalid laundry ID"
  | some uuid =>
  match laundryRepository.FindByID db uuid with
  | none => .error "laundry not found"
  | some laundry =>
    let range := serviceRepository.GetPriceRange lenv db laundry.ID
    let priceRange := formatPriceRange lenv range.1 range.2.1
    let distance : Option α :=
      match lat, lng, laundry.Latitude, laundry.Longitude with
      | some la, some ln, some lla, some lln => some (lenv.CalculateDistance la ln lla lln)
      | _, _, _, _ => none
    .ok
      { ID := env.str laundry.ID
        Name := laundry.Name
        Description := laundry.Description
        Address := laundry.Address
        Rating := laundry.Rating
        ReviewCount := laundry.ReviewCount
        Image := laundry.ImageURL
        PriceRange := priceRange
        Distance := distance
        IsOpen := laundry.IsOpen
        OperatingHours :=
          { Open := laundry.OperatingHoursOpen, Close := laundry.OperatingHoursClose }
        Services := laundry.Services.map fun service =>
          { ID := env.str service.ID, Name := service.Name, Description := service.Description,
            Price := service.Price, Unit := service.Unit,
            EstimatedTime := service.EstimatedTimeHours, Category := service.Category } }

/-! ## Listing the orders of a customer -/

/-- The method `orderRepository.FindByUserID`: the orders of the user, of
the given status when it is not empty, counted, ordered by creation time
with the newest first (rows of equal time stay in table order), cut to the
page, with `OrderServices` and `Laundry` preloaded.  `none` is a result
with an error: the count query failed, or the page query did. -/
def orderRepository.FindByUserID {α : Type} [Zero α] (env : Env) (db : Store α) (userID : UUID)
    (status : String) (page limit : Int) : Option (List (Order α) × Int) :=
  let query := db.orders.filter fun o =>
    decide (o.UserID = userID) && (decide (status = "") || decide (o.Status = status))
  if env.orderCountErr then none
  else
    let total : Int := query.length
    let offset := wrapInt64 ((page - 1) * limit)
    let sorted := query.insertionSort (fun a b => b.CreatedAt ≤ a.CreatedAt)
    let rows := sorted.drop offset.toNat
    let rows := if limit < 0 then rows else rows.take limit.toNat
    if env.orderFindErr then none
    else
      some (rows.map fun order =>
          { order with
            OrderServices := db.orderServices.filter (fun os => decide (os.OrderID = order.ID))
            Laundry := (db.laundries.find? (fun l => decide (l.ID = order.LaundryID))).getD
              Laundry.zero },
        total)

/-- The method `orderService.GetByUserID`. -/
def orderService.GetByUserID {α : Type} [Zero α] (env : Env) (db : Store α)
    (userID status : String) (page limit : Int) : Except String (OrderListResponse α) :=
  match env.parse userID with
  | none => .error "invalid user ID"
  | some userUUID =>
    let page := if page < 1 then 1 else page
    let limit := if limit < 1 then 10 else limit
    match orderRepository.FindByUserID env db userUUID status page limit with
    | none => .error "failed to fetch orders"
    | some (orders, total) =>
      .ok
        { Orders := orders.map (orderService.toOrderResponse env)
          Pagination :=
            { Page := page, Limit := limit, Total := total,
              TotalPages := totalPages total limit } }

/-! ## internal/utils/validator.go -/

/-- The predicate `unicode.IsSpace`, which `strings.TrimSpace` uses. -/
def unicodeIsSpace (c : Char) : Bool :=
  let n := c.toNat
  (9 ≤ n && n ≤ 13) || n == 32 || n == 0x85 || n == 0xA0 || n == 0x1680 ||
    (0x2000 ≤ n && n ≤ 0x200A) || n == 0x2028 || n == 0x2029 || n == 0x202F || n == 0x205F ||
    n == 0x3000

/-- The function `utils.IsEmpty`: `strings.TrimSpace(str) == ""`, which holds
exactly when every character of the string is white space. -/
def utils.IsEmpty (str : String) : Bool := str.toList.all unicodeIsSpace

/-! ## internal/utils/distance.go -/

/-- The constant `math.Pi` and the functions of Go's package `math` that
`CalculateDistance` calls, on the carrier of `float64`. -/
structure GoMath (α : Type) where
  Pi : α
  Sin : α → α
  Cos : α → α
  Sqrt : α → α
  Atan2 : α → α → α
  Round : α → α

/-- The function `utils.CalculateDistance`, statement by statement.  The
operations `+`, `-`, `*` and `/` are those of `float64`, each rounding its
result on its own (no product is fused with a sum), and an integer constant
`n` of the source is the `float64` value `(n : α)`. -/
def utils.CalculateDistance {α : Type} [Add α] [Sub α] [Mul α] [Div α] [NatCast α]
    (math : GoMath α) (lat1 lon1 lat2 lon2 : α) : α :=
  let earthRadiusKm : α := (6371 : Nat)
  let lat1Rad := lat1 * math.Pi / (180 : Nat)
  let lon1Rad := lon1 * math.Pi / (180 : Nat)
  let lat2Rad := lat2 * math.Pi / (180 : Nat)
  let lon2Rad := lon2 * math.Pi / (180 : Nat)
  let dlat := lat2Rad - lat1Rad
  let dlon := lon2Rad - lon1Rad
  let a := math.Sin (dlat / (2 : Nat)) * math.Sin (dlat / (2 : Nat)) +
    math.Cos lat1Rad * math.Cos lat2Rad *
      math.Sin (dlon / (2 : Nat)) * math.Sin (dlon / (2 : Nat))
  let c := (2 : Nat) * math.Atan2 (math.Sqrt a) (math.Sqrt ((1 : Nat) - a))
  let distance := earthRadiusKm * c
  math.Round (distance * (100 : Nat)) / (100 : Nat)

/-! ## Auxiliary notions used in the statements -/

/-- An angle in degrees, in radians. -/
def radians {α : Type} [Mul α] [Div α] [NatCast α] (math : GoMath α) (degrees : α) : α :=
  degrees * math.Pi / (180 : Nat)

/-- The haversine formula as the specification writes it, for angles in
radians: `6371 * 2 * atan2(sqrt(a), sqrt(1 - a))` with
`a = sin^2(dlat/2) + cos(lat1) * cos(lat2) * sin^2(dlon/2)`, a square being
the product of the value with itself and products being taken from left to
right. -/
def haversine {α : Type} [Add α] [Sub α] [Mul α] [Div α] [NatCast α] (math : GoMath α)
    (lat1 lon1 lat2 lon2 : α) : α :=
  let a := math.Sin ((lat2 - lat1) / (2 : Nat)) * math.Sin ((lat2 - lat1) / (2 : Nat)) +
    math.Cos lat1 * math.Cos lat2 *
      math.Sin ((lon2 - lon1) / (2 : Nat)) * math.Sin ((lon2 - lon1) / (2 : Nat))
  (6371 : Nat) * (2 : Nat) * math.Atan2 (math.Sqrt a) (math.Sqrt ((1 : Nat) - a))

/-- Rounding to two decimal places: the hundredfold rounded to an integer,
divided by 100.  This is the return statement of `CalculateDistance`,
`math.Round(distance*100) / 100`, as a function of `distance`. -/
def roundTwoDecimals {α : Type} [Mul α] [Div α] [NatCast α] (round : α → α) (distance : α) : α :=
  round (distance * (100 : Nat)) / (100 : Nat)

/-- The facts about zero and one that the computation of a distance from a
point to itself goes through; each holds of `float64` and Go's `math`. -/
def ExactAtZero {α : Type} [Add α] [Sub α] [Mul α] [Div α] [NatCast α] (math : GoMath α) :
    Prop :=
  ((0 : Nat) : α) / (2 : Nat) = (0 : Nat) ∧ math.Sin ((0 : Nat) : α) = (0 : Nat) ∧
  ((0 : Nat) : α) * (0 : Nat) = (0 : Nat) ∧ ((0 : Nat) : α) + (0 : Nat) = (0 : Nat) ∧
  math.Sqrt ((0 : Nat) : α) = (0 : Nat) ∧ ((1 : Nat) : α) - (0 : Nat) = (1 : Nat) ∧
  math.Sqrt ((1 : Nat) : α) = (1 : Nat) ∧ math.Atan2 ((0 : Nat) : α) (1 : Nat) = (0 : Nat) ∧
  ((2 : Nat) : α) * (0 : Nat) = (0 : Nat) ∧ ((6371 : Nat) : α) * (0 : Nat) = (0 : Nat) ∧
  ((0 : Nat) : α) * (100 : Nat) = (0 : Nat) ∧ math.Round ((0 : Nat) : α) = (0 : Nat) ∧
  ((0 : Nat) : α) / (100 : Nat) = (0 : Nat)


/-- The request `r` resolves to the service `svc` of laundry `laundryUUID`:
its id parses, the service is stored, is active and belongs to the laundry. -/
def Resolves {α : Type} (env : Env) (db : Store α) (laundryUUID : UUID)
    (r : OrderServiceRequest α) (svc : Service α) : Prop :=
  ∃ sid, env.parse r.ServiceID = some sid ∧ serviceRepository.FindByID db sid = some svc ∧
    svc.IsActive = true ∧ svc.LaundryID = laundryUUID

/-- The line item the loop of `Create` appends for a request and its service. -/
def lineItem {α : Type} [Mul α] (svc : Service α) (r : OrderServiceRequest α) : OrderService α :=
  { ID := uuidNil, OrderID := uuidNil, ServiceID := svc.ID, ServiceName := svc.Name,
    Quantity := r.Quantity, UnitPrice := svc.Price, Unit := svc.Unit,
    Subtotal := svc.Price * r.Quantity, CreatedAt := 0 }

/-- The sum of a list of amounts, added one by one from the zero value in
list order, as `totalPrice += subtotal` does. -/
def sumInOrder {α : Type} [Add α] [Zero α] (xs : List α) : α :=
  xs.foldl (fun acc x => acc + x) 0

/-- The order record `Create` hands to the repository. -/
def newOrder {α : Type} [Zero α] (userUUID laundryUUID : UUID) (req : CreateOrderRequest α)
    (priced : Pricing α) : Order α :=
  { ID := uuidNil, UserID := userUUID, LaundryID := laundryUUID, Laundry := Laundry.zero,
    Status := "pending", TotalPrice := priced.totalPrice,
    DeliveryAddress := req.DeliveryAddress, Notes := req.Notes,
    EstimatedPickupAt := req.EstimatedPickupAt,
    EstimatedDeliveryAt :=
      match req.EstimatedPickupAt with
      | none => none
      | some pickup => some (Time.Add pickup (wrapInt64 (priced.maxEstimatedHours * timeHour))),
    ActualPickupAt := none, ActualDeliveryAt := none, OrderServices := [],
    CreatedAt := 0, UpdatedAt := 0 }

/-- A call of one of the two methods that write an order's status, with the
environment it runs in: `CancelOrder` by any requester or `UpdateStatus` by
any requester with any status string. -/
inductive Call where
  | CancelOrder (env : Env) (userID orderID : String)
  | UpdateStatus (env : Env) (laundryOwnerID orderID status : String)

/-- The store a call leaves behind, whether it succeeds or fails. -/
def Call.run {α : Type} [Zero α] (db : Store α) : Call → Store α
  | .CancelOrder env userID orderID => (orderService.CancelOrder env db userID orderID).2
  | .UpdateStatus env laundryOwnerID orderID status =>
    (orderService.UpdateStatus env db laundryOwnerID orderID status).2

/-- The store after a sequence of calls, made one after the other. -/
def runCalls {α : Type} [Zero α] (db : Store α) (calls : List Call) : Store α :=
  calls.foldl Call.run db

/-- The order `oid` has a row, and every row with that id has a status of the
fixed set. -/
def StatusInv {α : Type} (oid : UUID) (db : Store α) : Prop :=
  (∃ r ∈ db.orders, r.ID = oid) ∧ ∀ r ∈ db.orders, r.ID = oid → r.Status ∈ validStatuses

/-- The inner sorting loop of `GetAll` seen from the item at index `i` and
the items after it: the item carried along and the items left behind. -/
def sweep {β : Type} (cond : β → β → Bool) : β → List β → β × List β
  | x, [] => (x, [])
  | x, y :: ys =>
    if cond x y then ((sweep cond y ys).1, x :: (sweep cond y ys).2)
    else ((sweep cond x ys).1, y :: (sweep cond x ys).2)

/-- The first `k` rounds of the outer sorting loop of `GetAll` as repeated
sweeps. -/
def sweepSort {β : Type} (cond : β → β → Bool) : Nat → List β → List β
  | 0, l => l
  | _ + 1, [] => []
  | k + 1, x :: ys => (sweep cond x ys).1 :: sweepSort cond k (sweep cond x ys).2

/-- The filter of `FindAll`: the search text is empty or matches the name or
the address, and the open flag, when given, is the laundry's. -/
def passesFilter {α : Type} (lenv : LaundryEnv α) (search : String) (isOpen : Option Bool)
    (l : Laundry α) : Bool :=
  (decide (search = "") ||
    (lenv.ilike ("%" ++ search ++ "%") l.Name || lenv.ilike ("%" ++ search ++ "%") l.Address)) &&
  (match isOpen with
   | none => true
   | some b => l.IsOpen == b)

/-- The distance an item is expected to carry: computed from the resolved
location to the laundry when both are known, else absent. -/
def expectedDistance {α : Type} (lenv : LaundryEnv α) (location : Option (UserLocation α))
    (laundry : Laundry α) : Option α :=
  match location, laundry.Latitude, laundry.Longitude with
  | some loc, some lla, some lln =>
    some (lenv.CalculateDistance loc.Latitude loc.Longitude lla lln)
  | _, _, _ => none

/-- The prices of the active services of a laundry, in table order: the
rows the price query of `GetPriceRange` aggregates. -/
def activePrices {α : Type} (db : Store α) (laundryID : UUID) : List α :=
  (db.services.filter (fun s => decide (s.LaundryID = laundryID) && s.IsActive)).map
    (fun s => s.Price)

/-- The page and the limit as `GetAll` and `GetByUserID` use them: a page
below 1 becomes 1. -/
def normalPage (page : Int) : Int := if page < 1 then 1 else page

/-- A limit below 1 becomes 10. -/
def normalLimit (limit : Int) : Int := if limit < 1 then 10 else limit

/-! ## A concrete store, used to evaluate the code -/

def demoIds : List (String × UUID) :=
  [("u1", 1), ("u2", 2), ("u3", 3), ("l1", 10), ("l2", 11), ("s1", 21), ("s4", 24), ("s5", 25),
   ("s6", 26), ("o1", 100), ("o2", 101)]

def demoEnv : Env :=
  { parse := fun s => (demoIds.find? (fun p => decide (p.1 = s))).map (fun p => p.2)
    str := fun u => ((demoIds.find? (fun p => decide (p.2 = u))).map (fun p => p.1)).getD ""
    now := 1000
    newOrderID := 100
    newOrderServiceID := fun i => 200 + i
    orderCreateErr := false
    createBatchErr := false
    orderUpdateErr := false }

def demoService (id laundry : UUID) (name : String) (price : Int) (hours : Int) (active : Bool) :
    Service Int :=
  { ID := id, LaundryID := laundry, Name := name, Description := "", Price := price, Unit := "kg",
    EstimatedTimeHours := hours, Category := "wash", IsActive := active, CreatedAt := 1,
    UpdatedAt := 1 }

def demoLaundry (id owner : UUID) (name : String) : Laundry Int :=
  { Laundry.zero with ID := id, OwnerID := owner, Name := name }

def demoStore : Store Int :=
  { laundries := [demoLaundry 10 2 "Bersih", demoLaundry 11 3 "Kilat"]
    services := [demoService 21 10 "Cuci Reguler" 8000 24 true,
                 demoService 24 10 "Setrika Saja" 5000 12 true,
                 demoService 25 10 "Cuci Karpet" 30000 48 false,
                 demoService 26 11 "Cuci Express" 12000 6 true]
    orders := []
    orderServices := []
    trace := [] }

def demoRequest : CreateOrderRequest Int :=
  { LaundryID := "l1", Services := [⟨"s1", 3⟩, ⟨"s4", 2⟩], DeliveryAddress := "Jl. Contoh No. 123",
    Notes := "", EstimatedPickupAt := some 5000 }

def demoOrder (id : UUID) (status : String) (created : Time) : Order Int :=
  { ID := id, UserID := 1, LaundryID := 10, Laundry := Laundry.zero, Status := status,
    TotalPrice := 34000, DeliveryAddress := "Jl. Contoh No. 123", Notes := "",
    EstimatedPickupAt := some 5000, EstimatedDeliveryAt := some 86400000005000,
    ActualPickupAt := none, ActualDeliveryAt := none, OrderServices := [],
    CreatedAt := created, UpdatedAt := created }

def demoItem (id order service : UUID) (name : String) (quantity price : Int) (created : Time) :
    OrderService Int :=
  { ID := id, OrderID := order, ServiceID := service, ServiceName := name, Quantity := quantity,
    UnitPrice := price, Unit := "kg", Subtotal := price * quantity, CreatedAt := created }

def demoStoreCreated : Store Int :=
  { demoStore with
    orders := [demoOrder 100 "pending" 1000]
    orderServices := [demoItem 200 100 21 "Cuci Reguler" 3 8000 1000,
                      demoItem 201 100 24 "Setrika Saja" 2 5000 1000]
    trace := [WriteCall.orderCreate (demoOrder 0 "pending" 0),
              WriteCall.orderServiceCreateBatch
                [demoItem 0 100 21 "Cuci Reguler" 3 8000 0,
                 demoItem 0 100 24 "Setrika Saja" 2 5000 0]] }

def demoResponse (status : String) : OrderResponse Int :=
  { ID := "o1", LaundryID := "l1", LaundryName := "Bersih",
    Services := [⟨"s1", "Cuci Reguler", 3, 8000, "kg"⟩, ⟨"s4", "Setrika Saja", 2, 5000, "kg"⟩],
    TotalPrice := 34000, Status := status, CreatedAt := 1000, EstimatedPickup := some 5000,
    EstimatedDelivery := some 86400000005000, Address := "Jl. Contoh No. 123", Notes := "" }

/-- The environment of `demoEnv` with a database that refuses the INSERT of
the line items. -/
def demoEnvBatchFails : Env := { demoEnv with createBatchErr := true }

/-- The store `demoStore` with the order row of `demoRequest` and the trace of
both write calls, but no line item. -/
def demoStoreOrphan : Store Int :=
  { demoStore with
    orders := [demoOrder 100 "pending" 1000]
    trace := demoStoreCreated.trace }

/-- A request to laundry `l1` whose second service, `s6`, is an active
service of laundry `l2`. -/
def demoRequestForeign : CreateOrderRequest Int :=
  { demoRequest with Services := [⟨"s1", 3⟩, ⟨"s6", 1⟩] }

/-- The order `o1` of `demoStoreCreated` as `FindByID` returns it, with its
laundry and line items preloaded, in a given status. -/
def demoOrderLoaded (status : String) (updated : Time) : Order Int :=
  { demoOrder 100 status 1000 with
    Laundry := demoLaundry 10 2 "Bersih"
    OrderServices := demoStoreCreated.orderServices
    UpdatedAt := updated }

/-- The store `demoStoreCreated` with its order in a given status. -/
def demoStoreIn (status : String) : Store Int :=
  { demoStoreCreated with orders := [demoOrder 100 status 1000] }

/-- The environment of `demoEnv` at a later time, 2000. -/
def demoEnvLater : Env := { demoEnv with now := 2000 }

/-- Three later calls on the order `o1`: its customer cancels it, a stranger
asks for an unknown status, and the owner sets it to washing. -/
def demoCalls : List Call :=
  [Call.CancelOrder demoEnvLater "u1" "o1",
   Call.UpdateStatus demoEnvLater "u3" "o1" "lost",
   Call.UpdateStatus demoEnvLater "u2" "o1" "washing"]

/-! ## A concrete listing, used to evaluate the laundry service -/

/-- Ids of the concrete listing and their text form. -/
def demoListingIds : List (String × UUID) :=
  [("u1", 1), ("u2", 2), ("u3", 3), ("l1", 10), ("l2", 11), ("l3", 12)]

/-- The uuid library over `demoListingIds`. -/
def demoListingEnv : Env :=
  { demoEnv with
    parse := fun s => (demoListingIds.find? (fun p => decide (p.1 = s))).map (fun p => p.2)
    str := fun u => ((demoListingIds.find? (fun p => decide (p.2 = u))).map (fun p => p.1)).getD "" }

/-- A user of the concrete listing. -/
def demoUser (id : UUID) (name : String) (lat lng : Option Int) : User Int :=
  { ID := id, Name := name, Email := "", PasswordHash := "", Phone := "", Address := "",
    Latitude := lat, Longitude := lng, Role := "customer", CreatedAt := 1, UpdatedAt := 1 }

/-- The users: `u1` has a stored location, `u2` only a latitude. -/
def demoUsers : List (User Int) :=
  [demoUser 1 "John" (some 0) (some 0), demoUser 2 "Admin" (some 7) none]

/-- Amounts and their text without decimals. -/
def demoAmounts : List (Int × String) :=
  [(0, "0"), (5000, "5000"), (8000, "8000"), (12000, "12000"), (30000, "30000")]

/-- An interpretation of the collaborators of the laundry service over the
integers: the distance is the squared planar distance, a pattern matches
the text it encloses, and no query fails. -/
def demoLaundryEnv : LaundryEnv Int :=
  { CalculateDistance := fun lat1 lon1 lat2 lon2 =>
      (lat2 - lat1) * (lat2 - lat1) + (lon2 - lon1) * (lon2 - lon1)
    sprintf0 := fun x => ((demoAmounts.find? (fun p => decide (p.1 = x))).map (fun p => p.2)).getD ""
    ilike := fun pattern text => decide (pattern = "%" ++ text ++ "%")
    userFindByID := fun id => demoUsers.find? (fun u => decide (u.ID = id))
    findAllErr := false
    priceRangeErr := fun _ => false }

/-- A laundry of the concrete listing. -/
def demoListed (id : UUID) (name : String) (rating : Int) (lat lng : Option Int) : Laundry Int :=
  { Laundry.zero with
    ID := id, OwnerID := 2, Name := name, Rating := rating, Latitude := lat, Longitude := lng,
    IsOpen := true }

/-- The concrete listing: three laundries in table order, rated 4, 4 and 5;
the second has no coordinates. -/
def demoListingStore : Store Int :=
  { demoStore with
    laundries := [demoListed 10 "Bersih" 4 (some 3) (some 0), demoListed 11 "Kilat" 4 none none,
                  demoListed 12 "Wangi" 5 (some 1) (some 0)] }

/-- The list item of a laundry of the concrete listing. -/
def demoListItem (id name : String) (rating : Int) (priceRange : String)
    (distance : Option Int) : LaundryListItem Int :=
  { ID := id, Name := name, Description := "", Address := "", Rating := rating,
    ReviewCount := 0, Image := "", PriceRange := priceRange, Distance := distance,
    IsOpen := true, OperatingHours := { Open := "", Close := "" } }

/-- No resolved coordinates. -/
def demoNoGeo : GeoContext Int := { finalLat := none, finalLng := none, userLocation := none }

/-- The coordinates (0, 0), resolved. -/
def demoGeo : GeoContext Int :=
  { finalLat := some 0, finalLng := some 0, userLocation := some ⟨0, 0⟩ }

/-- The items of the concrete listing in table order, without distances:
rated 4, 4 and 5. -/
def demoItems : List (LaundryListItem Int) :=
  [demoListItem "l1" "Bersih" 4 "Rp 5000 - Rp 8000" none,
   demoListItem "l2" "Kilat" 4 "Rp 12000" none,
   demoListItem "l3" "Wangi" 5 "Rp 0" none]

/-- The items of the concrete listing seen from (0, 0): at distance 9,
without distance, and at distance 1. -/
def demoItemsNear : List (LaundryListItem Int) :=
  [demoListItem "l1" "Bersih" 4 "Rp 5000 - Rp 8000" (some 9),
   demoListItem "l2" "Kilat" 4 "Rp 12000" none,
   demoListItem "l3" "Wangi" 5 "Rp 0" (some 1)]

/-- Four items rated 3, 4, 4 and 2: no item after an item rated 4 is rated
higher than 4. -/
def demoItemsTied : List (LaundryListItem Int) :=
  [demoListItem "l4" "Segar" 3 "Rp 0" none,
   demoListItem "l1" "Bersih" 4 "Rp 5000 - Rp 8000" none,
   demoListItem "l2" "Kilat" 4 "Rp 12000" none,
   demoListItem "l5" "Rapi" 2 "Rp 0" none]

/-- The store `demoStore` with a single service, whose lead time is
2562048 hours. -/
def demoStoreLong : Store Int :=
  { demoStore with services := [demoService 21 10 "Cuci Karpet" 8000 2562048 true] }

/-- A request for that service, with pickup at time 5000. -/
def demoRequestLong : CreateOrderRequest Int :=
  { demoRequest with Services := [⟨"s1", 1⟩] }

/-- The seed's request with a delivery address of three spaces. -/
def demoRequestBlank : CreateOrderRequest Int :=
  { demoRequest with DeliveryAddress := "   " }

/-- The seed's request asking for the quantities -1 and 0. -/
def demoRequestNegative : CreateOrderRequest Int :=
  { demoRequest with Services := [⟨"s1", -1⟩, ⟨"s4", 0⟩] }

/-- The collaborators of `demoLaundryEnv` with every amount printed in
decimal. -/
def demoPriceEnv : LaundryEnv Int := { demoLaundryEnv with sprintf0 := fun x => toString x }

/-- The same collaborators with a price query that always fails. -/
def demoPriceEnvFails : LaundryEnv Int := { demoPriceEnv with priceRangeErr := fun _ => true }

/-- The concrete listing with one active service priced 8000 for `l1`, two
active services priced 8000 and 25000 for `l2`, and only an inactive service
for `l3`. -/
def demoPriceStore : Store Int :=
  { demoListingStore with
    services := [demoService 21 10 "Cuci Reguler" 8000 24 true,
                 demoService 22 11 "Cuci Reguler" 8000 24 true,
                 demoService 23 11 "Dry Clean" 25000 48 true,
                 demoService 25 12 "Cuci Karpet" 30000 48 false] }

/-- A store with twelve laundries. -/
def demoTwelveStore : Store Int :=
  { demoStore with
    laundries := (List.range 12).map fun i => demoListed (100 + i) "Laundry" 4 none none }

/-! ## The arithmetic of `float64` on finite values -/

/-- A finite `float64`: the value `mant * 2 ^ exp`, with `mant` of 53 bits,
or zero.  Infinities, NaN, the sign of zero and the limits of the exponent
are left out. -/
structure Binary64 where
  mant : Int
  exp : Int
deriving DecidableEq, Repr

/-- The number of binary digits of a number below `2 ^ fuel`, added to
`count`. -/
def Binary64.bits : Nat → Nat → Nat → Nat
  | 0, _, count => count
  | fuel + 1, n, count => if n = 0 then count else Binary64.bits fuel (n / 2) (count + 1)

/-- The `float64` nearest to `n / d * 2 ^ e`, a tie going to the even
mantissa: the rounding every arithmetic operation of `float64` ends with. -/
def Binary64.round (n : Int) (d : Nat) (e : Int) : Binary64 :=
  if n = 0 then ⟨0, 0⟩
  else
    let a := n.natAbs
    let s0 : Int := 53 - ((Binary64.bits 4096 a 0 : Int) - (Binary64.bits 4096 d 0 : Int))
    let num := a * 2 ^ s0.toNat
    let den0 := d * 2 ^ (-s0).toNat
    let s : Int := if num / den0 < 2 ^ 53 then s0 else s0 - 1
    let den := if num / den0 < 2 ^ 53 then den0 else den0 * 2
    let q := num / den
    let r := num % den
    let q1 := if den < 2 * r ∨ (2 * r = den ∧ q % 2 = 1) then q + 1 else q
    let mant : Nat := if q1 = 2 ^ 53 then 2 ^ 52 else q1
    let exp : Int := if q1 = 2 ^ 53 then e - s + 1 else e - s
    ⟨if n < 0 then -(mant : Int) else mant, exp⟩

/-- An integer constant as a `float64`. -/
instance : NatCast Binary64 := ⟨fun n => Binary64.round n 1 0⟩

/-- The product of two `float64`. -/
instance : Mul Binary64 := ⟨fun a b => Binary64.round (a.mant * b.mant) 1 (a.exp + b.exp)⟩

/-- The quotient of two `float64`, for a divisor other than zero. -/
instance : Div Binary64 :=
  ⟨fun a b =>
    if b.mant = 0 then ⟨0, 0⟩
    else Binary64.round (if b.mant < 0 then -a.mant else a.mant) b.mant.natAbs (a.exp - b.exp)⟩

/-- The function `math.Round`: the nearest integer, a half going away from
zero. -/
def Binary64.Round (x : Binary64) : Binary64 :=
  if 0 ≤ x.exp then x
  else
    let p := 2 ^ (-x.exp).toNat
    let a := x.mant.natAbs
    let q := if p ≤ 2 * (a % p) then a / p + 1 else a / p
    Binary64.round (if x.mant < 0 then -(q : Int) else q) 1 0

/-- Whether a `float64` is an integer. -/
def Binary64.isInteger (x : Binary64) : Bool :=
  decide (0 ≤ x.exp) || decide (x.mant % 2 ^ (-x.exp).toNat = 0)

/-- The first terms of the series of the functions of `math`, on the
rationals: an interpretation that satisfies the laws the theorems on
`CalculateDistance` assume. -/
def demoMath : GoMath ℚ :=
  { Pi := 355 / 113
    Sin := fun x => x
    Cos := fun x => 1 - x * x / 2
    Sqrt := fun x => x
    Atan2 := fun y x => y / x
    Round := fun x => x }

/-! ## Distances that are not numbers -/

/-- A `float64` as far as its comparisons go: a number, or NaN, which is
neither below nor above any value, itself included. -/
inductive FloatOrNaN where
  | num (x : Int)
  | nan
deriving DecidableEq, Repr

/-- The comparison `a < b` of two `float64`. -/
def FloatOrNaN.lt : FloatOrNaN → FloatOrNaN → Bool
  | .num x, .num y => decide (x < y)
  | _, _ => false

/-- The comparison `a <= b` of two `float64`. -/
def FloatOrNaN.le : FloatOrNaN → FloatOrNaN → Bool
  | .num x, .num y => decide (x ≤ y)
  | _, _ => false

instance : LT FloatOrNaN := ⟨fun a b => FloatOrNaN.lt a b = true⟩

instance : LE FloatOrNaN := ⟨fun a b => FloatOrNaN.le a b = true⟩

instance : DecidableRel (fun a b : FloatOrNaN => a < b) :=
  fun a b => inferInstanceAs (Decidable (FloatOrNaN.lt a b = true))

instance : DecidableRel (fun a b : FloatOrNaN => a ≤ b) :=
  fun a b => inferInstanceAs (Decidable (FloatOrNaN.le a b = true))

/-- A list item at a given distance. -/
def demoNanItem (id : String) (distance : Option FloatOrNaN) : LaundryListItem FloatOrNaN :=
  { ID := id, Name := "", Description := "", Address := "", Rating := .num 4,
    ReviewCount := 0, Image := "", PriceRange := "Rp 0", Distance := distance,
    IsOpen := true, OperatingHours := { Open := "", Close := "" } }

/-- Five items at the distances 3, NaN, 1, none and 2. -/
def demoItemsNan : List (LaundryListItem FloatOrNaN) :=
  [demoNanItem "l1" (some (.num 3)), demoNanItem "l2" (some .nan),
   demoNanItem "l3" (some (.num 1)), demoNanItem "l4" none, demoNanItem "l5" (some (.num 2))]

/-- Three items seen from a latitude that is NaN: the distance of a located
laundry is NaN, and the second laundry has no coordinates. -/
def demoItemsAllNan : List (LaundryListItem FloatOrNaN) :=
  [demoNanItem "l1" (some .nan), demoNanItem "l2" none, demoNanItem "l3" (some .nan)]

/-- The coordinates (0, 0), resolved. -/
def demoNanGeo : GeoContext FloatOrNaN :=
  { finalLat := some (.num 0), finalLng := some (.num 0), userLocation := some ⟨.num 0, .num 0⟩ }

/-- Resolved coordinates whose latitude is NaN, as the query `lat=NaN` gives. -/
def demoGeoAtNan : GeoContext FloatOrNaN :=
  { finalLat := some .nan, finalLng := some (.num 0), userLocation := some ⟨.nan, .num 0⟩ }

/-! ## A concrete store with prices in cents -/

/-- A decimal number, `digits / 10 ^ scale`: the carrier of the evaluations
in which a column has decimals to round. -/
structure Dec where
  digits : Int
  scale : Nat
deriving DecidableEq, Repr

/-- The decimal number `digits / 10 ^ scale` written without trailing zero
decimals. -/
def Dec.norm : Int → Nat → Dec
  | d, 0 => ⟨d, 0⟩
  | d, s + 1 => if d % 10 = 0 then Dec.norm (d / 10) s else ⟨d, s + 1⟩

/-- The zero value. -/
instance : Zero Dec := ⟨⟨0, 0⟩⟩

/-- The exact sum of two decimal numbers. -/
instance : Add Dec :=
  ⟨fun a b => Dec.norm (a.digits * 10 ^ b.scale + b.digits * 10 ^ a.scale) (a.scale + b.scale)⟩

/-- The exact product of two decimal numbers. -/
instance : Mul Dec := ⟨fun a b => Dec.norm (a.digits * b.digits) (a.scale + b.scale)⟩

/-- The number of hundredths in a decimal number rounded to two decimals,
a half going away from zero as in the type `numeric` of the database. -/
def Dec.hundredths (a : Dec) : Int :=
  if a.scale ≤ 2 then a.digits * 10 ^ (2 - a.scale)
  else
    let p : Int := 10 ^ (a.scale - 2)
    if 0 ≤ a.digits then (2 * a.digits + p) / (2 * p) else -((2 * (-a.digits) + p) / (2 * p))

/-- A column `decimal(precision,2)`: the number rounded to two decimals, when
it has at most `precision` digits. -/
def Dec.column (precision : Nat) (a : Dec) : Option Dec :=
  if (Dec.hundredths a).natAbs < 10 ^ precision then some (Dec.norm (Dec.hundredths a) 2)
  else none

/-- The decimal columns of the schema, on decimal numbers. -/
instance : DecimalColumns Dec where
  decimal10 := Dec.column 10
  decimal12 := Dec.column 12

/-- A service of laundry `l1` with a price in cents. -/
def demoCentService (id : UUID) (name : String) (price : Dec) : Service Dec :=
  { ID := id, LaundryID := 10, Name := name, Description := "", Price := price, Unit := "kg",
    EstimatedTimeHours := 24, Category := "wash", IsActive := true, CreatedAt := 1,
    UpdatedAt := 1 }

/-- The laundry `l1` with two services, priced 8000.55 and 5000.25. -/
def demoCentStore : Store Dec :=
  { laundries := [{ Laundry.zero with ID := 10, OwnerID := 2, Name := "Bersih" }]
    services := [demoCentService 21 "Cuci Reguler" ⟨800055, 2⟩,
                 demoCentService 24 "Setrika Saja" ⟨500025, 2⟩]
    orders := []
    orderServices := []
    trace := [] }

/-- A request for 0.333 of the first service. -/
def demoCentRequestOne : CreateOrderRequest Dec :=
  { LaundryID := "l1", Services := [⟨"s1", ⟨333, 3⟩⟩],
    DeliveryAddress := "Jl. Contoh No. 123", Notes := "", EstimatedPickupAt := none }

/-- A request for 0.5 of each of the two services. -/
def demoCentRequest : CreateOrderRequest Dec :=
  { LaundryID := "l1", Services := [⟨"s1", ⟨5, 1⟩⟩, ⟨"s4", ⟨5, 1⟩⟩],
    DeliveryAddress := "Jl. Contoh No. 123", Notes := "", EstimatedPickupAt := none }

/-! ## Lemmas on the repositories and the loop of `Create` -/

section Lemmas

variable {α : Type}

theorem step_ok [Add α] [Mul α] [Zero α] {env : Env} {db : Store α} {lid : UUID}
    {acc acc1 : Pricing α} {r : OrderServiceRequest α}
    (h : orderService.Create.step env db lid acc r = .ok acc1) :
    ∃ svc, Resolves env db lid r svc ∧
      acc1 = { totalPrice := acc.totalPrice + svc.Price * r.Quantity
               orderServices := acc.orderServices ++ [lineItem svc r]
               maxEstimatedHours :=
                 if svc.EstimatedTimeHours > acc.maxEstimatedHours then svc.EstimatedTimeHours
                 else acc.maxEstimatedHours } := by
  unfold orderService.Create.step at h
  split at h
  · cases h
  · rename_i sid hsid
    split at h
    · cases h
    · rename_i svc hsvc
      split at h
      · cases h
      · rename_i hact
        split at h
        · cases h
        · rename_i hl
          refine ⟨svc, ⟨sid, hsid, hsvc, ?_, ?_⟩, ?_⟩
          · simpa using hact
          · simpa using hl
          · injection h with h
            exact h.symm

theorem loop_ok [Add α] [Mul α] [Zero α] {env : Env} {db : Store α} {lid : UUID} :
    ∀ (reqs : List (OrderServiceRequest α)) (acc acc1 : Pricing α),
      orderService.Create.loop env db lid reqs acc = .ok acc1 →
      ∃ items : List (OrderService α),
        List.Forall₂ (fun r it => ∃ svc, Resolves env db lid r svc ∧ it = lineItem svc r)
          reqs items ∧
        acc1.orderServices = acc.orderServices ++ items ∧
        acc1.totalPrice = (items.map fun it => it.Subtotal).foldl (fun a x => a + x)
          acc.totalPrice := by
  intro reqs
  induction reqs with
  | nil =>
    intro acc acc1 h
    simp only [orderService.Create.loop] at h
    injection h with h
    subst h
    exact ⟨[], List.Forall₂.nil, by simp, by simp⟩
  | cons r rest ih =>
    intro acc acc1 h
    simp only [orderService.Create.loop] at h
    split at h
    · cases h
    · rename_i acc2 hstep
      obtain ⟨svc, hres, hacc2⟩ := step_ok hstep
      obtain ⟨items, hall, hitems, htot⟩ := ih acc2 acc1 h
      refine ⟨lineItem svc r :: items, List.Forall₂.cons ⟨svc, hres, rfl⟩ hall, ?_, ?_⟩
      · rw [hitems, hacc2]; simp
      · rw [htot, hacc2]; simp [lineItem]

theorem create_ok {α : Type} [Add α] [Mul α] [Zero α] [DecimalColumns α] {env : Env}
    {db db2 : Store α} {userID : String}
    {req : CreateOrderRequest α} {resp : OrderResponse α}
    (h : orderService.Create env db userID req = (.ok resp, db2)) :
    ∃ userUUID laundryUUID laundry priced order db1 items,
      env.parse userID = some userUUID ∧ env.parse req.LaundryID = some laundryUUID ∧
      req.Services ≠ [] ∧ req.DeliveryAddress ≠ "" ∧
      laundryRepository.FindByID db laundryUUID = some laundry ∧
      orderService.Create.loop env db laundryUUID req.Services
        { totalPrice := 0, orderServices := [], maxEstimatedHours := 0 } = .ok priced ∧
      orderRepository.Create env db (newOrder userUUID laundryUUID req priced) = (some order, db1) ∧
      orderServiceRepository.CreateBatch env db1
        (priced.orderServices.map fun os => { os with OrderID := order.ID }) = (some items, db2) ∧
      resp =
        { ID := env.str order.ID
          LaundryID := env.str order.LaundryID
          LaundryName := laundry.Name
          Services := serviceDetails env items
          TotalPrice := order.TotalPrice
          Status := order.Status
          CreatedAt := order.CreatedAt
          EstimatedPickup := order.EstimatedPickupAt
          EstimatedDelivery := order.EstimatedDeliveryAt
          Address := order.DeliveryAddress
          Notes := order.Notes } := by
  unfold orderService.Create at h
  split at h
  · cases h
  rename_i userUUID hu
  split at h
  · cases h
  rename_i laundryUUID hl
  split at h
  · cases h
  rename_i hlen
  split at h
  · cases h
  rename_i haddr
  split at h
  · cases h
  rename_i laundry hlaundry
  split at h
  · cases h
  rename_i priced hpriced
  simp only at h
  split at h
  · cases h
  rename_i order db1 hcreate
  split at h
  · cases h
  rename_i items db2b hbatch
  simp only [Prod.mk.injEq, Except.ok.injEq] at h
  obtain ⟨hresp, hdb⟩ := h
  subst hdb
  refine ⟨userUUID, laundryUUID, laundry, priced, order, db1, items, hu, hl, ?_, haddr, hlaundry,
    hpriced, hcreate, hbatch, hresp.symm⟩
  intro hnil
  exact hlen (by simp [hnil])

theorem orderCreate_ok {α : Type} [Zero α] [DecimalColumns α] {env : Env} {db db1 : Store α}
    {o o1 : Order α}
    (h : orderRepository.Create env db o = (some o1, db1)) :
    (∀ r ∈ db.orders, r.ID ≠ o1.ID) ∧
    o1 = { Order.BeforeCreate env.newOrderID o with
            CreatedAt := stamp env.now (Order.BeforeCreate env.newOrderID o).CreatedAt
            UpdatedAt := stamp env.now (Order.BeforeCreate env.newOrderID o).UpdatedAt } ∧
    ∃ totalPrice, DecimalColumns.decimal12 o1.TotalPrice = some totalPrice ∧
      db1 = { db with trace := db.trace ++ [WriteCall.orderCreate o]
                      orders := db.orders ++ [{ o1.row with TotalPrice := totalPrice }] } := by
  unfold orderRepository.Create at h
  simp only at h
  split at h
  · cases h
  · rename_i totalPrice htotal
    split at h
    · cases h
    · rename_i hc
      simp only [Prod.mk.injEq, Option.some.injEq] at h
      obtain ⟨h1, h2⟩ := h
      subst h1
      refine ⟨?_, rfl, totalPrice, htotal, h2.symm⟩
      intro r hr hid
      apply hc
      simp only [Bool.or_eq_true, List.any_eq_true, decide_eq_true_eq]
      exact Or.inr ⟨r, hr, hid⟩

theorem createBatch_ok {α : Type} [DecimalColumns α] {env : Env} {db db1 : Store α}
    {l items : List (OrderService α)}
    (h : orderServiceRepository.CreateBatch env db l = (some items, db1)) :
    items = prepareBatch env 0 l ∧
    ∃ rows, storedBatch items = some rows ∧
      db1 = { db with trace := db.trace ++ [WriteCall.orderServiceCreateBatch l]
                      orderServices := db.orderServices ++ rows } := by
  unfold orderServiceRepository.CreateBatch at h
  simp only at h
  split at h
  · cases h
  · split at h
    · cases h
    · rename_i rows hrows
      split at h
      · cases h
      · simp only [Prod.mk.injEq, Option.some.injEq] at h
        obtain ⟨h1, h2⟩ := h
        subst h1
        exact ⟨rfl, rows, hrows, h2.symm⟩

theorem stored_ok {α : Type} [DecimalColumns α] {os row : OrderService α}
    (h : OrderService.stored os = some row) :
    DecimalColumns.decimal10 os.Quantity = some row.Quantity ∧
    DecimalColumns.decimal12 os.Subtotal = some row.Subtotal ∧
    row = { os with Quantity := row.Quantity, Subtotal := row.Subtotal } := by
  unfold OrderService.stored at h
  split at h
  · rename_i quantity subtotal hq hs
    injection h with h
    subst h
    exact ⟨hq, hs, rfl⟩
  · cases h

theorem storedBatch_forall₂ {α : Type} [DecimalColumns α] :
    ∀ (items rows : List (OrderService α)), storedBatch items = some rows →
      List.Forall₂ (fun it row => OrderService.stored it = some row) items rows := by
  intro items
  induction items with
  | nil =>
    intro rows h
    simp only [storedBatch, Option.some.injEq] at h
    subst h
    exact List.Forall₂.nil
  | cons os rest ih =>
    intro rows h
    simp only [storedBatch] at h
    split at h
    · rename_i row rows1 hrow hrows
      injection h with h
      subst h
      exact List.Forall₂.cons hrow (ih rows1 hrows)
    · cases h

theorem forall₂_chain {β γ δ : Type} {R : β → γ → Prop} {S : γ → δ → Prop} {T : β → δ → Prop}
    (hT : ∀ a b c, R a b → S b c → T a c) :
    ∀ (as : List β) (bs : List γ) (cs : List δ),
      List.Forall₂ R as bs → List.Forall₂ S bs cs → List.Forall₂ T as cs := by
  intro as bs cs h1
  induction h1 generalizing cs with
  | nil =>
    intro h2
    cases h2
    exact List.Forall₂.nil
  | @cons a b as bs hab _ ih =>
    intro h2
    cases h2 with
    | cons hbc hrest => exact List.Forall₂.cons (hT a b _ hab hbc) (ih _ hrest)

theorem prepareBatch_forall₂ {α β : Type} (env : Env) (R : β → OrderService α → Prop)
    (hR : ∀ b os id t, R b os → R b { os with ID := id, CreatedAt := t }) :
    ∀ (bs : List β) (l : List (OrderService α)) (i : Nat),
      List.Forall₂ R bs l → List.Forall₂ R bs (prepareBatch env i l) := by
  intro bs l i h
  induction h generalizing i with
  | nil => exact List.Forall₂.nil
  | @cons b os bs l hab _ ih =>
    simp only [prepareBatch]
    refine List.Forall₂.cons ?_ (ih (i + 1))
    unfold OrderService.BeforeCreate
    split
    · exact hR b _ _ _ (hR b os _ os.CreatedAt hab)
    · exact hR b os os.ID _ hab

theorem loop_rejects [Add α] [Mul α] [Zero α] {env : Env} {db : Store α} {lid : UUID} :
    ∀ (reqs : List (OrderServiceRequest α)),
      (∃ r ∈ reqs, ∀ svc, ¬ Resolves env db lid r svc) →
      ∀ acc, ∃ e, orderService.Create.loop env db lid reqs acc = .error e := by
  intro reqs
  induction reqs with
  | nil =>
    rintro ⟨r, hr, -⟩
    cases hr
  | cons r rest ih =>
    rintro ⟨bad, hbad, hno⟩ acc
    simp only [orderService.Create.loop]
    split
    · rename_i e _
      exact ⟨e, rfl⟩
    · rename_i acc1 hstep
      obtain ⟨svc, hres, -⟩ := step_ok hstep
      rcases List.mem_cons.mp hbad with rfl | hmem
      · exact absurd hres (hno svc)
      · exact ih ⟨bad, hmem, hno⟩ acc1

end Lemmas

/-! ## Order creation -/

/-- C1 fails on the code.  For 0.333 of a service priced 8000.55 the subtotal
computed and the total returned are 2664.18315, but the rows hold the
quantity 0.33, the subtotal 2664.18 and the total 2664.18: the stored
subtotal is not price times quantity and the stored total is not the
returned one.  For 0.5 of that service and 0.5 of a service priced 5000.25
the subtotals computed are 4000.275 and 2500.125 and the total is 6500.4, but
the rows hold the subtotals 4000.28 and 2500.13 and the total 6500.4, which
is not their sum 6500.41. -/
theorem create_persists_rounded_amounts :
    (orderService.Create demoEnv demoCentStore "u1" demoCentRequestOne).1.toOption.map
        (fun r => (r.TotalPrice, r.Services.map fun d => (d.Quantity, d.Price))) =
      some (⟨266418315, 5⟩, [(⟨333, 3⟩, ⟨800055, 2⟩)]) ∧
    (orderService.Create demoEnv demoCentStore "u1" demoCentRequestOne).2.orderServices.map
        (fun it => (it.Quantity, it.UnitPrice, it.Subtotal)) =
      [(⟨33, 2⟩, ⟨800055, 2⟩, ⟨266418, 2⟩)] ∧
    (orderService.Create demoEnv demoCentStore "u1" demoCentRequestOne).2.orders.map
        (fun o => o.TotalPrice) = [⟨266418, 2⟩] ∧
    (⟨800055, 2⟩ : Dec) * ⟨333, 3⟩ = ⟨266418315, 5⟩ ∧
    (⟨266418315, 5⟩ : Dec) ≠ ⟨266418, 2⟩ ∧
    (orderService.Create demoEnv demoCentStore "u1" demoCentRequest).1.toOption.map
        (fun r => r.TotalPrice) = some ⟨65004, 1⟩ ∧
    (orderService.Create demoEnv demoCentStore "u1" demoCentRequest).2.orderServices.map
        (fun it => (it.Quantity, it.UnitPrice, it.Subtotal)) =
      [(⟨5, 1⟩, ⟨800055, 2⟩, ⟨400028, 2⟩), (⟨5, 1⟩, ⟨500025, 2⟩, ⟨250013, 2⟩)] ∧
    (orderService.Create demoEnv demoCentStore "u1" demoCentRequest).2.orders.map
        (fun o => o.TotalPrice) = [⟨65004, 1⟩] ∧
    (⟨800055, 2⟩ : Dec) * ⟨5, 1⟩ = ⟨4000275, 3⟩ ∧
    (⟨500025, 2⟩ : Dec) * ⟨5, 1⟩ = ⟨2500125, 3⟩ ∧
    (⟨4000275, 3⟩ : Dec) ≠ ⟨400028, 2⟩ ∧
    sumInOrder [(⟨400028, 2⟩ : Dec), ⟨250013, 2⟩] = ⟨650041, 2⟩ ∧
    (⟨650041, 2⟩ : Dec) ≠ ⟨65004, 1⟩ :=
  ⟨by rfl, by rfl, by rfl, by rfl, by decide, by rfl, by rfl, by rfl, by rfl, by rfl, by decide,
    by rfl, by decide⟩

/-- C1, amended: when `Create` succeeds, the subtotal it computes for each
request, in request order, is the price of the service the request resolves
to times the requested quantity, and the total it returns is the sum of those
subtotals added in request order.  The order row and the line items it
stored are exactly the new rows; they hold the total, each subtotal and each
quantity as their decimal columns keep them. -/
theorem create_total_is_sum_of_computed_subtotals {α : Type} [Add α] [Mul α] [Zero α]
    [DecimalColumns α] (env : Env)
    (db db2 : Store α) (userID : String) (req : CreateOrderRequest α) (resp : OrderResponse α)
    (h : orderService.Create env db userID req = (.ok resp, db2)) :
    req.Services ≠ [] ∧
    ∃ (order : Order α) (items : List (OrderService α)) (subtotals : List α),
      List.Forall₂
        (fun r s => ∃ sid svc, env.parse r.ServiceID = some sid ∧
          serviceRepository.FindByID db sid = some svc ∧ s = svc.Price * r.Quantity)
        req.Services subtotals ∧
      resp.TotalPrice = sumInOrder subtotals ∧
      db2.orders = db.orders ++ [order] ∧
      db2.orderServices = db.orderServices ++ items ∧
      DecimalColumns.decimal12 resp.TotalPrice = some order.TotalPrice ∧
      List.Forall₂
        (fun r it => ∃ sid svc, env.parse r.ServiceID = some sid ∧
          serviceRepository.FindByID db sid = some svc ∧ it.OrderID = order.ID ∧
          it.ServiceID = svc.ID ∧ it.UnitPrice = svc.Price ∧
          DecimalColumns.decimal10 r.Quantity = some it.Quantity ∧
          DecimalColumns.decimal12 (svc.Price * r.Quantity) = some it.Subtotal)
        req.Services items := by
  obtain ⟨userUUID, laundryUUID, laundry, priced, order, db1, items, -, -, hne, -, -, hloop,
    hcreate, hbatch, hresp⟩ := create_ok h
  obtain ⟨-, horder, totalPrice, htotal, hdb1⟩ := orderCreate_ok hcreate
  obtain ⟨hitems, rows, hrows, hdb2⟩ := createBatch_ok hbatch
  obtain ⟨raw, hall, hraw, htot⟩ := loop_ok _ _ _ hloop
  simp only [List.nil_append] at hraw
  have hprice : order.TotalPrice = priced.totalPrice := by
    rw [horder]
    unfold Order.BeforeCreate
    split <;> rfl
  have hitems2 : List.Forall₂
      (fun r it => ∃ sid svc, env.parse r.ServiceID = some sid ∧
        serviceRepository.FindByID db sid = some svc ∧ it.OrderID = order.ID ∧
        it.ServiceID = svc.ID ∧ it.UnitPrice = svc.Price ∧ it.Quantity = r.Quantity ∧
        it.Subtotal = svc.Price * r.Quantity) req.Services items := by
    rw [hitems, hraw]
    apply prepareBatch_forall₂
    · intro r os id t hr
      exact hr
    · rw [List.forall₂_map_right_iff]
      refine List.Forall₂.imp ?_ hall
      rintro r it ⟨svc, ⟨sid, hsid, hsvc, -, -⟩, rfl⟩
      exact ⟨sid, svc, hsid, hsvc, rfl, rfl, rfl, rfl, rfl⟩
  refine ⟨hne, { order.row with TotalPrice := totalPrice }, rows,
    raw.map (fun it => it.Subtotal), ?_, ?_, ?_, ?_, ?_, ?_⟩
  · rw [List.forall₂_map_right_iff]
    refine List.Forall₂.imp ?_ hall
    rintro r it ⟨svc, ⟨sid, hsid, hsvc, -, -⟩, rfl⟩
    exact ⟨sid, svc, hsid, hsvc, rfl⟩
  · rw [hresp]
    show order.TotalPrice = _
    rw [hprice, htot]
    rfl
  · rw [hdb2, hdb1]
  · rw [hdb2, hdb1]
  · rw [hresp]
    exact htotal
  · refine forall₂_chain ?_ _ _ _ hitems2 (storedBatch_forall₂ items rows hrows)
    rintro r it row ⟨sid, svc, hsid, hsvc, h1, h2, h3, h4, h5⟩ hrow
    obtain ⟨hq, hs, e⟩ := stored_ok hrow
    rw [h4] at hq
    rw [h5] at hs
    refine ⟨sid, svc, hsid, hsvc, ?_, ?_, ?_, hq, hs⟩
    · rw [e]; exact h1
    · rw [e]; exact h2
    · rw [e]; exact h3

/-- C1 amended, on the seed's example: 3 x 8000 and 2 x 5000 give the subtotals
24000 and 10000 and the total 34000, and the rows hold these amounts. -/
theorem create_total_is_sum_of_computed_subtotals_witness :
    (demoStoreCreated.orderServices.map fun it => it.Subtotal) = [24000, 10000] ∧
    (demoStoreCreated.orders.map fun o => o.TotalPrice) = [34000] ∧
    (demoResponse "pending").TotalPrice = 34000 ∧
    demoRequest.Services ≠ [] ∧
    ∃ (order : Order Int) (items : List (OrderService Int)) (subtotals : List Int),
      List.Forall₂
        (fun r s => ∃ sid svc, demoEnv.parse r.ServiceID = some sid ∧
          serviceRepository.FindByID demoStore sid = some svc ∧ s = svc.Price * r.Quantity)
        demoRequest.Services subtotals ∧
      (demoResponse "pending").TotalPrice = sumInOrder subtotals ∧
      demoStoreCreated.orders = demoStore.orders ++ [order] ∧
      demoStoreCreated.orderServices = demoStore.orderServices ++ items ∧
      DecimalColumns.decimal12 (demoResponse "pending").TotalPrice = some order.TotalPrice ∧
      List.Forall₂
        (fun r it => ∃ sid svc, demoEnv.parse r.ServiceID = some sid ∧
          serviceRepository.FindByID demoStore sid = some svc ∧ it.OrderID = order.ID ∧
          it.ServiceID = svc.ID ∧ it.UnitPrice = svc.Price ∧
          DecimalColumns.decimal10 r.Quantity = some it.Quantity ∧
          DecimalColumns.decimal12 (svc.Price * r.Quantity) = some it.Subtotal)
        demoRequest.Services items :=
  ⟨by decide, by decide, by decide,
    create_total_is_sum_of_computed_subtotals demoEnv demoStore demoStoreCreated "u1"
      demoRequest (demoResponse "pending") (by rfl)⟩

/-- C2, evaluated on the code: when the database refuses the line items
after the order row was written, `Create` fails, yet the store it leaves
holds the new order (a pending order for 34000) with no line item, where the
store before the call held no order at all. -/
theorem create_batch_failure_keeps_order :
    orderService.Create demoEnvBatchFails demoStore "u1" demoRequest =
      (.error "failed to create order services", demoStoreOrphan) ∧
    demoStore.orders = [] ∧
    demoStoreOrphan.orders = [demoOrder 100 "pending" 1000] ∧
    demoStoreOrphan.orderServices = [] ∧
    orderRepository.FindByID demoStore 100 = none ∧
    orderRepository.FindByID demoStoreOrphan 100 =
      some { demoOrder 100 "pending" 1000 with
              Laundry := demoLaundry 10 2 "Bersih", OrderServices := [] } ∧
    demoStoreOrphan ≠ demoStore :=
  ⟨by rfl, by rfl, by rfl, by rfl, by rfl, by rfl, by decide⟩

/-- C3: `Create` fails and leaves the store as it was, with no write call
made, when the service list is empty or some requested service, wherever it
stands in the list, has an id that does not parse, is not stored, is
inactive, or belongs to a laundry other than the requested one. -/
theorem create_rejects_unorderable_service {α : Type} [Add α] [Mul α] [Zero α] [DecimalColumns α]
    (env : Env)
    (db : Store α) (userID : String) (req : CreateOrderRequest α)
    (h : req.Services = [] ∨
      ∃ r ∈ req.Services, ∀ sid svc, env.parse r.ServiceID = some sid →
        serviceRepository.FindByID db sid = some svc →
        svc.IsActive = false ∨ env.parse req.LaundryID ≠ some svc.LaundryID) :
    ∃ e, orderService.Create env db userID req = (.error e, db) := by
  unfold orderService.Create
  split
  · exact ⟨_, rfl⟩
  rename_i userUUID hu
  split
  · exact ⟨_, rfl⟩
  rename_i laundryUUID hl
  split
  · exact ⟨_, rfl⟩
  rename_i hlen
  split
  · exact ⟨_, rfl⟩
  split
  · exact ⟨_, rfl⟩
  rcases h with hnil | ⟨r, hr, hbad⟩
  · exact absurd (by simp [hnil]) hlen
  · have hrej : ∃ r ∈ req.Services, ∀ svc, ¬ Resolves env db laundryUUID r svc := by
      refine ⟨r, hr, ?_⟩
      rintro svc ⟨sid, hsid, hsvc, hact, hlid⟩
      rcases hbad sid svc hsid hsvc with hoff | hother
      · rw [hact] at hoff
        cases hoff
      · exact hother (by rw [hl, hlid])
    obtain ⟨e, he⟩ := loop_rejects req.Services hrej
      { totalPrice := 0, orderServices := [], maxEstimatedHours := 0 }
    rw [he]
    exact ⟨e, rfl⟩

/-- C3, on a request whose second service is an active service of another
laundry: nothing is written. -/
theorem create_rejects_unorderable_service_witness :
    (demoRequestForeign.Services = [] ∨
      ∃ r ∈ demoRequestForeign.Services, ∀ sid svc, demoEnv.parse r.ServiceID = some sid →
        serviceRepository.FindByID demoStore sid = some svc →
        svc.IsActive = false ∨ demoEnv.parse demoRequestForeign.LaundryID ≠ some svc.LaundryID) ∧
    (∃ e, orderService.Create demoEnv demoStore "u1" demoRequestForeign = (.error e, demoStore)) ∧
    orderService.Create demoEnv demoStore "u1" demoRequestForeign =
      (.error "service does not belong to this laundry", demoStore) :=
  have hyp : demoRequestForeign.Services = [] ∨
      ∃ r ∈ demoRequestForeign.Services, ∀ sid svc, demoEnv.parse r.ServiceID = some sid →
        serviceRepository.FindByID demoStore sid = some svc →
        svc.IsActive = false ∨
          demoEnv.parse demoRequestForeign.LaundryID ≠ some svc.LaundryID :=
    Or.inr ⟨⟨"s6", 1⟩, by decide, fun sid svc h1 h2 => by
      have e1 : some 26 = some sid := h1
      cases e1
      have e2 : some (demoService 26 11 "Cuci Express" 12000 6 true) = some svc := h2
      cases e2
      exact Or.inr (by decide)⟩
  ⟨hyp, create_rejects_unorderable_service demoEnv demoStore "u1" demoRequestForeign hyp, by rfl⟩


theorem valid_iff_mem (status : String) (l : List String) :
    orderService.UpdateStatus.valid status l = true ↔ status ∈ l := by
  induction l with
  | nil => simp [orderService.UpdateStatus.valid]
  | cons vs rest ih =>
    simp only [orderService.UpdateStatus.valid, List.mem_cons]
    split
    · rename_i heq
      simp [heq]
    · rename_i hne
      rw [ih]
      constructor
      · exact Or.inr
      · rintro (h | h)
        · exact absurd h hne
        · exact h

theorem orderFind_some {α : Type} [Zero α] {db : Store α} {oid : UUID} {order : Order α}
    (h : orderRepository.FindByID db oid = some order) :
    ∃ row, db.orders.find? (fun o => decide (o.ID = oid)) = some row ∧ row ∈ db.orders ∧
      row.ID = oid ∧
      order = { row with
        OrderServices := db.orderServices.filter (fun os => decide (os.OrderID = row.ID))
        Laundry := (db.laundries.find? (fun l => decide (l.ID = row.LaundryID))).getD
          Laundry.zero } := by
  unfold orderRepository.FindByID at h
  split at h
  · cases h
  · rename_i row hrow
    injection h with h
    refine ⟨row, hrow, List.mem_of_find?_eq_some hrow, ?_, h.symm⟩
    simpa using List.find?_some hrow

theorem orderUpdate_ok {α : Type} [Zero α] {env : Env} {db db1 : Store α} {o o1 : Order α}
    (h : orderRepository.Update env db o = (some o1, db1)) : env.orderUpdateErr = false := by
  unfold orderRepository.Update at h
  simp only at h
  split at h
  · cases h
  · rename_i hne
    simpa using hne

theorem orderUpdate_found {α : Type} [Zero α] {env : Env} {db : Store α} {oid : UUID}
    {order : Order α} (o : Order α) (hfind : orderRepository.FindByID db oid = some order)
    (hacc : env.orderUpdateErr = false) (hid : o.ID = order.ID)
    (hl : o.LaundryID = order.LaundryID) (hit : o.OrderServices = order.OrderServices)
    (hla : o.Laundry = order.Laundry) :
    ∃ db1, orderRepository.Update env db o = (some { o with UpdatedAt := env.now }, db1) ∧
      db1.trace = db.trace ++ [WriteCall.orderUpdate o] ∧
      db1.laundries = db.laundries ∧ db1.services = db.services ∧
      db1.orderServices = db.orderServices ∧
      orderRepository.FindByID db1 oid = some { o with UpdatedAt := env.now } := by
  obtain ⟨row, hrow, hmem, hrid, horder⟩ := orderFind_some hfind
  have hoid : o.ID = oid := by rw [hid, horder]; exact hrid
  have hany : db.orders.any (fun r => decide (r.ID = o.ID)) = true := by
    simp only [List.any_eq_true, decide_eq_true_eq]
    exact ⟨row, hmem, by rw [hrid, hoid]⟩
  refine ⟨{ db with
      trace := db.trace ++ [WriteCall.orderUpdate o]
      orders := db.orders.map fun r =>
        if r.ID = o.ID then ({ o with UpdatedAt := env.now } : Order α).row else r },
    ?_, rfl, rfl, rfl, rfl, ?_⟩
  · unfold orderRepository.Update
    simp only [hacc, hany]
    rfl
  · unfold orderRepository.FindByID
    have hcomp : ((fun r : Order α => decide (r.ID = oid)) ∘
        fun r : Order α => if r.ID = o.ID then ({ o with UpdatedAt := env.now } : Order α).row
          else r) = fun r => decide (r.ID = oid) := by
      funext r
      simp only [Function.comp]
      split
      · rename_i hr
        simp [Order.row, hoid, hr ▸ hoid]
      · rfl
    simp only [List.find?_map, hcomp, hrow, Option.map_some']
    have hrid2 : row.ID = o.ID := by rw [hrid, hoid]
    simp only [hrid2, if_true]
    rw [horder] at hl hit hla
    simp only at hl hit hla
    congr 1
    cases o
    simp only [Order.row] at *
    subst hit hla hl
    simp [hrid2]


/-! ## Cancellation -/

/-- C4: for the order's own customer and a store that accepts the update,
`CancelOrder` succeeds exactly when the order is pending or confirmed; in
every other status it fails with the cannot-be-cancelled error and returns
the store as it was, so no update call was made and the stored order, its
status included, is unchanged. -/
theorem cancel_succeeds_iff_pending_or_confirmed {α : Type} [Zero α] (env : Env) (db : Store α)
    (userID orderID : String) (oid : UUID) (order : Order α)
    (hid : env.parse orderID = some oid)
    (hfind : orderRepository.FindByID db oid = some order)
    (hu : env.parse userID = some order.UserID)
    (hacc : env.orderUpdateErr = false) :
    ((∃ resp db1, orderService.CancelOrder env db userID orderID = (.ok resp, db1)) ↔
      (order.Status = "pending" ∨ order.Status = "confirmed")) ∧
    (¬ (order.Status = "pending" ∨ order.Status = "confirmed") →
      orderService.CancelOrder env db userID orderID =
        (.error "order cannot be cancelled at this stage", db)) := by
  have key : ¬ (order.Status = "pending" ∨ order.Status = "confirmed") →
      orderService.CancelOrder env db userID orderID =
        (.error "order cannot be cancelled at this stage", db) := by
    intro hst
    have hst2 : order.Status ≠ "pending" ∧ order.Status ≠ "confirmed" := not_or.mp hst
    unfold orderService.CancelOrder
    simp only [hid, hfind, hu, ne_eq, not_true_eq_false, if_false, hst2, not_false_eq_true,
      and_self, if_true]
  refine ⟨⟨?_, ?_⟩, key⟩
  · rintro ⟨resp, db1, hok⟩
    by_contra hst
    rw [key hst] at hok
    cases hok
  · intro hst
    have hst2 : ¬ (order.Status ≠ "pending" ∧ order.Status ≠ "confirmed") := by
      rintro ⟨h1, h2⟩
      exact hst.elim h1 h2
    obtain ⟨db1, hupd, -⟩ := orderUpdate_found ({ order with Status := "cancelled" })
      hfind hacc rfl rfl rfl rfl
    refine ⟨orderService.toOrderResponse env
      { ({ order with Status := "cancelled" } : Order α) with UpdatedAt := env.now }, db1, ?_⟩
    unfold orderService.CancelOrder
    simp only [hid, hfind, hu, ne_eq, not_true_eq_false, if_false, hst2, hupd]

/-- C4, on an order that is ready: its customer cannot cancel it, and the
store is left as it was. -/
theorem cancel_succeeds_iff_pending_or_confirmed_witness :
    ((∃ resp db1, orderService.CancelOrder demoEnv (demoStoreIn "ready") "u1" "o1" =
        (.ok resp, db1)) ↔
      ((demoOrderLoaded "ready" 1000).Status = "pending" ∨
        (demoOrderLoaded "ready" 1000).Status = "confirmed")) ∧
    (¬ ((demoOrderLoaded "ready" 1000).Status = "pending" ∨
        (demoOrderLoaded "ready" 1000).Status = "confirmed") →
      orderService.CancelOrder demoEnv (demoStoreIn "ready") "u1" "o1" =
        (.error "order cannot be cancelled at this stage", demoStoreIn "ready")) :=
  cancel_succeeds_iff_pending_or_confirmed demoEnv (demoStoreIn "ready") "u1" "o1" 100
    (demoOrderLoaded "ready" 1000) (by rfl) (by rfl) (by rfl) (by rfl)

/-- C5: a successful `CancelOrder` hands to the store the fetched order with
its status set to cancelled and every other field as fetched; the response
is that of the fetched order with only the status changed; and the order
read back afterwards is the fetched order, line items and laundry included,
with the new status and the update time the store sets on every save. -/
theorem cancel_changes_only_status {α : Type} [Zero α] (env : Env) (db db1 : Store α)
    (userID orderID : String) (oid : UUID) (order : Order α) (resp : OrderResponse α)
    (hid : env.parse orderID = some oid)
    (hfind : orderRepository.FindByID db oid = some order)
    (h : orderService.CancelOrder env db userID orderID = (.ok resp, db1)) :
    db1.trace = db.trace ++ [WriteCall.orderUpdate { order with Status := "cancelled" }] ∧
    resp = { orderService.toOrderResponse env order with Status := "cancelled" } ∧
    orderRepository.FindByID db1 oid =
      some { order with Status := "cancelled", UpdatedAt := env.now } ∧
    db1.orderServices = db.orderServices ∧ db1.laundries = db.laundries ∧
    db1.services = db.services := by
  unfold orderService.CancelOrder at h
  simp only [hid, hfind] at h
  split at h
  · cases h
  split at h
  · cases h
  split at h
  · cases h
  split at h
  · cases h
  rename_i o1 db1b hupd
  have hacc := orderUpdate_ok hupd
  obtain ⟨db2, hupd2, htrace, hlau, hsvc, hitems, hread⟩ :=
    orderUpdate_found ({ order with Status := "cancelled" }) hfind hacc rfl rfl rfl rfl
  rw [hupd2] at hupd
  simp only [Prod.mk.injEq, Option.some.injEq] at hupd
  obtain ⟨ho1, hdb⟩ := hupd
  simp only [Prod.mk.injEq, Except.ok.injEq] at h
  obtain ⟨hresp, hdb1⟩ := h
  subst hdb hdb1 ho1
  exact ⟨htrace, hresp.symm, hread, hitems, hlau, hsvc⟩

/-- C5, on the pending order of the concrete store, cancelled by its
customer at a later time. -/
theorem cancel_changes_only_status_witness :
    (orderService.CancelOrder demoEnvLater demoStoreCreated "u1" "o1").2.trace =
      demoStoreCreated.trace ++
        [WriteCall.orderUpdate { demoOrderLoaded "pending" 1000 with Status := "cancelled" }] ∧
    demoResponse "cancelled" =
      { orderService.toOrderResponse demoEnvLater (demoOrderLoaded "pending" 1000) with
        Status := "cancelled" } ∧
    orderRepository.FindByID
        (orderService.CancelOrder demoEnvLater demoStoreCreated "u1" "o1").2 100 =
      some { demoOrderLoaded "pending" 1000 with
              Status := "cancelled", UpdatedAt := demoEnvLater.now } ∧
    (orderService.CancelOrder demoEnvLater demoStoreCreated "u1" "o1").2.orderServices =
      demoStoreCreated.orderServices ∧
    (orderService.CancelOrder demoEnvLater demoStoreCreated "u1" "o1").2.laundries =
      demoStoreCreated.laundries ∧
    (orderService.CancelOrder demoEnvLater demoStoreCreated "u1" "o1").2.services =
      demoStoreCreated.services :=
  cancel_changes_only_status demoEnvLater demoStoreCreated
    (orderService.CancelOrder demoEnvLater demoStoreCreated "u1" "o1").2 "u1" "o1" 100
    (demoOrderLoaded "pending" 1000) (demoResponse "cancelled") (by rfl) (by rfl) (by rfl)

/-! ## Ownership checks -/

/-- C6: for an order that exists, in whatever status, and a requester whose
id is not the order's customer id, `GetByID` and `CancelOrder` both fail
with the unauthorized error, which is not the not-found error, and return
the store as it was: `CancelOrder` made no update call. -/
theorem non_customer_is_unauthorized {α : Type} [Zero α] (env : Env) (db : Store α)
    (userID orderID : String) (oid u : UUID) (order : Order α)
    (hid : env.parse orderID = some oid)
    (hfind : orderRepository.FindByID db oid = some order)
    (hu : env.parse userID = some u)
    (hne : u ≠ order.UserID) :
    orderService.GetByID env db userID orderID = (.error "unauthorized", db) ∧
    orderService.CancelOrder env db userID orderID = (.error "unauthorized", db) ∧
    (Except.error "unauthorized" : Except String (OrderResponse α)) ≠
      Except.error "order not found" := by
  have hne2 : order.UserID ≠ u := fun h => hne h.symm
  refine ⟨?_, ?_, ?_⟩
  · unfold orderService.GetByID
    simp only [hid, hfind, hu, ne_eq, hne2, not_false_eq_true, if_true]
  · unfold orderService.CancelOrder
    simp only [hid, hfind, hu, ne_eq, hne2, not_false_eq_true, if_true]
  · intro h
    injection h with h
    revert h
    decide

/-- C6, on the pending order of customer `u1`, requested by `u2`. -/
theorem non_customer_is_unauthorized_witness :
    orderService.GetByID demoEnv demoStoreCreated "u2" "o1" =
      (.error "unauthorized", demoStoreCreated) ∧
    orderService.CancelOrder demoEnv demoStoreCreated "u2" "o1" =
      (.error "unauthorized", demoStoreCreated) ∧
    (Except.error "unauthorized" : Except String (OrderResponse Int)) ≠
      Except.error "order not found" :=
  non_customer_is_unauthorized demoEnv demoStoreCreated "u2" "o1" 100 2
    (demoOrderLoaded "pending" 1000) (by rfl) (by rfl) (by rfl) (by decide)

/-! ## Status updates by the laundry owner -/

/-- C7: for an order that exists, whose laundry resolves, and a requester
whose id is not the id of that laundry's owner (the order's own customer
included), `UpdateStatus` fails with unauthorized for every status value,
valid or not, and returns the store as it was, so the stored order keeps its
status. -/
theorem update_status_non_owner_unauthorized {α : Type} [Zero α] (env : Env) (db : Store α)
    (laundryOwnerID orderID status : String) (oid u : UUID) (order : Order α)
    (laundry : Laundry α)
    (hid : env.parse orderID = some oid)
    (hfind : orderRepository.FindByID db oid = some order)
    (hu : env.parse laundryOwnerID = some u)
    (hl : laundryRepository.FindByID db order.LaundryID = some laundry)
    (hne : u ≠ laundry.OwnerID) :
    orderService.UpdateStatus env db laundryOwnerID orderID status =
      (.error "unauthorized", db) ∧
    orderRepository.FindByID
      (orderService.UpdateStatus env db laundryOwnerID orderID status).2 oid = some order := by
  have hne2 : laundry.OwnerID ≠ u := fun h => hne h.symm
  have hres : orderService.UpdateStatus env db laundryOwnerID orderID status =
      (.error "unauthorized", db) := by
    unfold orderService.UpdateStatus
    simp only [hid, hfind, hu, hl, ne_eq, hne2, not_false_eq_true, if_true]
  exact ⟨hres, by rw [hres]; exact hfind⟩

/-- C7, on the pending order of customer `u1`, who asks for `ready`, a valid
status, without owning the laundry. -/
theorem update_status_non_owner_unauthorized_witness :
    orderService.UpdateStatus demoEnv demoStoreCreated "u1" "o1" "ready" =
      (.error "unauthorized", demoStoreCreated) ∧
    orderRepository.FindByID
      (orderService.UpdateStatus demoEnv demoStoreCreated "u1" "o1" "ready").2 100 =
        some (demoOrderLoaded "pending" 1000) :=
  update_status_non_owner_unauthorized demoEnv demoStoreCreated "u1" "o1" "ready" 100 1
    (demoOrderLoaded "pending" 1000)
    { demoLaundry 10 2 "Bersih" with Services := [demoService 21 10 "Cuci Reguler" 8000 24 true,
                                                 demoService 24 10 "Setrika Saja" 5000 12 true] }
    (by rfl) (by rfl) (by rfl) (by rfl) (by decide)

/-- C8: for the owner of the order's laundry and a status that is not one of
the ten fixed values, `UpdateStatus` fails with the invalid-status error and
returns the store as it was, so the order is unchanged. -/
theorem update_status_rejects_unknown_status {α : Type} [Zero α] (env : Env) (db : Store α)
    (laundryOwnerID orderID status : String) (oid : UUID) (order : Order α)
    (laundry : Laundry α)
    (hid : env.parse orderID = some oid)
    (hfind : orderRepository.FindByID db oid = some order)
    (hu : env.parse laundryOwnerID = some laundry.OwnerID)
    (hl : laundryRepository.FindByID db order.LaundryID = some laundry)
    (hs : status ∉ ["pending", "confirmed", "picked-up", "washing", "drying", "ironing",
      "ready", "delivered", "completed", "cancelled"]) :
    orderService.UpdateStatus env db laundryOwnerID orderID status =
      (.error "invalid status", db) ∧
    orderRepository.FindByID
      (orderService.UpdateStatus env db laundryOwnerID orderID status).2 oid = some order := by
  have hv : orderService.UpdateStatus.valid status validStatuses = false := by
    cases hval : orderService.UpdateStatus.valid status validStatuses with
    | false => rfl
    | true => exact absurd ((valid_iff_mem status validStatuses).mp hval) hs
  have hres : orderService.UpdateStatus env db laundryOwnerID orderID status =
      (.error "invalid status", db) := by
    unfold orderService.UpdateStatus
    simp only [hid, hfind, hu, hl, ne_eq, not_true_eq_false, if_false, hv, Bool.not_false,
      if_true]
  exact ⟨hres, by rw [hres]; exact hfind⟩

/-- C8, on the case variant `Pending`, asked for by the owner `u2`; the empty
string is not in the set either. -/
theorem update_status_rejects_unknown_status_witness :
    "" ∉ validStatuses ∧
    orderService.UpdateStatus demoEnv demoStoreCreated "u2" "o1" "Pending" =
      (.error "invalid status", demoStoreCreated) ∧
    orderRepository.FindByID
      (orderService.UpdateStatus demoEnv demoStoreCreated "u2" "o1" "Pending").2 100 =
        some (demoOrderLoaded "pending" 1000) :=
  ⟨by decide,
    update_status_rejects_unknown_status demoEnv demoStoreCreated "u2" "o1" "Pending" 100
      (demoOrderLoaded "pending" 1000)
      { demoLaundry 10 2 "Bersih" with Services := [demoService 21 10 "Cuci Reguler" 8000 24 true,
                                                   demoService 24 10 "Setrika Saja" 5000 12 true] }
      (by rfl) (by rfl) (by rfl) (by rfl) (by decide)⟩

/-- C9: for the owner of the order's laundry, an order in any status, a new
status among the ten fixed values and a store that accepts the update,
`UpdateStatus` succeeds; the response carries the new status and the order
read back afterwards is the fetched order with the new status (and the
update time). -/
theorem update_status_reaches_any_status {α : Type} [Zero α] (env : Env) (db : Store α)
    (laundryOwnerID orderID status : String) (oid : UUID) (order : Order α)
    (laundry : Laundry α)
    (hid : env.parse orderID = some oid)
    (hfind : orderRepository.FindByID db oid = some order)
    (hu : env.parse laundryOwnerID = some laundry.OwnerID)
    (hl : laundryRepository.FindByID db order.LaundryID = some laundry)
    (hs : status ∈ ["pending", "confirmed", "picked-up", "washing", "drying", "ironing",
      "ready", "delivered", "completed", "cancelled"])
    (hacc : env.orderUpdateErr = false) :
    (orderService.UpdateStatus env db laundryOwnerID orderID status).1 =
      .ok { orderService.toOrderResponse env order with Status := status } ∧
    orderRepository.FindByID
      (orderService.UpdateStatus env db laundryOwnerID orderID status).2 oid =
        some { order with Status := status, UpdatedAt := env.now } := by
  have hv : orderService.UpdateStatus.valid status validStatuses = true :=
    (valid_iff_mem status validStatuses).mpr hs
  obtain ⟨db1, hupd, -, -, -, -, hread⟩ :=
    orderUpdate_found ({ order with Status := status }) hfind hacc rfl rfl rfl rfl
  have hres : orderService.UpdateStatus env db laundryOwnerID orderID status =
      (.ok { orderService.toOrderResponse env order with Status := status }, db1) := by
    unfold orderService.UpdateStatus
    simp only [hid, hfind, hu, hl, ne_eq, not_true_eq_false, if_false, hv, Bool.not_true, hupd]
    rfl
  rw [hres]
  exact ⟨rfl, hread⟩

/-- C9, out of a terminal state: the owner `u2` moves a completed order back
to pending. -/
theorem update_status_reaches_any_status_witness :
    (orderService.UpdateStatus demoEnvLater (demoStoreIn "completed") "u2" "o1" "pending").1 =
      .ok { orderService.toOrderResponse demoEnvLater (demoOrderLoaded "completed" 1000) with
            Status := "pending" } ∧
    orderRepository.FindByID
      (orderService.UpdateStatus demoEnvLater (demoStoreIn "completed") "u2" "o1" "pending").2
        100 =
      some { demoOrderLoaded "completed" 1000 with
              Status := "pending", UpdatedAt := demoEnvLater.now } :=
  update_status_reaches_any_status demoEnvLater (demoStoreIn "completed") "u2" "o1" "pending" 100
    (demoOrderLoaded "completed" 1000)
    { demoLaundry 10 2 "Bersih" with Services := [demoService 21 10 "Cuci Reguler" 8000 24 true,
                                                 demoService 24 10 "Setrika Saja" 5000 12 true] }
    (by rfl) (by rfl) (by rfl) (by rfl) (by decide) (by rfl)


/-! ## The status of an order over its life -/

theorem statusInv_find {α : Type} [Zero α] {oid : UUID} {db : Store α} (h : StatusInv oid db) :
    ∃ o, orderRepository.FindByID db oid = some o ∧ o.Status ∈ validStatuses := by
  obtain ⟨⟨r, hr, hrid⟩, hall⟩ := h
  cases hfind : db.orders.find? (fun o => decide (o.ID = oid)) with
  | none =>
    rw [List.find?_eq_none] at hfind
    exact absurd (by simpa using hrid) (hfind r hr)
  | some row =>
    have hmem := List.mem_of_find?_eq_some hfind
    have hid : row.ID = oid := by simpa using List.find?_some hfind
    refine ⟨{ row with
      OrderServices := db.orderServices.filter (fun os => decide (os.OrderID = row.ID))
      Laundry := (db.laundries.find? (fun l => decide (l.ID = row.LaundryID))).getD
        Laundry.zero }, ?_, hall row hmem hid⟩
    unfold orderRepository.FindByID
    rw [hfind]

theorem orderUpdate_statusInv {α : Type} [Zero α] (env : Env) (db : Store α) (o : Order α)
    (oid : UUID) (hinv : StatusInv oid db) (hs : o.Status ∈ validStatuses) :
    StatusInv oid (orderRepository.Update env db o).2 := by
  obtain ⟨⟨r, hr, hrid⟩, hall⟩ := hinv
  unfold orderRepository.Update
  simp only
  split
  · exact ⟨⟨r, hr, hrid⟩, hall⟩
  · split
    · constructor
      · refine ⟨if r.ID = o.ID then ({ o with UpdatedAt := env.now } : Order α).row else r,
          List.mem_map.mpr ⟨r, hr, rfl⟩, ?_⟩
        split
        · rename_i heq
          rw [← hrid, heq]
          rfl
        · exact hrid
      · intro r2 hr2 hid2
        obtain ⟨r1, hr1, rfl⟩ := List.mem_map.mp hr2
        split at hid2
        · rename_i heq
          rw [if_pos heq]
          exact hs
        · rename_i hneq
          rw [if_neg hneq]
          exact hall r1 hr1 hid2
    · constructor
      · exact ⟨r, List.mem_append_left _ hr, hrid⟩
      · intro r2 hr2 hid2
        rcases List.mem_append.mp hr2 with h1 | h1
        · exact hall r2 h1 hid2
        · rw [List.mem_singleton.mp h1]
          exact hs

theorem cancelOrder_statusInv {α : Type} [Zero α] (env : Env) (db : Store α)
    (userID orderID : String) (oid : UUID) (hinv : StatusInv oid db) :
    StatusInv oid (orderService.CancelOrder env db userID orderID).2 := by
  unfold orderService.CancelOrder
  split
  · exact hinv
  split
  · exact hinv
  split
  · exact hinv
  split
  · exact hinv
  split
  · exact hinv
  rename_i order _ _ _ _ _ _
  have hc : "cancelled" ∈ validStatuses := by decide
  have h := orderUpdate_statusInv env db { order with Status := "cancelled" } oid hinv hc
  cases hp : orderRepository.Update env db { order with Status := "cancelled" } with
  | mk o1 db1 =>
    rw [hp] at h
    cases o1 <;> exact h

theorem updateStatus_statusInv {α : Type} [Zero α] (env : Env) (db : Store α)
    (laundryOwnerID orderID status : String) (oid : UUID) (hinv : StatusInv oid db) :
    StatusInv oid (orderService.UpdateStatus env db laundryOwnerID orderID status).2 := by
  unfold orderService.UpdateStatus
  split
  · exact hinv
  split
  · exact hinv
  split
  · exact hinv
  split
  · exact hinv
  split
  · exact hinv
  split
  · exact hinv
  rename_i order _ _ _ _ _ _ _ _ hvalid
  have hs : status ∈ validStatuses := by
    rw [← valid_iff_mem]
    simpa using hvalid
  have h := orderUpdate_statusInv env db { order with Status := status } oid hinv hs
  cases hp : orderRepository.Update env db { order with Status := status } with
  | mk o1 db1 =>
    rw [hp] at h
    cases o1 <;> exact h

theorem runCalls_statusInv {α : Type} [Zero α] (oid : UUID) (calls : List Call) :
    ∀ db : Store α, StatusInv oid db → StatusInv oid (runCalls db calls) := by
  induction calls with
  | nil => intro db h; exact h
  | cons c rest ih =>
    intro db h
    simp only [runCalls, List.foldl_cons]
    apply ih
    cases c with
    | CancelOrder env userID orderID => exact cancelOrder_statusInv env db userID orderID oid h
    | UpdateStatus env owner orderID status =>
      exact updateStatus_statusInv env db owner orderID status oid h

/-- C10: an order produced by a successful `Create` is pending, in the
response and in the store; and after any sequence of `CancelOrder` and
`UpdateStatus` calls, by any requesters, on any order ids, with any status
strings, each in its own environment and whether it succeeds or fails, the
order is still stored and its status is one of the ten fixed values. -/
theorem created_order_status_stays_valid {α : Type} [Add α] [Mul α] [Zero α] [DecimalColumns α]
    (env : Env)
    (db db1 : Store α) (userID : String) (req : CreateOrderRequest α) (resp : OrderResponse α)
    (h : orderService.Create env db userID req = (.ok resp, db1)) :
    resp.Status = "pending" ∧
    ∃ oid, resp.ID = env.str oid ∧
      (∃ o, orderRepository.FindByID db1 oid = some o ∧ o.Status = "pending") ∧
      ∀ calls : List Call, ∃ o,
        orderRepository.FindByID (runCalls db1 calls) oid = some o ∧
        o.Status ∈ ["pending", "confirmed", "picked-up", "washing", "drying", "ironing",
          "ready", "delivered", "completed", "cancelled"] := by
  obtain ⟨userUUID, laundryUUID, laundry, priced, order, db0, items, -, -, -, -, -, -,
    hcreate, hbatch, hresp⟩ := create_ok h
  obtain ⟨hfresh, horder, totalPrice, -, hdb0⟩ := orderCreate_ok hcreate
  obtain ⟨-, rows, -, hdb1⟩ := createBatch_ok hbatch
  have hstatus : order.Status = "pending" := by
    rw [horder]
    unfold Order.BeforeCreate
    split <;> rfl
  have horders : db1.orders = db.orders ++ [{ order.row with TotalPrice := totalPrice }] := by
    rw [hdb1, hdb0]
  have hfindrow : db1.orders.find? (fun o => decide (o.ID = order.ID)) =
      some { order.row with TotalPrice := totalPrice } := by
    rw [horders, List.find?_append]
    have hnone : db.orders.find? (fun o => decide (o.ID = order.ID)) = none := by
      rw [List.find?_eq_none]
      intro r hr
      simpa using hfresh r hr
    rw [hnone]
    simp [Order.row]
  have hinv : StatusInv order.ID db1 := by
    constructor
    · exact ⟨{ order.row with TotalPrice := totalPrice }, by rw [horders]; simp, rfl⟩
    · intro r hr hid
      rw [horders] at hr
      rcases List.mem_append.mp hr with h1 | h1
      · exact absurd hid (hfresh r h1)
      · rw [List.mem_singleton.mp h1]
        show order.Status ∈ validStatuses
        rw [hstatus]
        decide
  refine ⟨by rw [hresp]; exact hstatus, order.ID, by rw [hresp], ?_, ?_⟩
  · refine ⟨{ order.row with
      TotalPrice := totalPrice
      OrderServices := db1.orderServices.filter (fun os => decide (os.OrderID = order.row.ID))
      Laundry := (db1.laundries.find? (fun l => decide (l.ID = order.row.LaundryID))).getD
        Laundry.zero }, ?_, hstatus⟩
    unfold orderRepository.FindByID
    rw [hfindrow]
  · intro calls
    exact statusInv_find (runCalls_statusInv order.ID calls db1 hinv)

/-- C10, on the order created in the concrete store, followed by three calls
of which the first and the last succeed: the order ends in `washing`. -/
theorem created_order_status_stays_valid_witness :
    (orderRepository.FindByID (runCalls demoStoreCreated demoCalls) 100).map
        (fun o => o.Status) = some "washing" ∧
    (demoResponse "pending").Status = "pending" ∧
    ∃ oid, (demoResponse "pending").ID = demoEnv.str oid ∧
      (∃ o, orderRepository.FindByID demoStoreCreated oid = some o ∧ o.Status = "pending") ∧
      ∀ calls : List Call, ∃ o,
        orderRepository.FindByID (runCalls demoStoreCreated calls) oid = some o ∧
        o.Status ∈ ["pending", "confirmed", "picked-up", "washing", "drying", "ironing",
          "ready", "delivered", "completed", "cancelled"] :=
  ⟨by rfl,
    created_order_status_stays_valid demoEnv demoStore demoStoreCreated "u1" demoRequest
      (demoResponse "pending") (by rfl)⟩


/-! ## The sorting loops of the laundry listing -/

section Sorting

variable {β : Type}

theorem swapIf_at (cond : β → β → Bool) (pre done ys : List β) (cur y : β) :
    laundryService.GetAll.swapIf cond pre.length (pre ++ cur :: (done ++ y :: ys))
        (pre.length + 1 + done.length) =
      if cond cur y then pre ++ y :: (done ++ cur :: ys) else pre ++ cur :: (done ++ y :: ys) := by
  have hi : (pre ++ cur :: (done ++ y :: ys))[pre.length]? = some cur := by
    rw [List.getElem?_append_right (le_refl _)]
    simp
  have hj : (pre ++ cur :: (done ++ y :: ys))[pre.length + 1 + done.length]? = some y := by
    rw [List.getElem?_append_right (by omega)]
    have e : pre.length + 1 + done.length - pre.length = done.length + 1 := by omega
    rw [e, List.getElem?_cons_succ, List.getElem?_append_right (le_refl _)]
    simp
  unfold laundryService.GetAll.swapIf
  rw [hi, hj]
  simp only
  split
  · have h1 : (pre ++ cur :: (done ++ y :: ys)).set pre.length y =
        pre ++ y :: (done ++ y :: ys) := by
      rw [List.set_append]
      simp
    rw [h1, List.set_append]
    have e : pre.length + 1 + done.length - pre.length = done.length + 1 := by omega
    have hlt : ¬ pre.length + 1 + done.length < pre.length := by omega
    rw [if_neg hlt, e, List.set_cons_succ, List.set_append]
    simp
  · rfl

theorem inner_eq_sweep (cond : β → β → Bool) (pre : List β) :
    ∀ (rest done : List β) (cur : β),
      (List.range' (pre.length + 1 + done.length) rest.length).foldl
          (laundryService.GetAll.swapIf cond pre.length) (pre ++ cur :: (done ++ rest)) =
        pre ++ (sweep cond cur rest).1 :: (done ++ (sweep cond cur rest).2) := by
  intro rest
  induction rest with
  | nil =>
    intro done cur
    simp [sweep]
  | cons y ys ih =>
    intro done cur
    rw [List.length_cons, List.range'_succ, List.foldl_cons, swapIf_at]
    by_cases hc : cond cur y = true
    · rw [if_pos hc]
      have h := ih (done ++ [cur]) y
      simp only [List.length_append, List.length_singleton, List.append_assoc,
        List.singleton_append] at h
      have e : pre.length + 1 + done.length + 1 = pre.length + 1 + (done.length + 1) := by omega
      rw [e, h]
      simp [sweep, hc]
    · rw [if_neg hc]
      have h := ih (done ++ [y]) cur
      simp only [List.length_append, List.length_singleton, List.append_assoc,
        List.singleton_append] at h
      have e : pre.length + 1 + done.length + 1 = pre.length + 1 + (done.length + 1) := by omega
      rw [e, h]
      simp [sweep, hc]

theorem sweep_length (cond : β → β → Bool) :
    ∀ (ys : List β) (x : β), (sweep cond x ys).2.length = ys.length := by
  intro ys
  induction ys with
  | nil => intro x; rfl
  | cons y ys ih =>
    intro x
    simp only [sweep]
    split <;> simp [ih]

theorem sweep_perm (cond : β → β → Bool) :
    ∀ (ys : List β) (x : β), ((sweep cond x ys).1 :: (sweep cond x ys).2).Perm (x :: ys) := by
  intro ys
  induction ys with
  | nil => intro x; exact List.Perm.refl _
  | cons y ys ih =>
    intro x
    simp only [sweep]
    split
    · exact ((List.Perm.swap _ _ _).trans ((ih y).cons x))
    · exact ((List.Perm.swap _ _ _).trans ((ih x).cons y)).trans (List.Perm.swap _ _ _)

theorem sweep_min (cond : β → β → Bool)
    (htrans : ∀ a b c, cond a b = false → cond b c = false → cond a c = false)
    (hasymm : ∀ a b, cond a b = true → cond b a = false) :
    ∀ (ys : List β) (x : β), ∀ z ∈ x :: ys, cond (sweep cond x ys).1 z = false := by
  have hrefl : ∀ a, cond a a = false := by
    intro a
    cases h : cond a a with
    | false => rfl
    | true => rw [hasymm a a h] at h; cases h
  intro ys
  induction ys with
  | nil =>
    intro x z hz
    rw [List.mem_singleton] at hz
    subst hz
    exact hrefl _
  | cons y ys ih =>
    intro x z hz
    simp only [sweep]
    split
    · rename_i hc
      simp only
      rcases List.mem_cons.mp hz with rfl | hz
      · exact htrans _ y _ (ih y y (List.mem_cons_self _ _)) (hasymm _ _ hc)
      · exact ih y z hz
    · rename_i hc
      simp only
      have hxy : cond x y = false := by simpa using hc
      rcases List.mem_cons.mp hz with rfl | hz
      · exact ih _ _ (List.mem_cons_self _ _)
      · rcases List.mem_cons.mp hz with rfl | hz
        · exact htrans _ x _ (ih x x (List.mem_cons_self _ _)) hxy
        · exact ih x z (List.mem_cons_of_mem _ hz)

theorem outer_eq_sweepSort (cond : β → β → Bool) :
    ∀ (k : Nat) (pre rest : List β), k ≤ rest.length - 1 →
      (List.range' pre.length k).foldl
          (fun items i =>
            (List.range' (i + 1) (items.length - (i + 1))).foldl
              (laundryService.GetAll.swapIf cond i) items)
          (pre ++ rest) =
        pre ++ sweepSort cond k rest := by
  intro k
  induction k with
  | zero => intro pre rest _; simp [sweepSort]
  | succ k ih =>
    intro pre rest hk
    rw [List.range'_succ, List.foldl_cons]
    cases rest with
    | nil => simp at hk
    | cons x ys =>
      have hlen : (pre ++ x :: ys).length - (pre.length + 1) = ys.length := by
        simp only [List.length_append, List.length_cons]
        omega
      rw [hlen]
      have hin := inner_eq_sweep cond pre ys [] x
      simp only [List.length_nil, Nat.add_zero, List.nil_append] at hin
      rw [hin]
      have hk2 : k ≤ (sweep cond x ys).2.length - 1 := by
        rw [sweep_length]
        simp only [List.length_cons] at hk
        omega
      have h := ih (pre ++ [(sweep cond x ys).1]) (sweep cond x ys).2 hk2
      simp only [List.length_append, List.length_singleton, List.append_assoc,
        List.singleton_append] at h
      rw [h]
      simp [sweepSort]

theorem sort_eq_sweepSort (cond : β → β → Bool) (items : List β) :
    laundryService.GetAll.sort cond items = sweepSort cond (items.length - 1) items := by
  unfold laundryService.GetAll.sort
  rw [List.range_eq_range']
  have h := outer_eq_sweepSort cond (items.length - 1) [] items (le_refl _)
  simpa using h

theorem sweepSort_perm (cond : β → β → Bool) :
    ∀ (k : Nat) (l : List β), (sweepSort cond k l).Perm l := by
  intro k
  induction k with
  | zero => intro l; exact List.Perm.refl _
  | succ k ih =>
    intro l
    cases l with
    | nil => exact List.Perm.refl _
    | cons x ys =>
      simp only [sweepSort]
      exact ((ih _).cons _).trans (sweep_perm cond ys x)

theorem sweepSort_pairwise (cond : β → β → Bool)
    (htrans : ∀ a b c, cond a b = false → cond b c = false → cond a c = false)
    (hasymm : ∀ a b, cond a b = true → cond b a = false) :
    ∀ (k : Nat) (l : List β), l.length - 1 ≤ k →
      (sweepSort cond k l).Pairwise (fun a b => cond a b = false) := by
  intro k
  induction k with
  | zero =>
    intro l hl
    simp only [sweepSort]
    cases l with
    | nil => exact List.Pairwise.nil
    | cons x ys =>
      cases ys with
      | nil => exact List.pairwise_singleton _ _
      | cons y zs => simp at hl
  | succ k ih =>
    intro l hl
    cases l with
    | nil => exact List.Pairwise.nil
    | cons x ys =>
      simp only [sweepSort]
      refine List.Pairwise.cons ?_ (ih _ ?_)
      · intro z hz
        have hz2 : z ∈ (sweep cond x ys).2 := (sweepSort_perm cond k _).mem_iff.mp hz
        have hz3 : z ∈ x :: ys :=
          (sweep_perm cond ys x).mem_iff.mp (List.mem_cons_of_mem _ hz2)
        exact sweep_min cond htrans hasymm ys x z hz3
      · rw [sweep_length]
        simp only [List.length_cons] at hl
        omega

theorem sort_perm (cond : β → β → Bool) (items : List β) :
    (laundryService.GetAll.sort cond items).Perm items := by
  rw [sort_eq_sweepSort]
  exact sweepSort_perm cond _ items

theorem sort_pairwise (cond : β → β → Bool)
    (htrans : ∀ a b c, cond a b = false → cond b c = false → cond a c = false)
    (hasymm : ∀ a b, cond a b = true → cond b a = false) (items : List β) :
    (laundryService.GetAll.sort cond items).Pairwise (fun a b => cond a b = false) := by
  rw [sort_eq_sweepSort]
  exact sweepSort_pairwise cond htrans hasymm _ items (le_refl _)

theorem filter_skip_second (p : β → Bool) (a b : β) (l : List β) (h : ¬ p b = true) :
    (a :: b :: l).filter p = (a :: l).filter p := by
  simp [List.filter_cons, h]

theorem sweep_noop {κ : Type} [LinearOrder κ] (key : β → κ) :
    ∀ (ys : List β) (x : β), (∀ y ∈ ys, key y ≤ key x) →
      sweep (fun a b => decide (key a < key b)) x ys = (x, ys) := by
  intro ys
  induction ys with
  | nil => intro x _; rfl
  | cons y ys ih =>
    intro x h
    have hy : ¬ key x < key y := not_lt.mpr (h y (List.mem_cons_self _ _))
    simp only [sweep, hy, decide_False, Bool.false_eq_true, if_false]
    rw [ih x (fun z hz => h z (List.mem_cons_of_mem _ hz))]

theorem sweep_keeps_class {κ : Type} [LinearOrder κ] (key : β → κ) (r : κ) :
    ∀ (ys : List β) (x : β),
      (x :: ys).Pairwise (fun a b => key a = r → key b ≤ r) →
      (((sweep (fun a b => decide (key a < key b)) x ys).1 ::
          (sweep (fun a b => decide (key a < key b)) x ys).2).filter
            (fun a => decide (key a = r)) =
        (x :: ys).filter (fun a => decide (key a = r))) ∧
      (sweep (fun a b => decide (key a < key b)) x ys).2.Pairwise
        (fun a b => key a = r → key b ≤ r) := by
  intro ys
  induction ys with
  | nil =>
    intro x _
    exact ⟨rfl, List.Pairwise.nil⟩
  | cons y ys ih =>
    intro x h
    have hx := List.pairwise_cons.mp h
    have hy := List.pairwise_cons.mp hx.2
    by_cases hc : key x < key y
    · have hxr : key x ≠ r := by
        intro e
        have := hx.1 y (List.mem_cons_self _ _) e
        rw [← e] at this
        exact absurd hc (not_lt.mpr this)
      obtain ⟨hf, hp⟩ := ih y hx.2
      simp only [sweep, hc, decide_True, if_true]
      constructor
      · rw [filter_skip_second _ _ _ _ (by simpa using hxr), hf]
        exact (List.filter_cons_of_neg (by simpa using hxr)).symm
      · exact List.Pairwise.cons (fun b _ e => absurd e hxr) hp
    · have hyx : key y ≤ key x := not_lt.mp hc
      simp only [sweep, hc, decide_False, Bool.false_eq_true, if_false]
      by_cases hyr : key y = r
      · have hall : ∀ z ∈ ys, key z ≤ key x := fun z hz =>
          le_trans (hy.1 z hz hyr) (hyr ▸ hyx)
        rw [sweep_noop key ys x hall]
        exact ⟨rfl, hx.2⟩
      · have hsub : (x :: ys).Pairwise (fun a b => key a = r → key b ≤ r) :=
          List.Pairwise.cons (fun b hb => hx.1 b (List.mem_cons_of_mem _ hb)) hy.2
        obtain ⟨hf, hp⟩ := ih x hsub
        constructor
        · rw [filter_skip_second _ _ _ _ (by simpa using hyr), hf,
            filter_skip_second _ _ _ _ (by simpa using hyr)]
        · exact List.Pairwise.cons (fun b _ e => absurd e hyr) hp

theorem sweepSort_keeps_class {κ : Type} [LinearOrder κ] (key : β → κ) (r : κ) :
    ∀ (k : Nat) (l : List β), l.Pairwise (fun a b => key a = r → key b ≤ r) →
      (sweepSort (fun a b => decide (key a < key b)) k l).filter (fun a => decide (key a = r)) =
        l.filter (fun a => decide (key a = r)) := by
  intro k
  induction k with
  | zero => intro l _; rfl
  | succ k ih =>
    intro l h
    cases l with
    | nil => rfl
    | cons x ys =>
      obtain ⟨hf, hp⟩ := sweep_keeps_class key r ys x h
      simp only [sweepSort]
      rw [← hf, List.filter_cons, List.filter_cons, ih _ hp]

end Sorting


/-! ## Ranking of the laundry listing -/

theorem rank_perm {α : Type} [LT α] [DecidableRel (fun a b : α => a < b)] (geo : GeoContext α)
    (items : List (LaundryListItem α)) : (laundryService.GetAll.rank geo items).Perm items := by
  unfold laundryService.GetAll.rank
  split <;> exact sort_perm _ _

theorem sweepSort_pairwise_of {β : Type} (cond : β → β → Bool) (R : β → β → Prop)
    (hmin : ∀ (ys : List β) (x z : β), z ∈ x :: ys → R (sweep cond x ys).1 z) :
    ∀ (k : Nat) (l : List β), l.length - 1 ≤ k → (sweepSort cond k l).Pairwise R := by
  intro k
  induction k with
  | zero =>
    intro l hl
    simp only [sweepSort]
    cases l with
    | nil => exact List.Pairwise.nil
    | cons x ys =>
      cases ys with
      | nil => exact List.pairwise_singleton _ _
      | cons y zs => simp at hl
  | succ k ih =>
    intro l hl
    cases l with
    | nil => exact List.Pairwise.nil
    | cons x ys =>
      simp only [sweepSort]
      refine List.Pairwise.cons ?_ (ih _ ?_)
      · intro z hz
        have hz2 : z ∈ (sweep cond x ys).2 := (sweepSort_perm cond k _).mem_iff.mp hz
        have hz3 : z ∈ x :: ys :=
          (sweep_perm cond ys x).mem_iff.mp (List.mem_cons_of_mem _ hz2)
        exact hmin ys x z hz3
      · rw [sweep_length]
        simp only [List.length_cons] at hl
        omega

theorem distanceSwap_true {α : Type} [LT α] [DecidableRel (fun a b : α => a < b)]
    {a b : LaundryListItem α} (h : laundryService.GetAll.distanceSwap a b = true) :
    ∃ db, b.Distance = some db ∧ ∀ da, a.Distance = some da → db < da := by
  unfold laundryService.GetAll.distanceSwap at h
  cases ha : a.Distance <;> cases hb : b.Distance <;> simp_all

theorem distanceSwap_false {α : Type} [LT α] [DecidableRel (fun a b : α => a < b)]
    {a b : LaundryListItem α} {db : α}
    (h : ¬ laundryService.GetAll.distanceSwap a b = true) (hb : b.Distance = some db) :
    ∃ da, a.Distance = some da ∧ ¬ db < da := by
  unfold laundryService.GetAll.distanceSwap at h
  cases ha : a.Distance <;> simp_all

theorem sweep_distance_some {α : Type} [LT α] [DecidableRel (fun a b : α => a < b)] :
    ∀ (ys : List (LaundryListItem α)) (x z : LaundryListItem α), z ∈ x :: ys →
      z.Distance.isSome = true →
      (sweep laundryService.GetAll.distanceSwap x ys).1.Distance.isSome = true := by
  intro ys
  induction ys with
  | nil =>
    intro x z hz hsome
    rw [List.mem_singleton] at hz
    subst hz
    exact hsome
  | cons y ys ih =>
    intro x z hz hsome
    simp only [sweep]
    split
    · rename_i hc
      obtain ⟨db, hdb, -⟩ := distanceSwap_true hc
      exact ih y y (List.mem_cons_self _ _) (by rw [hdb]; rfl)
    · rename_i hc
      rcases List.mem_cons.mp hz with rfl | hz
      · exact ih _ _ (List.mem_cons_self _ _) hsome
      · rcases List.mem_cons.mp hz with rfl | hz
        · obtain ⟨dz, hdz⟩ := Option.isSome_iff_exists.mp hsome
          obtain ⟨da, hda, -⟩ := distanceSwap_false hc hdz
          exact ih x x (List.mem_cons_self _ _) (by rw [hda]; rfl)
        · exact ih x z (List.mem_cons_of_mem _ hz) hsome

theorem sweep_nan_stays {α : Type} [LT α] [DecidableRel (fun a b : α => a < b)]
    (nan : α → Prop) (hnan : ∀ x y : α, nan x → ¬ x < y ∧ ¬ y < x) :
    ∀ (ys : List (LaundryListItem α)) (x : LaundryListItem α) (d : α),
      x.Distance = some d → nan d → (sweep laundryService.GetAll.distanceSwap x ys).1 = x := by
  intro ys
  induction ys with
  | nil => intro x d _ _; rfl
  | cons y ys ih =>
    intro x d hd hn
    simp only [sweep]
    split
    · rename_i hc
      obtain ⟨db, -, hlt⟩ := distanceSwap_true hc
      exact absurd (hlt d hd) (hnan d db hn).2
    · exact ih x d hd hn

theorem sweep_distance_min {α : Type} [LT α] [DecidableRel (fun a b : α => a < b)]
    (nan : α → Prop) (hnan : ∀ x y : α, nan x → ¬ x < y ∧ ¬ y < x)
    (hasymm : ∀ x y : α, x < y → ¬ y < x)
    (hneg : ∀ x y z : α, ¬ nan x → ¬ nan y → ¬ nan z → ¬ y < x → ¬ z < y → ¬ z < x) :
    ∀ (ys : List (LaundryListItem α)) (x z : LaundryListItem α) (dm dz : α), z ∈ x :: ys →
      (sweep laundryService.GetAll.distanceSwap x ys).1.Distance = some dm → z.Distance = some dz →
      ¬ nan dm → ¬ nan dz → ¬ dz < dm := by
  intro ys
  induction ys with
  | nil =>
    intro x z dm dz hz hm hdz _ _
    rw [List.mem_singleton] at hz
    subst hz
    simp only [sweep] at hm
    rw [hm] at hdz
    injection hdz with hdz
    subst hdz
    exact fun h => hasymm _ _ h h
  | cons y ys ih =>
    intro x z dm dz hz hm hdz hnm hnz
    simp only [sweep] at hm
    split at hm
    · rename_i hc
      simp only at hm
      rcases List.mem_cons.mp hz with rfl | hz
      · obtain ⟨dy, hdy, hlt⟩ := distanceSwap_true hc
        have hyx : dy < dz := hlt dz hdz
        have hny : ¬ nan dy := fun hn => (hnan dy dz hn).1 hyx
        have h1 : ¬ dy < dm := ih y y dm dy (List.mem_cons_self _ _) hm hdy hnm hny
        exact hneg dm dy dz hnm hny hnz h1 (hasymm _ _ hyx)
      · exact ih y z dm dz hz hm hdz hnm hnz
    · rename_i hc
      simp only at hm
      rcases List.mem_cons.mp hz with rfl | hz
      · exact ih _ _ dm dz (List.mem_cons_self _ _) hm hdz hnm hnz
      · rcases List.mem_cons.mp hz with rfl | hz
        · obtain ⟨dx, hdx, hle⟩ := distanceSwap_false hc hdz
          have hnx : ¬ nan dx := by
            intro hn
            have e := sweep_nan_stays nan hnan ys x dx hdx hn
            rw [e, hdx] at hm
            injection hm with hm
            exact hnm (hm ▸ hn)
          have h1 : ¬ dx < dm := ih x x dm dx (List.mem_cons_self _ _) hm hdx hnm hnx
          exact hneg dm dx dz hnm hnx hnz h1 hle
        · exact ih x z dm dz (List.mem_cons_of_mem _ hz) hm hdz hnm hnz

theorem floatOrNaN_lt_num (x y : Int) : FloatOrNaN.num x < FloatOrNaN.num y ↔ x < y := by
  show FloatOrNaN.lt (.num x) (.num y) = true ↔ x < y
  simp [FloatOrNaN.lt]

theorem floatOrNaN_nan (x y : FloatOrNaN) (h : x = FloatOrNaN.nan) : ¬ x < y ∧ ¬ y < x := by
  subst h
  constructor
  · intro h
    cases h
  · intro h
    cases y <;> cases h

theorem floatOrNaN_asymm (x y : FloatOrNaN) (h : x < y) : ¬ y < x := by
  cases x with
  | nan => cases h
  | num a =>
    cases y with
    | nan => cases h
    | num b =>
      rw [floatOrNaN_lt_num] at h ⊢
      omega

theorem floatOrNaN_neg_trans (x y z : FloatOrNaN) (hx : ¬ x = FloatOrNaN.nan)
    (hy : ¬ y = FloatOrNaN.nan) (hz : ¬ z = FloatOrNaN.nan) (h1 : ¬ y < x) (h2 : ¬ z < y) :
    ¬ z < x := by
  cases x with
  | nan => exact absurd rfl hx
  | num a =>
    cases y with
    | nan => exact absurd rfl hy
    | num b =>
      cases z with
      | nan => exact absurd rfl hz
      | num c =>
        rw [floatOrNaN_lt_num] at h1 h2 ⊢
        omega

/-- C11 fails on the code: a distance that is NaN is not ordered with any
other.  Seen from a latitude that is NaN, two located listings and one
without coordinates are returned at the distances NaN, NaN and none, and
`NaN <= NaN` does not hold; five listings at the distances 3, NaN, 1, none
and 2 are returned at 1, NaN, 2, 3 and none, and neither `1 <= NaN` nor
`NaN <= 2` holds.  In both cases the distances are not in non-decreasing
order. -/
theorem rank_by_distance_with_nan :
    (laundryService.GetAll.rank demoGeoAtNan demoItemsAllNan).map
        (fun it => (it.ID, it.Distance)) =
      [("l1", some .nan), ("l3", some .nan), ("l2", none)] ∧
    ¬ (FloatOrNaN.nan ≤ FloatOrNaN.nan) ∧
    ¬ (laundryService.GetAll.rank demoGeoAtNan demoItemsAllNan).Pairwise (fun a b =>
      (b.Distance.isSome = true → a.Distance.isSome = true) ∧
      ∀ x y, a.Distance = some x → b.Distance = some y → x ≤ y) ∧
    (laundryService.GetAll.rank demoNanGeo demoItemsNan).map (fun it => (it.ID, it.Distance)) =
      [("l3", some (.num 1)), ("l2", some .nan), ("l5", some (.num 2)), ("l1", some (.num 3)),
       ("l4", none)] ∧
    ¬ (FloatOrNaN.num 1 ≤ FloatOrNaN.nan) ∧ ¬ (FloatOrNaN.nan ≤ FloatOrNaN.num 2) ∧
    ¬ (laundryService.GetAll.rank demoNanGeo demoItemsNan).Pairwise (fun a b =>
      (b.Distance.isSome = true → a.Distance.isSome = true) ∧
      ∀ x y, a.Distance = some x → b.Distance = some y → x ≤ y) := by
  refine ⟨by rfl, by decide, ?_, by rfl, by decide, by decide, ?_⟩
  · intro h
    have e : laundryService.GetAll.rank demoGeoAtNan demoItemsAllNan =
        [demoNanItem "l1" (some .nan), demoNanItem "l3" (some .nan), demoNanItem "l2" none] := by
      rfl
    rw [e] at h
    have h1 := (List.pairwise_cons.mp h).1 (demoNanItem "l3" (some .nan))
      (List.mem_cons_self _ _)
    exact absurd (h1.2 .nan .nan rfl rfl) (by decide)
  · intro h
    have e : laundryService.GetAll.rank demoNanGeo demoItemsNan =
        [demoNanItem "l3" (some (.num 1)), demoNanItem "l2" (some .nan),
         demoNanItem "l5" (some (.num 2)), demoNanItem "l1" (some (.num 3)),
         demoNanItem "l4" none] := by rfl
    rw [e] at h
    have h1 := (List.pairwise_cons.mp h).1 (demoNanItem "l2" (some .nan))
      (List.mem_cons_self _ _)
    exact absurd (h1.2 (.num 1) .nan rfl rfl) (by decide)

/-- C11, amended: when both coordinates of the geo-context are resolved, the
ranking step returns the listings it was given, rearranged so that whenever
one listing stands before another, the later one has a distance only if the
earlier one has one too (every listing with a distance precedes every
listing without, whatever the ratings), and when both distances are numbers
the later one is not below the earlier one.  The comparison `<` is any
relation with the properties of the comparison of `float64`: NaN is
neither below nor above anything, and on numbers `<` is asymmetric and its
negation transitive. -/
theorem rank_by_distance_of_numbers {α : Type} [LT α] [DecidableRel (fun a b : α => a < b)]
    (nan : α → Prop) (hnan : ∀ x y : α, nan x → ¬ x < y ∧ ¬ y < x)
    (hasymm : ∀ x y : α, x < y → ¬ y < x)
    (hneg : ∀ x y z : α, ¬ nan x → ¬ nan y → ¬ nan z → ¬ y < x → ¬ z < y → ¬ z < x)
    (geo : GeoContext α) (items : List (LaundryListItem α))
    (hgeo : geo.finalLat.isSome = true ∧ geo.finalLng.isSome = true) :
    (laundryService.GetAll.rank geo items).Perm items ∧
    (laundryService.GetAll.rank geo items).Pairwise (fun a b =>
      (b.Distance.isSome = true → a.Distance.isSome = true) ∧
      ∀ x y, a.Distance = some x → b.Distance = some y → ¬ nan x → ¬ nan y → ¬ y < x) := by
  refine ⟨rank_perm geo items, ?_⟩
  unfold laundryService.GetAll.rank
  rw [if_pos (by simp [hgeo.1, hgeo.2]), sort_eq_sweepSort]
  refine sweepSort_pairwise_of _ _ ?_ _ items (le_refl _)
  intro ys x z hz
  refine ⟨fun hsome => sweep_distance_some ys x z hz hsome, ?_⟩
  intro dm dz hm hdz hnm hnz
  exact sweep_distance_min nan hnan hasymm hneg ys x z dm dz hz hm hdz hnm hnz

/-- C11 amended, on the five listings at the distances 3, NaN, 1, none and 2:
the numbers 1, 2 and 3 come in this order and the listing without a distance
is last. -/
theorem rank_by_distance_of_numbers_witness :
    (laundryService.GetAll.rank demoNanGeo demoItemsNan).map (fun it => it.Distance) =
      [some (.num 1), some .nan, some (.num 2), some (.num 3), none] ∧
    (laundryService.GetAll.rank demoNanGeo demoItemsNan).Perm demoItemsNan ∧
    (laundryService.GetAll.rank demoNanGeo demoItemsNan).Pairwise (fun a b =>
      (b.Distance.isSome = true → a.Distance.isSome = true) ∧
      ∀ x y, a.Distance = some x → b.Distance = some y → ¬ x = FloatOrNaN.nan →
        ¬ y = FloatOrNaN.nan → ¬ y < x) :=
  ⟨by rfl,
    rank_by_distance_of_numbers (fun x => x = FloatOrNaN.nan) floatOrNaN_nan floatOrNaN_asymm
      floatOrNaN_neg_trans demoNanGeo demoItemsNan ⟨by rfl, by rfl⟩⟩

/-- C12: when a coordinate of the geo-context is missing, the ranking step
returns the listings it was given, rearranged so that whenever one listing
stands before another, its rating is at least the rating of the later one. -/
theorem rank_by_rating {α : Type} [LinearOrder α] (geo : GeoContext α)
    (items : List (LaundryListItem α))
    (hgeo : geo.finalLat = none ∨ geo.finalLng = none) :
    (laundryService.GetAll.rank geo items).Perm items ∧
    (laundryService.GetAll.rank geo items).Pairwise (fun a b => b.Rating ≤ a.Rating) := by
  refine ⟨rank_perm geo items, ?_⟩
  unfold laundryService.GetAll.rank
  rw [if_neg (by rcases hgeo with h | h <;> simp [h])]
  refine List.Pairwise.imp ?_ (sort_pairwise _ ?_ ?_ items)
  · intro a b h
    simpa [laundryService.GetAll.ratingSwap] using h
  · intro a b c h1 h2
    simp only [laundryService.GetAll.ratingSwap, decide_eq_false_iff_not, not_lt] at *
    exact le_trans h2 h1
  · intro a b h
    simp only [laundryService.GetAll.ratingSwap, decide_eq_false_iff_not, not_lt,
      decide_eq_true_eq] at *
    exact le_of_lt h

/-- C12, on the three listings rated 4, 4 and 5. -/
theorem rank_by_rating_witness :
    (laundryService.GetAll.rank demoNoGeo demoItems).map (fun a => a.Rating) = [5, 4, 4] ∧
    (laundryService.GetAll.rank demoNoGeo demoItems).Perm demoItems ∧
    (laundryService.GetAll.rank demoNoGeo demoItems).Pairwise
      (fun a b => b.Rating ≤ a.Rating) :=
  ⟨by rfl, rank_by_rating demoNoGeo demoItems (Or.inl (by rfl))⟩

/-- C13 fails on the code: of the two listings rated 4, `l1` stands before
`l2` in the input and after it in the output, because the listing rated 5
that follows them is exchanged with the first. -/
theorem rank_by_rating_not_stable :
    laundryService.GetAll.rank demoNoGeo demoItems =
      [demoListItem "l3" "Wangi" 5 "Rp 0" none,
       demoListItem "l2" "Kilat" 4 "Rp 12000" none,
       demoListItem "l1" "Bersih" 4 "Rp 5000 - Rp 8000" none] ∧
    (demoItems.filter fun a => decide (a.Rating = 4)).map (fun a => a.ID) = ["l1", "l2"] ∧
    ((laundryService.GetAll.rank demoNoGeo demoItems).filter
      fun a => decide (a.Rating = 4)).map (fun a => a.ID) = ["l2", "l1"] ∧
    ¬ ∀ (items : List (LaundryListItem Int)) (r : Int),
      (laundryService.GetAll.rank demoNoGeo items).filter (fun a => decide (a.Rating = r)) =
        items.filter (fun a => decide (a.Rating = r)) :=
  ⟨by rfl, by rfl, by rfl, fun h => absurd (h demoItems 4) (by decide)⟩

/-- C13, amended: without a geo-context, for a rating `r` such that no
listing placed after a listing rated `r` in the input is rated higher than
`r`, the listings rated `r` come out in the same relative order as in the
input. -/
theorem rank_by_rating_keeps_order_of_equals {α : Type} [LinearOrder α] (geo : GeoContext α)
    (items : List (LaundryListItem α)) (r : α)
    (hgeo : geo.finalLat = none ∨ geo.finalLng = none)
    (hr : items.Pairwise (fun a b => a.Rating = r → b.Rating ≤ r)) :
    (laundryService.GetAll.rank geo items).filter (fun a => decide (a.Rating = r)) =
      items.filter (fun a => decide (a.Rating = r)) := by
  unfold laundryService.GetAll.rank
  rw [if_neg (by rcases hgeo with h | h <;> simp [h])]
  rw [sort_eq_sweepSort]
  exact sweepSort_keeps_class (fun a : LaundryListItem α => a.Rating) r _ items hr

/-- C13 amended, on listings rated 3, 4, 4 and 2: the two rated 4 keep their
order. -/
theorem rank_by_rating_keeps_order_of_equals_witness :
    ((laundryService.GetAll.rank demoNoGeo demoItemsTied).filter
      fun a => decide (a.Rating = 4)).map (fun a => a.ID) = ["l1", "l2"] ∧
    (laundryService.GetAll.rank demoNoGeo demoItemsTied).filter
        (fun a => decide (a.Rating = 4)) =
      demoItemsTied.filter (fun a => decide (a.Rating = 4)) :=
  ⟨by rfl, rank_by_rating_keeps_order_of_equals demoNoGeo demoItemsTied 4 (Or.inl (by rfl))
    (by decide)⟩


/-! ## Pages, geo-context and distances of the laundry listing -/

theorem wrapInt64_of_range (x : Int) (h0 : 0 ≤ x) (h1 : x < 2 ^ 63) : wrapInt64 x = x := by
  unfold wrapInt64
  have h2 : (x + 2 ^ 63) % 2 ^ 64 = x + 2 ^ 63 :=
    Int.emod_eq_of_lt (by omega) (by omega)
  rw [h2]
  omega

theorem findAll_page {α : Type} (lenv : LaundryEnv α) (db : Store α) (search : String)
    (isOpen : Option Bool) (page limit : Int) (herr : lenv.findAllErr = false)
    (hp : 1 ≤ page) (hl : 1 ≤ limit) (hov : (page - 1) * limit < 2 ^ 63) :
    laundryRepository.FindAll lenv db search isOpen page limit =
      some (((db.laundries.filter (passesFilter lenv search isOpen)).drop
          ((page - 1) * limit).toNat).take limit.toNat,
        ((db.laundries.filter (passesFilter lenv search isOpen)).length : Int)) := by
  have h0 : 0 ≤ (page - 1) * limit := Int.mul_nonneg (by omega) (by omega)
  have hneg : ¬ limit < 0 := by omega
  unfold laundryRepository.FindAll
  simp only [herr, Bool.false_eq_true, if_false, wrapInt64_of_range _ h0 hov, hneg]
  rfl

theorem geo_consistent {α : Type} (lenv : LaundryEnv α) (env : Env) (lat lng : Option α)
    (userID : Option String) :
    (laundryService.GetAll.geo lenv env lat lng userID).finalLat =
      (laundryService.GetAll.geo lenv env lat lng userID).userLocation.map (fun l => l.Latitude) ∧
    (laundryService.GetAll.geo lenv env lat lng userID).finalLng =
      (laundryService.GetAll.geo lenv env lat lng userID).userLocation.map
        (fun l => l.Longitude) := by
  unfold laundryService.GetAll.geo
  split
  · exact ⟨rfl, rfl⟩
  · split
    · exact ⟨rfl, rfl⟩
    · split
      · exact ⟨rfl, rfl⟩
      · split
        · exact ⟨rfl, rfl⟩
        · split <;> exact ⟨rfl, rfl⟩

/-- C14 fails on the code: with two listings per page and no geo-context,
page 1 holds the two listings rated 4 and page 2 the listing rated 5, while
the whole set in ranking order starts with the listing rated 5. -/
theorem getAll_page_not_of_ranked_set :
    laundryService.GetAll demoLaundryEnv demoListingEnv demoListingStore "" none none none none
        1 2 =
      .ok { Laundries := [demoListItem "l1" "Bersih" 4 "Rp 5000 - Rp 8000" none,
                          demoListItem "l2" "Kilat" 4 "Rp 12000" none],
            Pagination := { Page := 1, Limit := 2, Total := 3, TotalPages := 2 },
            UserLocation := none } ∧
    laundryService.GetAll demoLaundryEnv demoListingEnv demoListingStore "" none none none none
        2 2 =
      .ok { Laundries := [demoListItem "l3" "Wangi" 5 "Rp 0" none],
            Pagination := { Page := 2, Limit := 2, Total := 3, TotalPages := 2 },
            UserLocation := none } ∧
    laundryService.GetAll demoLaundryEnv demoListingEnv demoListingStore "" none none none none
        1 10 =
      .ok { Laundries := [demoListItem "l3" "Wangi" 5 "Rp 0" none,
                          demoListItem "l2" "Kilat" 4 "Rp 12000" none,
                          demoListItem "l1" "Bersih" 4 "Rp 5000 - Rp 8000" none],
            Pagination := { Page := 1, Limit := 10, Total := 3, TotalPages := 1 },
            UserLocation := none } ∧
    (demoListItem "l1" "Bersih" 4 "Rp 5000 - Rp 8000" none).Rating <
      (demoListItem "l3" "Wangi" 5 "Rp 0" none).Rating :=
  ⟨by rfl, by rfl, by rfl, by decide⟩

/-- C14, amended: for a page and a limit that are at least 1, with an offset
within `int`, and a store that answers the query, `GetAll` returns the
entries (page-1)*limit+1 .. page*limit of the filtered rows taken in the row
order of the store, turned into items and ranked among themselves only; the
total counts all filtered rows. -/
theorem getAll_ranks_within_page {α : Type} [Zero α] [DecidableEq α] [LT α]
    [DecidableRel (fun a b : α => a < b)] (lenv : LaundryEnv α) (env : Env) (db : Store α)
    (search : String) (isOpen : Option Bool) (lat lng : Option α) (userID : Option String)
    (page limit : Int) (herr : lenv.findAllErr = false) (hp : 1 ≤ page) (hl : 1 ≤ limit)
    (hov : (page - 1) * limit < 2 ^ 63) :
    laundryService.GetAll lenv env db search isOpen lat lng userID page limit =
      .ok
        { Laundries :=
            laundryService.GetAll.rank (laundryService.GetAll.geo lenv env lat lng userID)
              ((((db.laundries.filter (passesFilter lenv search isOpen)).drop
                  ((page - 1) * limit).toNat).take limit.toNat).map
                (laundryService.GetAll.item lenv env db
                  (laundryService.GetAll.geo lenv env lat lng userID)))
          Pagination :=
            { Page := page, Limit := limit,
              Total := ((db.laundries.filter (passesFilter lenv search isOpen)).length : Int),
              TotalPages :=
                totalPages ((db.laundries.filter (passesFilter lenv search isOpen)).length : Int)
                  limit }
          UserLocation := (laundryService.GetAll.geo lenv env lat lng userID).userLocation } := by
  have hp2 : ¬ page < 1 := by omega
  have hl2 : ¬ limit < 1 := by omega
  unfold laundryService.GetAll
  simp only [hp2, hl2, if_false, findAll_page lenv db search isOpen page limit herr hp hl hov]

/-- C14 amended, on page 2 of the concrete listing with two listings per
page. -/
theorem getAll_ranks_within_page_witness :
    laundryService.GetAll demoLaundryEnv demoListingEnv demoListingStore "" none none none none
        2 2 =
      .ok
        { Laundries :=
            laundryService.GetAll.rank
              (laundryService.GetAll.geo demoLaundryEnv demoListingEnv none none none)
              ((((demoListingStore.laundries.filter (passesFilter demoLaundryEnv "" none)).drop
                  (((2 : Int) - 1) * 2).toNat).take (2 : Int).toNat).map
                (laundryService.GetAll.item demoLaundryEnv demoListingEnv demoListingStore
                  (laundryService.GetAll.geo demoLaundryEnv demoListingEnv none none none)))
          Pagination :=
            { Page := 2, Limit := 2,
              Total :=
                ((demoListingStore.laundries.filter (passesFilter demoLaundryEnv "" none)).length :
                  Int),
              TotalPages :=
                totalPages
                  ((demoListingStore.laundries.filter
                    (passesFilter demoLaundryEnv "" none)).length : Int) 2 }
          UserLocation :=
            (laundryService.GetAll.geo demoLaundryEnv demoListingEnv none none none).userLocation } :=
  getAll_ranks_within_page demoLaundryEnv demoListingEnv demoListingStore "" none none none none
    2 2 (by rfl) (by decide) (by decide) (by decide)


/-- C15: the geo-context of `GetAll` is resolved by strict precedence.  When
the request gives both coordinates they are used, whatever the profile
holds.  Otherwise, when a user id is given, parses and resolves to a user
whose profile has both coordinates, the profile pair is used.  Otherwise
(no id, an id that does not parse or does not resolve, or a profile that
lacks a coordinate) nothing is resolved.  In every case the listing succeeds
when the store answers the query, and the response's `user_location` is the
resolved pair, absent when there is none. -/
theorem geo_context_precedence {α : Type} [Zero α] [DecidableEq α] [LT α]
    [DecidableRel (fun a b : α => a < b)] (lenv : LaundryEnv α) (env : Env) (db : Store α)
    (search : String) (isOpen : Option Bool) (lat lng : Option α) (userID : Option String)
    (page limit : Int) :
    (∀ la ln, lat = some la → lng = some ln →
      laundryService.GetAll.geo lenv env lat lng userID =
        { finalLat := some la, finalLng := some ln, userLocation := some ⟨la, ln⟩ }) ∧
    ((lat = none ∨ lng = none) →
      ∀ uid u user la ln, userID = some uid → env.parse uid = some u →
        lenv.userFindByID u = some user → user.Latitude = some la → user.Longitude = some ln →
        laundryService.GetAll.geo lenv env lat lng userID =
          { finalLat := some la, finalLng := some ln, userLocation := some ⟨la, ln⟩ }) ∧
    ((lat = none ∨ lng = none) →
      (userID = none ∨
        ∃ uid, userID = some uid ∧
          (env.parse uid = none ∨
            ∃ u, env.parse uid = some u ∧
              (lenv.userFindByID u = none ∨
                ∃ user, lenv.userFindByID u = some user ∧
                  (user.Latitude = none ∨ user.Longitude = none)))) →
      laundryService.GetAll.geo lenv env lat lng userID =
        { finalLat := none, finalLng := none, userLocation := none }) ∧
    (lenv.findAllErr = false →
      ∃ resp, laundryService.GetAll lenv env db search isOpen lat lng userID page limit =
          .ok resp ∧
        resp.UserLocation = (laundryService.GetAll.geo lenv env lat lng userID).userLocation) := by
  refine ⟨?_, ?_, ?_, ?_⟩
  · rintro la ln rfl rfl
    rfl
  · rintro hmiss uid u user la ln rfl hu huser hla hln
    unfold laundryService.GetAll.geo
    rcases hmiss with rfl | rfl
    · simp only [hu, huser, hla, hln]
    · cases lat <;> simp only [hu, huser, hla, hln]
  · intro hmiss hnone
    unfold laundryService.GetAll.geo
    have key : (match userID with
        | none => ({ finalLat := none, finalLng := none, userLocation := none } : GeoContext α)
        | some uid =>
          match env.parse uid with
          | none => { finalLat := none, finalLng := none, userLocation := none }
          | some userUUID =>
            match lenv.userFindByID userUUID with
            | none => { finalLat := none, finalLng := none, userLocation := none }
            | some user =>
              match user.Latitude, user.Longitude with
              | some la, some ln =>
                { finalLat := some la, finalLng := some ln, userLocation := some ⟨la, ln⟩ }
              | _, _ => { finalLat := none, finalLng := none, userLocation := none }) =
        { finalLat := none, finalLng := none, userLocation := none } := by
      rcases hnone with rfl | ⟨uid, rfl, hp⟩
      · rfl
      · rcases hp with hp | ⟨u, hu, hf⟩
        · simp only [hp]
        · rcases hf with hf | ⟨user, huser, hc⟩
          · simp only [hu, hf]
          · simp only [hu, huser]
            rcases hc with hc | hc
            · simp only [hc]
            · cases hla : user.Latitude <;> simp only [hc]
    rcases hmiss with rfl | rfl
    · exact key
    · cases lat <;> exact key
  · intro herr
    unfold laundryService.GetAll laundryRepository.FindAll
    simp only [herr, Bool.false_eq_true, if_false]
    exact ⟨_, rfl, rfl⟩

/-- C15, on the concrete listing: request coordinates win over the profile
of `u1`; with one request coordinate missing the profile of `u1` is used;
`u2`, whose profile has no longitude, gets no geo-context, and the listing
succeeds without `user_location`. -/
theorem geo_context_precedence_witness :
    laundryService.GetAll.geo demoLaundryEnv demoListingEnv (some 5) (some 6) (some "u1") =
      { finalLat := some 5, finalLng := some 6, userLocation := some ⟨5, 6⟩ } ∧
    laundryService.GetAll.geo demoLaundryEnv demoListingEnv none (some 6) (some "u1") =
      { finalLat := some 0, finalLng := some 0, userLocation := some ⟨0, 0⟩ } ∧
    laundryService.GetAll.geo demoLaundryEnv demoListingEnv none (some 6) (some "u2") =
      { finalLat := none, finalLng := none, userLocation := none } ∧
    (∃ resp, laundryService.GetAll demoLaundryEnv demoListingEnv demoListingStore "" none
        none (some 6) (some "u2") 1 10 = .ok resp ∧
      resp.UserLocation =
        (laundryService.GetAll.geo demoLaundryEnv demoListingEnv none (some 6)
          (some "u2")).userLocation) :=
  ⟨(geo_context_precedence demoLaundryEnv demoListingEnv demoListingStore "" none (some 5)
      (some 6) (some "u1") 1 10).1 5 6 rfl rfl,
    (geo_context_precedence demoLaundryEnv demoListingEnv demoListingStore "" none none
      (some 6) (some "u1") 1 10).2.1 (Or.inl rfl) "u1" 1 (demoUser 1 "John" (some 0) (some 0))
      0 0 rfl (by rfl) (by rfl) rfl rfl,
    (geo_context_precedence demoLaundryEnv demoListingEnv demoListingStore "" none none
      (some 6) (some "u2") 1 10).2.2.1 (Or.inl rfl)
      (Or.inr ⟨"u2", rfl, Or.inr ⟨2, by rfl, Or.inr ⟨demoUser 2 "Admin" (some 7) none, by rfl,
        Or.inr rfl⟩⟩⟩),
    (geo_context_precedence demoLaundryEnv demoListingEnv demoListingStore "" none none
      (some 6) (some "u2") 1 10).2.2.2 (by rfl)⟩

/-- C16: in `GetAll` the items returned are, in some order, the items built
from the rows of the page, and the item of a laundry carries the distance
computed by `CalculateDistance` from the resolved location to the laundry's
coordinates when the location and both coordinates are present, and no
distance otherwise; `GetByID` does the same with the request coordinates. -/
theorem distance_iff_located {α : Type} [Zero α] [DecidableEq α] [LT α]
    [DecidableRel (fun a b : α => a < b)] (lenv : LaundryEnv α) (env : Env) (db : Store α) :
    (∀ (location : Option (UserLocation α)) (laundry : Laundry α),
      ((expectedDistance lenv location laundry).isSome = true ↔
        (location.isSome = true ∧ laundry.Latitude.isSome = true ∧
          laundry.Longitude.isSome = true)) ∧
      ∀ loc lla lln, location = some loc → laundry.Latitude = some lla →
        laundry.Longitude = some lln →
        expectedDistance lenv location laundry =
          some (lenv.CalculateDistance loc.Latitude loc.Longitude lla lln)) ∧
    (∀ (search : String) (isOpen : Option Bool) (lat lng : Option α) (userID : Option String)
        (page limit : Int) (resp : LaundryListResponse α),
      laundryService.GetAll lenv env db search isOpen lat lng userID page limit = .ok resp →
      ∃ rows total,
        laundryRepository.FindAll lenv db search isOpen (if page < 1 then 1 else page)
          (if limit < 1 then 10 else limit) = some (rows, total) ∧
        resp.Laundries.Perm
          (rows.map (laundryService.GetAll.item lenv env db
            (laundryService.GetAll.geo lenv env lat lng userID))) ∧
        ∀ laundry,
          (laundryService.GetAll.item lenv env db
            (laundryService.GetAll.geo lenv env lat lng userID) laundry).Distance =
            expectedDistance lenv
              (laundryService.GetAll.geo lenv env lat lng userID).userLocation laundry) ∧
    (∀ (id : String) (lat lng : Option α) (resp : LaundryDetailResponse α),
      laundryService.GetByID lenv env db id lat lng = .ok resp →
      ∃ uuid laundry, env.parse id = some uuid ∧
        laundryRepository.FindByID db uuid = some laundry ∧
        resp.Distance =
          match lat, lng with
          | some la, some ln => expectedDistance lenv (some ⟨la, ln⟩) laundry
          | _, _ => none) := by
  refine ⟨?_, ?_, ?_⟩
  · intro location laundry
    unfold expectedDistance
    cases location <;> cases hla : laundry.Latitude <;> cases hln : laundry.Longitude <;> simp
  · intro search isOpen lat lng userID page limit resp h
    unfold laundryService.GetAll at h
    simp only at h
    split at h
    · cases h
    · rename_i rows total hfind
      injection h with h
      subst h
      refine ⟨rows, total, hfind, rank_perm _ _, ?_⟩
      intro laundry
      obtain ⟨h1, h2⟩ := geo_consistent lenv env lat lng userID
      unfold laundryService.GetAll.item expectedDistance
      simp only [h1, h2]
      cases (laundryService.GetAll.geo lenv env lat lng userID).userLocation <;>
        cases laundry.Latitude <;> cases laundry.Longitude <;> rfl
  · intro id lat lng resp h
    unfold laundryService.GetByID at h
    split at h
    · cases h
    rename_i uuid hid
    split at h
    · cases h
    rename_i laundry hfind
    injection h with h
    subst h
    refine ⟨uuid, laundry, hid, hfind, ?_⟩
    unfold expectedDistance
    cases lat <;> cases lng <;> cases laundry.Latitude <;> cases laundry.Longitude <;> rfl

/-- C16, on the concrete listing seen from (0, 0): `l1` is at distance 9, `l2`,
which has no coordinates, has no distance, and `GetByID` without request
coordinates gives none either. -/
theorem distance_iff_located_witness :
    (laundryService.GetAll.item demoLaundryEnv demoListingEnv demoListingStore demoGeo
      (demoListed 10 "Bersih" 4 (some 3) (some 0))).Distance = some 9 ∧
    (laundryService.GetAll.item demoLaundryEnv demoListingEnv demoListingStore demoGeo
      (demoListed 11 "Kilat" 4 none none)).Distance = none ∧
    (laundryService.GetByID demoLaundryEnv demoListingEnv demoListingStore "l1" none none).toOption.map
      (fun r => r.Distance) = some none ∧
    (laundryService.GetByID demoLaundryEnv demoListingEnv demoListingStore "l1" (some 0)
      (some 0)).toOption.map (fun r => r.Distance) = some (some 9) ∧
    expectedDistance demoLaundryEnv (some ⟨0, 0⟩) (demoListed 10 "Bersih" 4 (some 3) (some 0)) =
      some (demoLaundryEnv.CalculateDistance 0 0 3 0) :=
  ⟨by rfl, by rfl, by rfl, by rfl,
    ((distance_iff_located demoLaundryEnv demoListingEnv demoListingStore).1 (some ⟨0, 0⟩)
      (demoListed 10 "Bersih" 4 (some 3) (some 0))).2 ⟨0, 0⟩ 3 0 rfl rfl rfl⟩


/-! ## Lead time and delivery estimate -/

theorem resolves_unique {α : Type} {env : Env} {db : Store α} {lid : UUID}
    {r : OrderServiceRequest α} {svc1 svc2 : Service α} (h1 : Resolves env db lid r svc1)
    (h2 : Resolves env db lid r svc2) : svc1 = svc2 := by
  obtain ⟨sid1, hp1, hf1, -, -⟩ := h1
  obtain ⟨sid2, hp2, hf2, -, -⟩ := h2
  rw [hp1] at hp2
  injection hp2 with hp2
  subst hp2
  rw [hf1] at hf2
  injection hf2

theorem loop_hours {α : Type} [Add α] [Mul α] [Zero α] {env : Env} {db : Store α} {lid : UUID} :
    ∀ (reqs : List (OrderServiceRequest α)) (svcs : List (Service α)) (acc acc1 : Pricing α),
      List.Forall₂ (Resolves env db lid) reqs svcs →
      orderService.Create.loop env db lid reqs acc = .ok acc1 →
      acc1.maxEstimatedHours =
        svcs.foldl (fun m s => if s.EstimatedTimeHours > m then s.EstimatedTimeHours else m)
          acc.maxEstimatedHours := by
  intro reqs svcs acc acc1 hall
  induction hall generalizing acc with
  | nil =>
    intro h
    simp only [orderService.Create.loop] at h
    injection h with h
    subst h
    rfl
  | @cons r svc reqs svcs hres _ ih =>
    intro h
    simp only [orderService.Create.loop] at h
    split at h
    · cases h
    · rename_i acc2 hstep
      obtain ⟨svc2, hres2, hacc2⟩ := step_ok hstep
      have e := resolves_unique hres hres2
      subst e
      rw [ih acc2 h, hacc2]
      rfl

theorem foldl_max_hours {α : Type} :
    ∀ (svcs : List (Service α)) (m : Int),
      m ≤ svcs.foldl (fun m s => if s.EstimatedTimeHours > m then s.EstimatedTimeHours else m) m ∧
      (∀ s ∈ svcs, s.EstimatedTimeHours ≤
        svcs.foldl (fun m s => if s.EstimatedTimeHours > m then s.EstimatedTimeHours else m) m) ∧
      (svcs.foldl (fun m s => if s.EstimatedTimeHours > m then s.EstimatedTimeHours else m) m = m ∨
        ∃ s ∈ svcs, s.EstimatedTimeHours =
          svcs.foldl (fun m s => if s.EstimatedTimeHours > m then s.EstimatedTimeHours else m)
            m) := by
  intro svcs
  induction svcs with
  | nil => intro m; simp
  | cons s rest ih =>
    intro m
    simp only [List.foldl_cons]
    obtain ⟨h1, h2, h3⟩ := ih (if s.EstimatedTimeHours > m then s.EstimatedTimeHours else m)
    refine ⟨?_, ?_, ?_⟩
    · refine le_trans ?_ h1
      split <;> omega
    · intro t ht
      rcases List.mem_cons.mp ht with rfl | ht
      · refine le_trans ?_ h1
        split <;> omega
      · exact h2 t ht
    · rcases h3 with h3 | ⟨t, ht, h3⟩
      · by_cases hc : s.EstimatedTimeHours > m
        · rw [if_pos hc] at h3 ⊢
          exact Or.inr ⟨s, List.mem_cons_self _ _, h3.symm⟩
        · rw [if_neg hc] at h3 ⊢
          exact Or.inl h3
      · exact Or.inr ⟨t, List.mem_cons_of_mem _ ht, h3⟩

/-- C17 fails on the code: for a service with a lead time of 2562048 hours
the duration `hours * time.Hour` exceeds `int64` and wraps around, and the
estimated delivery of an order picked up at 5000 is long before the pickup
instead of 2562048 hours after it. -/
theorem create_delivery_wraps :
    (orderService.Create demoEnv demoStoreLong "u1" demoRequestLong).1.toOption.map
        (fun r => (r.EstimatedPickup, r.EstimatedDelivery)) =
      some (some 5000, some (-9223371273709546616)) ∧
    (5000 : Int) + 2562048 * timeHour = 9223372800000005000 ∧
    (-9223371273709546616 : Int) < 5000 :=
  ⟨by rfl, by decide, by decide⟩

/-- C17, amended: when `Create` succeeds on services whose lead times are
between 0 and 2562047 hours, the lead time it uses is the greatest
`EstimatedTimeHours` of the requested services, and the estimated delivery,
returned and stored, is the pickup time plus that many hours when a pickup
time is given and absent when none is given. -/
theorem create_delivery_estimate {α : Type} [Add α] [Mul α] [Zero α] [DecimalColumns α]
    (env : Env)
    (db db2 : Store α) (userID : String) (req : CreateOrderRequest α) (resp : OrderResponse α)
    (lid : UUID) (svcs : List (Service α))
    (h : orderService.Create env db userID req = (.ok resp, db2))
    (hl : env.parse req.LaundryID = some lid)
    (hsvcs : List.Forall₂ (Resolves env db lid) req.Services svcs)
    (hnonneg : ∀ s ∈ svcs, 0 ≤ s.EstimatedTimeHours)
    (hbound : ∀ s ∈ svcs, s.EstimatedTimeHours ≤ 2562047) :
    ∃ H : Int, (∃ s ∈ svcs, s.EstimatedTimeHours = H) ∧ (∀ s ∈ svcs, s.EstimatedTimeHours ≤ H) ∧
      resp.EstimatedDelivery =
        req.EstimatedPickupAt.map (fun pickup => pickup + H * timeHour) ∧
      ∃ order ∈ db2.orders, env.str order.ID = resp.ID ∧
        order.EstimatedDeliveryAt = resp.EstimatedDelivery := by
  obtain ⟨userUUID, laundryUUID, laundry, priced, order, db1, items, -, hl2, hne, -, -, hloop,
    hcreate, hbatch, hresp⟩ := create_ok h
  rw [hl] at hl2
  injection hl2 with hl2
  subst hl2
  obtain ⟨-, horder, totalPrice, -, hdb1⟩ := orderCreate_ok hcreate
  obtain ⟨-, rows, -, hdb2⟩ := createBatch_ok hbatch
  have hmax := loop_hours req.Services svcs _ priced hsvcs hloop
  simp only at hmax
  obtain ⟨h1, h2, h3⟩ := foldl_max_hours svcs 0
  rw [← hmax] at h1 h2 h3
  have hsne : svcs ≠ [] := by
    intro e
    have hlen := hsvcs.length_eq
    rw [e, List.length_nil] at hlen
    exact hne (List.length_eq_zero.mp hlen)
  obtain ⟨s0, hs0⟩ := List.exists_mem_of_ne_nil svcs hsne
  have hmem : ∃ s ∈ svcs, s.EstimatedTimeHours = priced.maxEstimatedHours := by
    rcases h3 with h3 | h3
    · refine ⟨s0, hs0, ?_⟩
      have := hnonneg s0 hs0
      have := h2 s0 hs0
      omega
    · exact h3
  have hle : priced.maxEstimatedHours ≤ 2562047 := by
    obtain ⟨s, hs, e⟩ := hmem
    rw [← e]
    exact hbound s hs
  have hwrap : wrapInt64 (priced.maxEstimatedHours * timeHour) =
      priced.maxEstimatedHours * timeHour := by
    apply wrapInt64_of_range
    · exact Int.mul_nonneg h1 (by decide)
    · unfold timeHour
      omega
  have hdel : order.EstimatedDeliveryAt =
      req.EstimatedPickupAt.map (fun pickup => pickup + priced.maxEstimatedHours * timeHour) := by
    rw [horder]
    unfold Order.BeforeCreate
    cases hp : req.EstimatedPickupAt <;> split <;> simp [newOrder, hp, hwrap, Time.Add]
  refine ⟨priced.maxEstimatedHours, hmem, h2, ?_, { order.row with TotalPrice := totalPrice },
    ?_, ?_, ?_⟩
  · rw [hresp]
    exact hdel
  · rw [hdb2, hdb1]
    simp
  · rw [hresp]
    rfl
  · rw [hresp]
    rfl

/-- C17 amended, on the seed's request: lead times 24 and 12 hours, pickup at
5000, delivery 24 hours later. -/
theorem create_delivery_estimate_witness :
    (demoResponse "pending").EstimatedDelivery = some (5000 + 24 * timeHour) ∧
    ∃ H : Int,
      (∃ s ∈ [demoService 21 10 "Cuci Reguler" 8000 24 true,
               demoService 24 10 "Setrika Saja" 5000 12 true], s.EstimatedTimeHours = H) ∧
      (∀ s ∈ [demoService 21 10 "Cuci Reguler" 8000 24 true,
               demoService 24 10 "Setrika Saja" 5000 12 true], s.EstimatedTimeHours ≤ H) ∧
      (demoResponse "pending").EstimatedDelivery =
        demoRequest.EstimatedPickupAt.map (fun pickup => pickup + H * timeHour) ∧
      ∃ order ∈ demoStoreCreated.orders, demoEnv.str order.ID = (demoResponse "pending").ID ∧
        order.EstimatedDeliveryAt = (demoResponse "pending").EstimatedDelivery :=
  ⟨by decide,
    create_delivery_estimate demoEnv demoStore demoStoreCreated "u1" demoRequest
      (demoResponse "pending") 10
      [demoService 21 10 "Cuci Reguler" 8000 24 true, demoService 24 10 "Setrika Saja" 5000 12 true]
      (by rfl) (by rfl)
      (List.Forall₂.cons ⟨21, by rfl, by rfl, by rfl, by rfl⟩
        (List.Forall₂.cons ⟨24, by rfl, by rfl, by rfl, by rfl⟩ List.Forall₂.nil))
      (by decide) (by decide)⟩


/-! ## Snapshot of the service in the line items -/

/-- C18: the line items `Create` stores carry the name, the price and the
unit of the service each request resolves to at creation; and what
`GetByID` and `GetByUserID` answer, in any later store and environment, does
not change when the table of services is replaced by any other: responses
are built from the stored line items and the stored total only. -/
theorem order_reads_ignore_services {α : Type} [Add α] [Mul α] [Zero α] [DecimalColumns α]
    (env : Env)
    (db db2 : Store α) (userID : String) (req : CreateOrderRequest α) (resp : OrderResponse α)
    (h : orderService.Create env db userID req = (.ok resp, db2)) :
    (∃ items, db2.orderServices = db.orderServices ++ items ∧
      List.Forall₂
        (fun r it => ∃ sid svc, env.parse r.ServiceID = some sid ∧
          serviceRepository.FindByID db sid = some svc ∧ it.ServiceID = svc.ID ∧
          it.ServiceName = svc.Name ∧ it.UnitPrice = svc.Price ∧ it.Unit = svc.Unit)
        req.Services items) ∧
    ∀ (env2 : Env) (later : Store α) (services : List (Service α)) (u o status : String)
      (page limit : Int),
      (orderService.GetByID env2 { later with services := services } u o).1 =
        (orderService.GetByID env2 later u o).1 ∧
      orderService.GetByUserID env2 { later with services := services } u status page limit =
        orderService.GetByUserID env2 later u status page limit := by
  constructor
  · obtain ⟨userUUID, laundryUUID, laundry, priced, order, db1, items, -, -, -, -, -, hloop,
      hcreate, hbatch, -⟩ := create_ok h
    obtain ⟨-, -, totalPrice, -, hdb1⟩ := orderCreate_ok hcreate
    obtain ⟨hitems, rows, hrows, hdb2⟩ := createBatch_ok hbatch
    obtain ⟨raw, hall, hraw, -⟩ := loop_ok _ _ _ hloop
    simp only [List.nil_append] at hraw
    refine ⟨rows, by rw [hdb2, hdb1], ?_⟩
    have hitems2 : List.Forall₂
        (fun r it => ∃ sid svc, env.parse r.ServiceID = some sid ∧
          serviceRepository.FindByID db sid = some svc ∧ it.ServiceID = svc.ID ∧
          it.ServiceName = svc.Name ∧ it.UnitPrice = svc.Price ∧ it.Unit = svc.Unit)
        req.Services items := by
      rw [hitems, hraw]
      apply prepareBatch_forall₂
      · intro r os id t hr
        exact hr
      · rw [List.forall₂_map_right_iff]
        refine List.Forall₂.imp ?_ hall
        rintro r it ⟨svc, ⟨sid, hsid, hsvc, -, -⟩, rfl⟩
        exact ⟨sid, svc, hsid, hsvc, rfl, rfl, rfl, rfl⟩
    refine forall₂_chain ?_ _ _ _ hitems2 (storedBatch_forall₂ items rows hrows)
    rintro r it row ⟨sid, svc, hsid, hsvc, h1, h2, h3, h4⟩ hrow
    obtain ⟨-, -, e⟩ := stored_ok hrow
    refine ⟨sid, svc, hsid, hsvc, ?_, ?_, ?_, ?_⟩
    · rw [e]; exact h1
    · rw [e]; exact h2
    · rw [e]; exact h3
    · rw [e]; exact h4
  · intro env2 later services u o status page limit
    constructor
    · have hfind : ∀ id, orderRepository.FindByID { later with services := services } id =
          orderRepository.FindByID later id := fun _ => rfl
      unfold orderService.GetByID
      split
      · rfl
      · rw [hfind]
        split
        · rfl
        · split
          · rfl
          · split <;> rfl
    · rfl

/-- C18, on the seed's order: after the price, the name and the unit of every
service changed, its customer reads the same response. -/
theorem order_reads_ignore_services_witness :
    (orderService.GetByID demoEnv
        { demoStoreCreated with
          services := [demoService 21 10 "Cuci Kilat" 99000 1 true,
                       demoService 24 10 "Setrika Uap" 77000 2 true] } "u1" "o1").1 =
      .ok (demoResponse "pending") ∧
    (∃ items, demoStoreCreated.orderServices = demoStore.orderServices ++ items ∧
      List.Forall₂
        (fun r it => ∃ sid svc, demoEnv.parse r.ServiceID = some sid ∧
          serviceRepository.FindByID demoStore sid = some svc ∧ it.ServiceID = svc.ID ∧
          it.ServiceName = svc.Name ∧ it.UnitPrice = svc.Price ∧ it.Unit = svc.Unit)
        demoRequest.Services items) ∧
    ∀ (env2 : Env) (later : Store Int) (services : List (Service Int)) (u o status : String)
      (page limit : Int),
      (orderService.GetByID env2 { later with services := services } u o).1 =
        (orderService.GetByID env2 later u o).1 ∧
      orderService.GetByUserID env2 { later with services := services } u status page limit =
        orderService.GetByUserID env2 later u status page limit :=
  ⟨by rfl,
    order_reads_ignore_services demoEnv demoStore demoStoreCreated "u1" demoRequest
      (demoResponse "pending") (by rfl)⟩

/-! ## Checks that `Create` does not make -/

/-- C20, evaluated on the code: a delivery address of three spaces is blank
for `utils.IsEmpty`, yet `Create` accepts it and stores the order with it;
only the empty string is rejected. -/
theorem create_accepts_blank_address :
    utils.IsEmpty demoRequestBlank.DeliveryAddress = true ∧
    orderService.Create demoEnv demoStore "u1" demoRequestBlank =
      (.ok { demoResponse "pending" with Address := "   " },
        { demoStoreCreated with
          orders := [{ demoOrder 100 "pending" 1000 with DeliveryAddress := "   " }]
          trace := [WriteCall.orderCreate { demoOrder 0 "pending" 0 with DeliveryAddress := "   " },
                    WriteCall.orderServiceCreateBatch
                      [demoItem 0 100 21 "Cuci Reguler" 3 8000 0,
                       demoItem 0 100 24 "Setrika Saja" 2 5000 0]] }) ∧
    orderService.Create demoEnv demoStore "u1" { demoRequest with DeliveryAddress := "" } =
      (.error "delivery address is required", demoStore) :=
  ⟨by rfl, by rfl, by rfl⟩


theorem zipWith_serviceIDs {α : Type} :
    ∀ (reqs : List (OrderServiceRequest α)) (quantities : List α),
      quantities.length = reqs.length →
      (List.zipWith (fun r q => ({ r with Quantity := q } : OrderServiceRequest α)) reqs
        quantities).map (fun r => r.ServiceID) = reqs.map (fun r => r.ServiceID) := by
  intro reqs
  induction reqs with
  | nil => intro quantities _; rfl
  | cons r rest ih =>
    intro quantities h
    cases quantities with
    | nil => simp at h
    | cons q qs =>
      simp only [List.zipWith_cons_cons, List.map_cons]
      rw [ih qs (by simpa using h)]

theorem orderCreate_trace {α : Type} [Zero α] [DecimalColumns α] (env : Env) (db : Store α)
    (o : Order α) :
    (orderRepository.Create env db o).2.trace = db.trace ++ [WriteCall.orderCreate o] := by
  unfold orderRepository.Create
  simp only
  split
  · rfl
  · split <;> rfl

theorem createBatch_trace {α : Type} [DecimalColumns α] (env : Env) (db : Store α)
    (l : List (OrderService α)) :
    (orderServiceRepository.CreateBatch env db l).2.trace =
      db.trace ++ [WriteCall.orderServiceCreateBatch l] := by
  unfold orderServiceRepository.CreateBatch
  simp only
  split
  · rfl
  · split
    · rfl
    · split <;> rfl

theorem step_ids {α : Type} [Add α] [Mul α] [Zero α] (env : Env) (db : Store α) (lid : UUID)
    (r r2 : OrderServiceRequest α) (acc acc2 : Pricing α) (hid : r2.ServiceID = r.ServiceID) :
    (∀ e, orderService.Create.step env db lid acc r = .error e →
      orderService.Create.step env db lid acc2 r2 = .error e) ∧
    (∀ a, orderService.Create.step env db lid acc r = .ok a →
      ∃ a2, orderService.Create.step env db lid acc2 r2 = .ok a2) := by
  unfold orderService.Create.step
  rw [hid]
  cases env.parse r.ServiceID with
  | none => exact ⟨fun e h => h, fun a h => by cases h⟩
  | some sid =>
    simp only
    cases serviceRepository.FindByID db sid with
    | none => exact ⟨fun e h => h, fun a h => by cases h⟩
    | some svc =>
      simp only
      split
      · exact ⟨fun e h => h, fun a h => by cases h⟩
      · split
        · exact ⟨fun e h => h, fun a h => by cases h⟩
        · exact ⟨fun e h => (by cases h), fun a _ => ⟨_, rfl⟩⟩

theorem loop_error_ids {α : Type} [Add α] [Mul α] [Zero α] {env : Env} {db : Store α}
    {lid : UUID} :
    ∀ (reqs reqs2 : List (OrderServiceRequest α)),
      reqs2.map (fun r => r.ServiceID) = reqs.map (fun r => r.ServiceID) →
      ∀ (acc acc2 : Pricing α) (e : String),
        orderService.Create.loop env db lid reqs acc = .error e →
        orderService.Create.loop env db lid reqs2 acc2 = .error e := by
  intro reqs
  induction reqs with
  | nil =>
    intro reqs2 _ acc acc2 e h
    simp only [orderService.Create.loop] at h
    cases h
  | cons r rest ih =>
    intro reqs2 hids acc acc2 e h
    cases reqs2 with
    | nil => simp at hids
    | cons r2 rest2 =>
      simp only [List.map_cons, List.cons.injEq] at hids
      obtain ⟨hid, hrest⟩ := hids
      obtain ⟨herr, hok⟩ := step_ids env db lid r r2 acc acc2 hid
      simp only [orderService.Create.loop] at h ⊢
      split at h
      · rename_i e1 hstep
        injection h with h
        subst h
        rw [herr _ hstep]
      · rename_i a hstep
        obtain ⟨a2, ha2⟩ := hok a hstep
        rw [ha2]
        exact ih rest2 hrest a a2 e h

theorem create_rejection_ids {α : Type} [Add α] [Mul α] [Zero α] [DecimalColumns α] {env : Env}
    {db : Store α} {userID : String} {req req2 : CreateOrderRequest α} {e : String}
    (hL : req2.LaundryID = req.LaundryID) (hA : req2.DeliveryAddress = req.DeliveryAddress)
    (hS : req2.Services.map (fun r => r.ServiceID) = req.Services.map (fun r => r.ServiceID))
    (h : orderService.Create env db userID req = (.error e, db)) :
    orderService.Create env db userID req2 = (.error e, db) := by
  have hlen : req2.Services.length = req.Services.length := by
    simpa using congrArg List.length hS
  unfold orderService.Create at h ⊢
  rw [hL, hA, hlen]
  split at h
  · exact h
  rename_i userUUID hu
  split at h
  · exact h
  rename_i laundryUUID hl
  split at h
  · rename_i hz
    rw [if_pos hz]
    exact h
  rename_i hz
  rw [if_neg hz]
  split at h
  · rename_i ha
    rw [if_pos ha]
    exact h
  rename_i ha
  rw [if_neg ha]
  split at h
  · exact h
  rename_i laundry hla
  split at h
  · rename_i e1 hloop
    rw [loop_error_ids _ _ hS _ _ _ hloop]
    exact h
  rename_i priced hloop
  exfalso
  simp only at h
  split at h
  · rename_i db1 hc
    have ht := orderCreate_trace env db
      (newOrder userUUID laundryUUID req priced)
    have hc2 : orderRepository.Create env db (newOrder userUUID laundryUUID req priced) =
        (none, db1) := hc
    rw [hc2] at ht
    simp only [Prod.mk.injEq] at h
    rw [h.2] at ht
    have := congrArg List.length ht
    simp at this
  · rename_i order db1 hc
    have ht := orderCreate_trace env db
      (newOrder userUUID laundryUUID req priced)
    have hc2 : orderRepository.Create env db (newOrder userUUID laundryUUID req priced) =
        (some order, db1) := hc
    rw [hc2] at ht
    split at h
    · rename_i db2 hb
      have ht2 := createBatch_trace env db1
        (priced.orderServices.map fun os => { os with OrderID := order.ID })
      rw [hb] at ht2
      simp only [Prod.mk.injEq] at h
      simp only at ht ht2
      rw [h.2, ht] at ht2
      have := congrArg List.length ht2
      simp at this
    · simp only [Prod.mk.injEq] at h
      cases h.1

/-- C19 fails on the code: the seed's request with the quantities -1 and 0 is
accepted; the order and both line items are written, with subtotals -8000
and 0 and a total of -8000. -/
theorem create_accepts_nonpositive_quantity :
    (orderService.Create demoEnv demoStore "u1" demoRequestNegative).1.toOption.map
        (fun r => (r.TotalPrice, r.Services.map fun d => d.Quantity)) =
      some (-8000, [-1, 0]) ∧
    (orderService.Create demoEnv demoStore "u1" demoRequestNegative).2.orderServices.map
        (fun it => (it.Quantity, it.Subtotal)) = [(-1, -8000), (0, 0)] ∧
    (orderService.Create demoEnv demoStore "u1" demoRequestNegative).2.orders.map
        (fun o => (o.ID, o.TotalPrice)) = [(100, -8000)] :=
  ⟨by rfl, by rfl, by rfl⟩

/-- C19, amended: `Create` makes no check on the requested quantities.
Whether it rejects a request without making any write, and with which error,
is the same for the request and for the request with any other quantities in
their place; and every line item of a created order holds the requested
quantity as its column keeps it, and as subtotal the price times that
quantity as its column keeps it. -/
theorem create_checks_ignore_quantity {α : Type} [Add α] [Mul α] [Zero α] [DecimalColumns α]
    (env : Env) (db : Store α) (userID : String) (req : CreateOrderRequest α)
    (quantities : List α) (hlen : quantities.length = req.Services.length) :
    (∀ e, orderService.Create env db userID req = (.error e, db) ↔
      orderService.Create env db userID
        { req with
          Services := List.zipWith (fun r q => { r with Quantity := q }) req.Services
            quantities } = (.error e, db)) ∧
    ∀ resp db2, orderService.Create env db userID req = (.ok resp, db2) →
      ∃ items, db2.orderServices = db.orderServices ++ items ∧
        List.Forall₂
          (fun r it => DecimalColumns.decimal10 r.Quantity = some it.Quantity ∧
            ∃ sid svc, env.parse r.ServiceID = some sid ∧
              serviceRepository.FindByID db sid = some svc ∧
              DecimalColumns.decimal12 (svc.Price * r.Quantity) = some it.Subtotal)
          req.Services items := by
  constructor
  · intro e
    have hids := zipWith_serviceIDs req.Services quantities hlen
    constructor
    · exact create_rejection_ids rfl rfl hids
    · exact create_rejection_ids rfl rfl hids.symm
  · intro resp db2 h
    obtain ⟨userUUID, laundryUUID, laundry, priced, order, db1, items, -, -, -, -, -, hloop,
      hcreate, hbatch, -⟩ := create_ok h
    obtain ⟨-, -, totalPrice, -, hdb1⟩ := orderCreate_ok hcreate
    obtain ⟨hitems, rows, hrows, hdb2⟩ := createBatch_ok hbatch
    obtain ⟨raw, hall, hraw, -⟩ := loop_ok _ _ _ hloop
    simp only [List.nil_append] at hraw
    refine ⟨rows, by rw [hdb2, hdb1], ?_⟩
    have hitems2 : List.Forall₂
        (fun r it => it.Quantity = r.Quantity ∧
          ∃ sid svc, env.parse r.ServiceID = some sid ∧
            serviceRepository.FindByID db sid = some svc ∧
            it.Subtotal = svc.Price * r.Quantity)
        req.Services items := by
      rw [hitems, hraw]
      apply prepareBatch_forall₂
      · intro r os id t hr
        exact hr
      · rw [List.forall₂_map_right_iff]
        refine List.Forall₂.imp ?_ hall
        rintro r it ⟨svc, ⟨sid, hsid, hsvc, -, -⟩, rfl⟩
        exact ⟨rfl, sid, svc, hsid, hsvc, rfl⟩
    refine forall₂_chain ?_ _ _ _ hitems2 (storedBatch_forall₂ items rows hrows)
    rintro r it row ⟨h1, sid, svc, hsid, hsvc, h2⟩ hrow
    obtain ⟨hq, hs, -⟩ := stored_ok hrow
    rw [h1] at hq
    rw [h2] at hs
    exact ⟨hq, sid, svc, hsid, hsvc, hs⟩

/-- C19 amended, on the seed's request and the quantities -1 and 0 in place of
3 and 2: neither is rejected, and with a laundry id that does not parse both
are rejected alike. -/
theorem create_checks_ignore_quantity_witness :
    orderService.Create demoEnv demoStore "u1" { demoRequest with LaundryID := "x" } =
      (.error "invalid laundry ID", demoStore) ∧
    orderService.Create demoEnv demoStore "u1"
        { demoRequestNegative with LaundryID := "x" } =
      (.error "invalid laundry ID", demoStore) ∧
    (∀ e, orderService.Create demoEnv demoStore "u1" demoRequest = (.error e, demoStore) ↔
      orderService.Create demoEnv demoStore "u1"
        { demoRequest with
          Services := List.zipWith (fun r q => { r with Quantity := q }) demoRequest.Services
            [-1, 0] } = (.error e, demoStore)) ∧
    ∀ resp db2, orderService.Create demoEnv demoStore "u1" demoRequest = (.ok resp, db2) →
      ∃ items, db2.orderServices = demoStore.orderServices ++ items ∧
        List.Forall₂
          (fun r it => DecimalColumns.decimal10 r.Quantity = some it.Quantity ∧
            ∃ sid svc, demoEnv.parse r.ServiceID = some sid ∧
              serviceRepository.FindByID demoStore sid = some svc ∧
              DecimalColumns.decimal12 (svc.Price * r.Quantity) = some it.Subtotal)
          demoRequest.Services items :=
  ⟨by rfl, by rfl,
    create_checks_ignore_quantity demoEnv demoStore "u1" demoRequest [-1, 0] (by rfl)⟩

/-! ## Price range -/

theorem foldl_min_spec {α : Type} [LinearOrder α] :
    ∀ (ps : List α) (p : α),
      ps.foldl (fun m x => if x < m then x else m) p ∈ p :: ps ∧
      ∀ q ∈ p :: ps, ps.foldl (fun m x => if x < m then x else m) p ≤ q := by
  intro ps
  induction ps with
  | nil => intro p; simp
  | cons x rest ih =>
    intro p
    simp only [List.foldl_cons]
    obtain ⟨h1, h2⟩ := ih (if x < p then x else p)
    constructor
    · rcases List.mem_cons.mp h1 with h | h
      · rw [h]
        split
        · exact List.mem_cons_of_mem _ (List.mem_cons_self _ _)
        · exact List.mem_cons_self _ _
      · exact List.mem_cons_of_mem _ (List.mem_cons_of_mem _ h)
    · intro q hq
      have hm := h2 _ (List.mem_cons_self _ _)
      rcases List.mem_cons.mp hq with rfl | hq
      · refine le_trans hm ?_
        split
        · rename_i hlt; exact le_of_lt hlt
        · exact le_refl _
      · rcases List.mem_cons.mp hq with rfl | hq
        · refine le_trans hm ?_
          split
          · exact le_refl _
          · rename_i hge; exact not_lt.mp hge
        · exact h2 q (List.mem_cons_of_mem _ hq)

theorem foldl_max_spec {α : Type} [LinearOrder α] :
    ∀ (ps : List α) (p : α),
      ps.foldl (fun m x => if m < x then x else m) p ∈ p :: ps ∧
      ∀ q ∈ p :: ps, q ≤ ps.foldl (fun m x => if m < x then x else m) p := by
  intro ps
  induction ps with
  | nil => intro p; simp
  | cons x rest ih =>
    intro p
    simp only [List.foldl_cons]
    obtain ⟨h1, h2⟩ := ih (if p < x then x else p)
    constructor
    · rcases List.mem_cons.mp h1 with h | h
      · rw [h]
        split
        · exact List.mem_cons_of_mem _ (List.mem_cons_self _ _)
        · exact List.mem_cons_self _ _
      · exact List.mem_cons_of_mem _ (List.mem_cons_of_mem _ h)
    · intro q hq
      have hm := h2 _ (List.mem_cons_self _ _)
      rcases List.mem_cons.mp hq with rfl | hq
      · refine le_trans ?_ hm
        split
        · rename_i hlt; exact le_of_lt hlt
        · exact le_refl _
      · rcases List.mem_cons.mp hq with rfl | hq
        · refine le_trans ?_ hm
          split
          · exact le_refl _
          · rename_i hge; exact not_lt.mp hge
        · exact h2 q (List.mem_cons_of_mem _ hq)

/-- C21: the price range of a laundry is rendered from the least and the
greatest price of its active services, both zero when it has none or when
the price query fails: `Rp 0` when both are zero, `Rp` and the amount when
they are equal, and the two amounts joined by ` - Rp ` otherwise, each
amount printed with the verb `%.0f`. -/
theorem price_range_rendering {α : Type} [LinearOrder α] [Zero α] (lenv : LaundryEnv α)
    (env : Env) (db : Store α) (geo : GeoContext α) (laundry : Laundry α) :
    formatPriceRange lenv 0 0 = "Rp 0" ∧
    (∀ p : α, p ≠ 0 → formatPriceRange lenv p p = "Rp " ++ lenv.sprintf0 p) ∧
    (∀ lo hi : α, lo ≠ hi →
      formatPriceRange lenv lo hi = "Rp " ++ lenv.sprintf0 lo ++ " - Rp " ++ lenv.sprintf0 hi) ∧
    (lenv.priceRangeErr laundry.ID = true →
      serviceRepository.GetPriceRange lenv db laundry.ID = (0, 0, true)) ∧
    (activePrices db laundry.ID = [] →
      (serviceRepository.GetPriceRange lenv db laundry.ID).1 = 0 ∧
      (serviceRepository.GetPriceRange lenv db laundry.ID).2.1 = 0) ∧
    (lenv.priceRangeErr laundry.ID = false → activePrices db laundry.ID ≠ [] →
      (serviceRepository.GetPriceRange lenv db laundry.ID).1 ∈ activePrices db laundry.ID ∧
      (serviceRepository.GetPriceRange lenv db laundry.ID).2.1 ∈ activePrices db laundry.ID ∧
      ∀ p ∈ activePrices db laundry.ID,
        (serviceRepository.GetPriceRange lenv db laundry.ID).1 ≤ p ∧
        p ≤ (serviceRepository.GetPriceRange lenv db laundry.ID).2.1) ∧
    (laundryService.GetAll.item lenv env db geo laundry).PriceRange =
      formatPriceRange lenv (serviceRepository.GetPriceRange lenv db laundry.ID).1
        (serviceRepository.GetPriceRange lenv db laundry.ID).2.1 := by
  refine ⟨?_, ?_, ?_, ?_, ?_, ?_, rfl⟩
  · simp [formatPriceRange]
  · intro p hp
    simp [formatPriceRange, hp]
  · intro lo hi hne
    have h1 : ¬ (lo = 0 ∧ hi = 0) := fun h => hne (h.1.trans h.2.symm)
    simp [formatPriceRange, h1, hne]
  · intro herr
    simp [serviceRepository.GetPriceRange, herr]
  · intro hnone
    unfold activePrices at hnone
    unfold serviceRepository.GetPriceRange
    split
    · exact ⟨rfl, rfl⟩
    · rw [hnone]
      exact ⟨rfl, rfl⟩
  · intro herr hsome
    unfold activePrices at hsome ⊢
    unfold serviceRepository.GetPriceRange
    simp only [herr, Bool.false_eq_true, if_false]
    cases hps : (db.services.filter
        (fun s => decide (s.LaundryID = laundry.ID) && s.IsActive)).map (fun s => s.Price) with
    | nil => exact absurd hps hsome
    | cons p ps =>
      obtain ⟨hmin1, hmin2⟩ := foldl_min_spec ps p
      obtain ⟨hmax1, hmax2⟩ := foldl_max_spec ps p
      exact ⟨hmin1, hmax1, fun q hq => ⟨hmin2 q hq, hmax2 q hq⟩⟩

/-- C21, on the concrete prices: no active service or a failed query give
`Rp 0`, one service priced 8000 gives `Rp 8000`, services priced 8000 and
25000 give `Rp 8000 - Rp 25000`. -/
theorem price_range_rendering_witness :
    (laundryService.GetAll.item demoPriceEnv demoListingEnv demoPriceStore demoNoGeo
      (demoListed 12 "Wangi" 5 (some 1) (some 0))).PriceRange = "Rp 0" ∧
    (laundryService.GetAll.item demoPriceEnvFails demoListingEnv demoPriceStore demoNoGeo
      (demoListed 11 "Kilat" 4 none none)).PriceRange = "Rp 0" ∧
    (laundryService.GetAll.item demoPriceEnv demoListingEnv demoPriceStore demoNoGeo
      (demoListed 10 "Bersih" 4 (some 3) (some 0))).PriceRange = "Rp 8000" ∧
    (laundryService.GetAll.item demoPriceEnv demoListingEnv demoPriceStore demoNoGeo
      (demoListed 11 "Kilat" 4 none none)).PriceRange = "Rp 8000 - Rp 25000" ∧
    formatPriceRange demoPriceEnv 8000 25000 =
      "Rp " ++ demoPriceEnv.sprintf0 8000 ++ " - Rp " ++ demoPriceEnv.sprintf0 25000 :=
  ⟨by rfl, by rfl, by rfl, by rfl,
    (price_range_rendering demoPriceEnv demoListingEnv demoPriceStore demoNoGeo
      (demoListed 11 "Kilat" 4 none none)).2.2.1 8000 25000 (by decide)⟩


/-! ## Pagination -/

theorem normalLimit_pos (limit : Int) : 1 ≤ normalLimit limit := by
  unfold normalLimit
  split <;> omega

theorem normalPage_pos (page : Int) : 1 ≤ normalPage page := by
  unfold normalPage
  split <;> omega

theorem totalPages_spec (total l : Int) (ht : 0 ≤ total) (hl : 1 ≤ l) :
    0 ≤ totalPages total l ∧ total ≤ totalPages total l * l ∧
      ∀ n : Int, total ≤ n * l → totalPages total l ≤ n := by
  have hl0 : (0 : Int) ≤ l := by omega
  have hdiv : total.tdiv l = total / l := Int.tdiv_eq_ediv ht hl0
  have hmod : total.tmod l = total % l := Int.tmod_eq_emod ht hl0
  have hq : 0 ≤ total / l := Int.ediv_nonneg ht hl0
  have hsplit : l * (total / l) + total % l = total := Int.ediv_add_emod total l
  have hr0 : 0 ≤ total % l := Int.emod_nonneg total (by omega)
  have hr1 : total % l < l := Int.emod_lt_of_pos total (by omega)
  unfold totalPages
  rw [hdiv, hmod]
  by_cases hr : total % l > 0
  · rw [if_pos hr]
    refine ⟨by omega, by nlinarith, ?_⟩
    intro n hn
    by_contra hlt
    have hle : n ≤ total / l := by omega
    have : n * l ≤ (total / l) * l := Int.mul_le_mul_of_nonneg_right hle hl0
    nlinarith
  · rw [if_neg hr]
    have hr2 : total % l = 0 := by omega
    refine ⟨hq, by nlinarith, ?_⟩
    intro n hn
    by_contra hlt
    have hle : n + 1 ≤ total / l := by omega
    have : (n + 1) * l ≤ (total / l) * l := Int.mul_le_mul_of_nonneg_right hle hl0
    nlinarith

theorem getAll_unfold {α : Type} [Zero α] [DecidableEq α] [LT α]
    [DecidableRel (fun a b : α => a < b)] (lenv : LaundryEnv α) (env : Env) (db : Store α)
    (search : String) (isOpen : Option Bool) (lat lng : Option α) (userID : Option String)
    (page limit : Int) :
    laundryService.GetAll lenv env db search isOpen lat lng userID page limit =
      match laundryRepository.FindAll lenv db search isOpen (normalPage page)
          (normalLimit limit) with
      | none => .error "failed to fetch laundries"
      | some (rows, total) =>
        .ok
          { Laundries :=
              laundryService.GetAll.rank (laundryService.GetAll.geo lenv env lat lng userID)
                (rows.map (laundryService.GetAll.item lenv env db
                  (laundryService.GetAll.geo lenv env lat lng userID)))
            Pagination :=
              { Page := normalPage page, Limit := normalLimit limit, Total := total,
                TotalPages := totalPages total (normalLimit limit) }
            UserLocation := (laundryService.GetAll.geo lenv env lat lng userID).userLocation } :=
  rfl

theorem findAll_total {α : Type} {lenv : LaundryEnv α} {db : Store α} {search : String}
    {isOpen : Option Bool} {page limit : Int} {rows : List (Laundry α)} {total : Int}
    (h : laundryRepository.FindAll lenv db search isOpen page limit = some (rows, total)) :
    total = ((db.laundries.filter (passesFilter lenv search isOpen)).length : Int) := by
  unfold laundryRepository.FindAll at h
  simp only at h
  split at h
  · cases h
  · simp only [Option.some.injEq, Prod.mk.injEq] at h
    rw [← h.2]
    rfl

theorem findByUserID_total {α : Type} [Zero α] {env : Env} {db : Store α} {u : UUID}
    {status : String} {page limit : Int} {orders : List (Order α)} {total : Int}
    (h : orderRepository.FindByUserID env db u status page limit = some (orders, total)) :
    total = ((db.orders.filter fun o =>
      decide (o.UserID = u) && (decide (status = "") || decide (o.Status = status))).length :
        Int) := by
  unfold orderRepository.FindByUserID at h
  simp only at h
  split at h
  · cases h
  · split at h
    · cases h
    · simp only [Option.some.injEq, Prod.mk.injEq] at h
      rw [← h.2]

/-- C22: for a total that is not negative and any requested limit, the number
of pages computed with the limit in use (10 for a requested limit below 1)
is the least `n` with `n * limit ≥ total`; `GetAll` and `GetByUserID` return
this number for the total they return and the limit they echo. -/
theorem total_pages_is_ceiling {α : Type} [Zero α] [DecidableEq α] [LT α]
    [DecidableRel (fun a b : α => a < b)] (lenv : LaundryEnv α) (env : Env) (db : Store α)
    (total limit : Int) (ht : 0 ≤ total) :
    (total ≤ totalPages total (normalLimit limit) * normalLimit limit ∧
      ∀ n : Int, total ≤ n * normalLimit limit → totalPages total (normalLimit limit) ≤ n) ∧
    (∀ (search : String) (isOpen : Option Bool) (lat lng : Option α) (userID : Option String)
        (page : Int) (resp : LaundryListResponse α),
      laundryService.GetAll lenv env db search isOpen lat lng userID page limit = .ok resp →
      resp.Pagination.Limit = normalLimit limit ∧ 0 ≤ resp.Pagination.Total ∧
      resp.Pagination.TotalPages = totalPages resp.Pagination.Total (normalLimit limit)) ∧
    (∀ (userID status : String) (page : Int) (resp : OrderListResponse α),
      orderService.GetByUserID env db userID status page limit = .ok resp →
      resp.Pagination.Limit = normalLimit limit ∧ 0 ≤ resp.Pagination.Total ∧
      resp.Pagination.TotalPages = totalPages resp.Pagination.Total (normalLimit limit)) := by
  refine ⟨(totalPages_spec total _ ht (normalLimit_pos limit)).2, ?_, ?_⟩
  · intro search isOpen lat lng userID page resp h
    rw [getAll_unfold] at h
    split at h
    · cases h
    · rename_i rows tot hfind
      injection h with h
      subst h
      refine ⟨rfl, ?_, rfl⟩
      rw [findAll_total hfind]
      exact Int.ofNat_nonneg _
  · intro userID status page resp h
    unfold orderService.GetByUserID at h
    split at h
    · cases h
    · simp only at h
      split at h
      · cases h
      · rename_i orders tot hfind
        injection h with h
        subst h
        refine ⟨rfl, ?_, rfl⟩
        rw [findByUserID_total hfind]
        exact Int.ofNat_nonneg _

/-- C22, on the totals 12 and 0 with limit 10, and on a requested limit of 0. -/
theorem total_pages_is_ceiling_witness :
    totalPages 12 10 = 2 ∧ totalPages 0 10 = 0 ∧ totalPages 12 (normalLimit 0) = 2 ∧
    ((12 : Int) ≤ totalPages 12 (normalLimit 10) * normalLimit 10 ∧
      ∀ n : Int, 12 ≤ n * normalLimit 10 → totalPages 12 (normalLimit 10) ≤ n) :=
  ⟨by decide, by decide, by decide,
    (total_pages_is_ceiling demoLaundryEnv demoListingEnv demoListingStore 12 10
      (by decide)).1⟩


theorem rank_nil {α : Type} [LT α] [DecidableRel (fun a b : α => a < b)] (geo : GeoContext α) :
    laundryService.GetAll.rank geo ([] : List (LaundryListItem α)) = [] := by
  unfold laundryService.GetAll.rank
  split <;> rfl

/-- C23 fails on the code: over the three laundries of the concrete listing,
with limit 10, there is one page; for page 5534023222112865486 the offset
`(page - 1) * limit` exceeds `int`, wraps around to 2, and the listing
returns the third laundry. -/
theorem getAll_far_page_wraps :
    laundryService.GetAll demoLaundryEnv demoListingEnv demoListingStore "" none none none none
        5534023222112865486 10 =
      .ok { Laundries := [demoListItem "l3" "Wangi" 5 "Rp 0" none],
            Pagination :=
              { Page := 5534023222112865486, Limit := 10, Total := 3, TotalPages := 1 },
            UserLocation := none } ∧
    wrapInt64 ((5534023222112865486 - 1) * 10) = 2 ∧
    (1 : Int) < 5534023222112865486 :=
  ⟨by rfl, by decide, by decide⟩

/-- C23, amended: for a page beyond the last one whose offset
`(page - 1) * limit` is within `int`, and a store that answers the query,
`GetAll` returns no laundry and no error, and the total and the number of
pages are those of the whole filtered set. -/
theorem getAll_page_beyond_last {α : Type} [Zero α] [DecidableEq α] [LT α]
    [DecidableRel (fun a b : α => a < b)] (lenv : LaundryEnv α) (env : Env) (db : Store α)
    (search : String) (isOpen : Option Bool) (lat lng : Option α) (userID : Option String)
    (page limit : Int) (herr : lenv.findAllErr = false)
    (hbeyond : totalPages ((db.laundries.filter (passesFilter lenv search isOpen)).length : Int)
      (normalLimit limit) < page)
    (hov : (page - 1) * normalLimit limit < 2 ^ 63) :
    laundryService.GetAll lenv env db search isOpen lat lng userID page limit =
      .ok
        { Laundries := []
          Pagination :=
            { Page := page, Limit := normalLimit limit,
              Total := ((db.laundries.filter (passesFilter lenv search isOpen)).length : Int),
              TotalPages :=
                totalPages ((db.laundries.filter (passesFilter lenv search isOpen)).length : Int)
                  (normalLimit limit) }
          UserLocation := (laundryService.GetAll.geo lenv env lat lng userID).userLocation } := by
  have hl := normalLimit_pos limit
  obtain ⟨h0, h1, -⟩ := totalPages_spec
    ((db.laundries.filter (passesFilter lenv search isOpen)).length : Int) (normalLimit limit)
    (Int.ofNat_nonneg _) hl
  have hp : 1 ≤ page := by omega
  have hnp : normalPage page = page := by
    unfold normalPage
    rw [if_neg (by omega)]
  have hoff : ((db.laundries.filter (passesFilter lenv search isOpen)).length : Int) ≤
      (page - 1) * normalLimit limit := by
    have : totalPages ((db.laundries.filter (passesFilter lenv search isOpen)).length : Int)
        (normalLimit limit) * normalLimit limit ≤ (page - 1) * normalLimit limit :=
      Int.mul_le_mul_of_nonneg_right (by omega) (by omega)
    omega
  have hdrop : (db.laundries.filter (passesFilter lenv search isOpen)).drop
      ((page - 1) * normalLimit limit).toNat = [] := by
    apply List.drop_eq_nil_of_le
    rw [Int.le_toNat (by omega)]
    exact hoff
  rw [getAll_unfold, hnp, findAll_page lenv db search isOpen page (normalLimit limit) herr hp hl hov,
    hdrop]
  simp only [List.take_nil, List.map_nil, rank_nil]

/-- C23 amended, on page 5 with limit 10 over twelve laundries: no laundry,
total 12, two pages. -/
theorem getAll_page_beyond_last_witness :
    ((demoTwelveStore.laundries.filter (passesFilter demoLaundryEnv "" none)).length : Int) = 12 ∧
    totalPages 12 (normalLimit 10) = 2 ∧ normalLimit 10 = 10 ∧
    laundryService.GetAll demoLaundryEnv demoListingEnv demoTwelveStore "" none none none none
        5 10 =
      .ok
        { Laundries := []
          Pagination :=
            { Page := 5, Limit := normalLimit 10,
              Total :=
                ((demoTwelveStore.laundries.filter (passesFilter demoLaundryEnv "" none)).length :
                  Int),
              TotalPages :=
                totalPages
                  ((demoTwelveStore.laundries.filter
                    (passesFilter demoLaundryEnv "" none)).length : Int) (normalLimit 10) }
          UserLocation :=
            (laundryService.GetAll.geo demoLaundryEnv demoListingEnv none none none).userLocation } :=
  ⟨by rfl, by decide, by decide,
    getAll_page_beyond_last demoLaundryEnv demoListingEnv demoTwelveStore "" none none none none
      5 10 (by rfl) (by decide) (by decide)⟩

/-- C24: `GetAll` and `GetByUserID` replace a page below 1 by 1 and a limit
below 1 by 10 and leave other values as they are; the store is queried with
the values so obtained, and these are the page and the limit of the
pagination of the response, which is an error when the query fails. -/
theorem pagination_normalised {α : Type} [Zero α] [DecidableEq α] [LT α]
    [DecidableRel (fun a b : α => a < b)] (lenv : LaundryEnv α) (env : Env) (db : Store α)
    (search : String) (isOpen : Option Bool) (lat lng : Option α) (userID : Option String)
    (customerID status : String) (page limit : Int) :
    (page < 1 → normalPage page = 1) ∧ (1 ≤ page → normalPage page = page) ∧
    (limit < 1 → normalLimit limit = 10) ∧ (1 ≤ limit → normalLimit limit = limit) ∧
    laundryService.GetAll lenv env db search isOpen lat lng userID page limit =
      (match laundryRepository.FindAll lenv db search isOpen (normalPage page)
          (normalLimit limit) with
      | none => .error "failed to fetch laundries"
      | some (rows, total) =>
        .ok
          { Laundries :=
              laundryService.GetAll.rank (laundryService.GetAll.geo lenv env lat lng userID)
                (rows.map (laundryService.GetAll.item lenv env db
                  (laundryService.GetAll.geo lenv env lat lng userID)))
            Pagination :=
              { Page := normalPage page, Limit := normalLimit limit, Total := total,
                TotalPages := totalPages total (normalLimit limit) }
            UserLocation :=
              (laundryService.GetAll.geo lenv env lat lng userID).userLocation }) ∧
    (env.parse customerID = none →
      orderService.GetByUserID env db customerID status page limit =
        (.error "invalid user ID" : Except String (OrderListResponse α))) ∧
    (∀ u, env.parse customerID = some u →
      orderService.GetByUserID env db customerID status page limit =
        match orderRepository.FindByUserID env db u status (normalPage page)
            (normalLimit limit) with
        | none => .error "failed to fetch orders"
        | some (orders, total) =>
          .ok
            { Orders := orders.map (orderService.toOrderResponse env)
              Pagination :=
                { Page := normalPage page, Limit := normalLimit limit, Total := total,
                  TotalPages := totalPages total (normalLimit limit) } }) := by
  refine ⟨?_, ?_, ?_, ?_, getAll_unfold lenv env db search isOpen lat lng userID page limit,
    ?_, ?_⟩
  · intro h
    unfold normalPage
    rw [if_pos h]
  · intro h
    unfold normalPage
    rw [if_neg (by omega)]
  · intro h
    unfold normalLimit
    rw [if_pos h]
  · intro h
    unfold normalLimit
    rw [if_neg (by omega)]
  · intro hu
    unfold orderService.GetByUserID
    rw [hu]
  · intro u hu
    unfold orderService.GetByUserID
    rw [hu]
    rfl

/-- C24, on the requested page 0 and limit 0, on page 2 with limit 2, and on a
store whose count query fails. -/
theorem pagination_normalised_witness :
    (laundryService.GetAll demoLaundryEnv demoListingEnv demoListingStore "" none none none none
      0 0).toOption.map (fun r => (r.Pagination.Page, r.Pagination.Limit)) = some (1, 10) ∧
    (laundryService.GetAll demoLaundryEnv demoListingEnv demoListingStore "" none none none none
      2 2).toOption.map (fun r => (r.Pagination.Page, r.Pagination.Limit)) = some (2, 2) ∧
    (orderService.GetByUserID demoEnv demoStoreCreated "u1" "" (-3) 0).toOption.map
      (fun r => (r.Pagination.Page, r.Pagination.Limit, r.Orders.length)) = some (1, 10, 1) ∧
    orderService.GetByUserID { demoEnv with orderCountErr := true } demoStoreCreated "u1" ""
      1 10 = .error "failed to fetch orders" ∧
    orderService.GetByUserID { demoEnv with orderFindErr := true } demoStoreCreated "u1" ""
      1 10 = .error "failed to fetch orders" ∧
    normalPage 0 = 1 ∧ normalLimit 0 = 10 :=
  ⟨by rfl, by rfl, by rfl, by rfl, by rfl,
    (pagination_normalised demoLaundryEnv demoListingEnv demoListingStore "" none none none none
      "u1" "" 0 0).1 (by decide),
    (pagination_normalised demoLaundryEnv demoListingEnv demoListingStore "" none none none none
      "u1" "" 0 0).2.2.1 (by decide)⟩


/-! ## What a failure tells the caller -/

theorem error_ne {β : Type} {a b : String} (h : a ≠ b) :
    (Except.error a : Except String β) ≠ Except.error b := by
  intro e
  injection e with e
  exact h e

/-- C28 fails on the code: `u2`, who is not the customer of any order, gets
`unauthorized` for the id `o1` when that order exists under customer `u1`,
and `order not found` when no order with that id exists; so does
`CancelOrder`. -/
theorem outcome_differs_with_existence :
    orderService.GetByID demoEnv demoStoreCreated "u2" "o1" =
      (.error "unauthorized", demoStoreCreated) ∧
    orderService.GetByID demoEnv demoStore "u2" "o1" = (.error "order not found", demoStore) ∧
    orderService.CancelOrder demoEnv demoStoreCreated "u2" "o1" =
      (.error "unauthorized", demoStoreCreated) ∧
    orderService.CancelOrder demoEnv demoStore "u2" "o1" =
      (.error "order not found", demoStore) ∧
    (orderService.GetByID demoEnv demoStoreCreated "u2" "o1").1 ≠
      (orderService.GetByID demoEnv demoStore "u2" "o1").1 ∧
    (orderService.CancelOrder demoEnv demoStoreCreated "u2" "o1").1 ≠
      (orderService.CancelOrder demoEnv demoStore "u2" "o1").1 :=
  ⟨by rfl, by rfl, by rfl, by rfl, error_ne (by decide), error_ne (by decide)⟩

/-- C28, amended: for a requester who is not the order's customer, `GetByID`
and `CancelOrder` fail and leave the store as it was both when an order with
the id exists under another customer and when no order with the id exists,
but with different errors, `unauthorized` in the first case and `order not
found` in the second. -/
theorem non_customer_error_depends_on_existence {α : Type} [Zero α] (env : Env)
    (dbWith dbWithout : Store α) (userID orderID : String) (oid u : UUID) (order : Order α)
    (hid : env.parse orderID = some oid) (hu : env.parse userID = some u)
    (hfind : orderRepository.FindByID dbWith oid = some order) (hne : u ≠ order.UserID)
    (hnone : orderRepository.FindByID dbWithout oid = none) :
    orderService.GetByID env dbWith userID orderID = (.error "unauthorized", dbWith) ∧
    orderService.GetByID env dbWithout userID orderID = (.error "order not found", dbWithout) ∧
    orderService.CancelOrder env dbWith userID orderID = (.error "unauthorized", dbWith) ∧
    orderService.CancelOrder env dbWithout userID orderID =
      (.error "order not found", dbWithout) ∧
    (orderService.GetByID env dbWith userID orderID).1 ≠
      (orderService.GetByID env dbWithout userID orderID).1 ∧
    (orderService.CancelOrder env dbWith userID orderID).1 ≠
      (orderService.CancelOrder env dbWithout userID orderID).1 := by
  have hne2 : order.UserID ≠ u := fun h => hne h.symm
  have g1 : orderService.GetByID env dbWith userID orderID = (.error "unauthorized", dbWith) := by
    unfold orderService.GetByID
    simp only [hid, hfind, hu, ne_eq, hne2, not_false_eq_true, if_true]
  have g2 : orderService.GetByID env dbWithout userID orderID =
      (.error "order not found", dbWithout) := by
    unfold orderService.GetByID
    simp only [hid, hnone]
  have c1 : orderService.CancelOrder env dbWith userID orderID =
      (.error "unauthorized", dbWith) := by
    unfold orderService.CancelOrder
    simp only [hid, hfind, hu, ne_eq, hne2, not_false_eq_true, if_true]
  have c2 : orderService.CancelOrder env dbWithout userID orderID =
      (.error "order not found", dbWithout) := by
    unfold orderService.CancelOrder
    simp only [hid, hnone]
  refine ⟨g1, g2, c1, c2, ?_, ?_⟩
  · rw [g1, g2]
    exact error_ne (by decide)
  · rw [c1, c2]
    exact error_ne (by decide)

/-- C28 amended, on `u2` asking for `o1` in the store that holds it and in the
store that holds no order. -/
theorem non_customer_error_depends_on_existence_witness :
    orderService.GetByID demoEnv demoStoreCreated "u2" "o1" =
      (.error "unauthorized", demoStoreCreated) ∧
    orderService.GetByID demoEnv demoStore "u2" "o1" = (.error "order not found", demoStore) ∧
    orderService.CancelOrder demoEnv demoStoreCreated "u2" "o1" =
      (.error "unauthorized", demoStoreCreated) ∧
    orderService.CancelOrder demoEnv demoStore "u2" "o1" =
      (.error "order not found", demoStore) ∧
    (orderService.GetByID demoEnv demoStoreCreated "u2" "o1").1 ≠
      (orderService.GetByID demoEnv demoStore "u2" "o1").1 ∧
    (orderService.CancelOrder demoEnv demoStoreCreated "u2" "o1").1 ≠
      (orderService.CancelOrder demoEnv demoStore "u2" "o1").1 :=
  non_customer_error_depends_on_existence demoEnv demoStoreCreated demoStore "u2" "o1" 100 2
    (demoOrderLoaded "pending" 1000) (by rfl) (by rfl) (by rfl) (by decide) (by rfl)

/-- C29 fails on the code: the customer's cancellation of a ready order and of
a washing order fail with one and the same error value, so the error does
not carry the status. -/
theorem cancel_error_same_for_statuses :
    (orderService.CancelOrder demoEnv (demoStoreIn "ready") "u1" "o1").1 =
      .error "order cannot be cancelled at this stage" ∧
    (orderService.CancelOrder demoEnv (demoStoreIn "washing") "u1" "o1").1 =
      .error "order cannot be cancelled at this stage" ∧
    (orderRepository.FindByID (demoStoreIn "ready") 100).map (fun o => o.Status) = some "ready" ∧
    (orderRepository.FindByID (demoStoreIn "washing") 100).map (fun o => o.Status) =
      some "washing" ∧
    ¬ ∃ f : Except String (OrderResponse Int) → String,
      ∀ status ∈ ["ready", "washing"],
        f (orderService.CancelOrder demoEnv (demoStoreIn status) "u1" "o1").1 = status :=
  ⟨by rfl, by rfl, by rfl, by rfl, fun ⟨f, hf⟩ => by
    have h1 := hf "ready" (by decide)
    have h2 := hf "washing" (by decide)
    have e1 : (orderService.CancelOrder demoEnv (demoStoreIn "ready") "u1" "o1").1 =
        (orderService.CancelOrder demoEnv (demoStoreIn "washing") "u1" "o1").1 := by rfl
    rw [e1, h2] at h1
    exact absurd h1 (by decide)⟩

/-- C29, amended: when the customer's `CancelOrder` fails because the status
is neither pending nor confirmed, the error is the fixed message `order
cannot be cancelled at this stage`, the same for any two such orders
whatever their statuses. -/
theorem cancel_conflict_error_is_fixed {α : Type} [Zero α] (env1 env2 : Env)
    (db1 db2 : Store α) (userID1 orderID1 userID2 orderID2 : String) (oid1 oid2 : UUID)
    (order1 order2 : Order α)
    (hid1 : env1.parse orderID1 = some oid1)
    (hfind1 : orderRepository.FindByID db1 oid1 = some order1)
    (hu1 : env1.parse userID1 = some order1.UserID)
    (hs1 : order1.Status ≠ "pending" ∧ order1.Status ≠ "confirmed")
    (hid2 : env2.parse orderID2 = some oid2)
    (hfind2 : orderRepository.FindByID db2 oid2 = some order2)
    (hu2 : env2.parse userID2 = some order2.UserID)
    (hs2 : order2.Status ≠ "pending" ∧ order2.Status ≠ "confirmed") :
    (orderService.CancelOrder env1 db1 userID1 orderID1).1 =
      .error "order cannot be cancelled at this stage" ∧
    (orderService.CancelOrder env2 db2 userID2 orderID2).1 =
      (orderService.CancelOrder env1 db1 userID1 orderID1).1 := by
  have c1 : orderService.CancelOrder env1 db1 userID1 orderID1 =
      (.error "order cannot be cancelled at this stage", db1) := by
    unfold orderService.CancelOrder
    simp only [hid1, hfind1, hu1, ne_eq, not_true_eq_false, if_false, hs1, not_false_eq_true,
      and_self, if_true]
  have c2 : orderService.CancelOrder env2 db2 userID2 orderID2 =
      (.error "order cannot be cancelled at this stage", db2) := by
    unfold orderService.CancelOrder
    simp only [hid2, hfind2, hu2, ne_eq, not_true_eq_false, if_false, hs2, not_false_eq_true,
      and_self, if_true]
  rw [c1, c2]
  exact ⟨rfl, rfl⟩

/-- C29 amended, on a ready order and a washing order. -/
theorem cancel_conflict_error_is_fixed_witness :
    (orderService.CancelOrder demoEnv (demoStoreIn "ready") "u1" "o1").1 =
      .error "order cannot be cancelled at this stage" ∧
    (orderService.CancelOrder demoEnv (demoStoreIn "washing") "u1" "o1").1 =
      (orderService.CancelOrder demoEnv (demoStoreIn "ready") "u1" "o1").1 :=
  cancel_conflict_error_is_fixed demoEnv demoEnv (demoStoreIn "ready") (demoStoreIn "washing")
    "u1" "o1" "u1" "o1" 100 100 (demoOrderLoaded "ready" 1000) (demoOrderLoaded "washing" 1000)
    (by rfl) (by rfl) (by rfl) (by decide) (by rfl) (by rfl) (by rfl) (by decide)

/-! ## The ranking keeps the listings -/

/-- C30: in both branches the ranking step returns a permutation of the
listings it was given, so none is dropped, duplicated or altered; and the
laundries `GetAll` returns are, in some order, the items built from the
records the repository returned for the page, as many as these. -/
theorem rank_is_permutation {α : Type} [Zero α] [DecidableEq α] [LT α]
    [DecidableRel (fun a b : α => a < b)] (lenv : LaundryEnv α) (env : Env) (db : Store α)
    (geo : GeoContext α) (items : List (LaundryListItem α)) :
    (laundryService.GetAll.sort laundryService.GetAll.distanceSwap items).Perm items ∧
    (laundryService.GetAll.sort laundryService.GetAll.ratingSwap items).Perm items ∧
    (laundryService.GetAll.rank geo items).Perm items ∧
    (laundryService.GetAll.rank geo items).length = items.length ∧
    ∀ (search : String) (isOpen : Option Bool) (lat lng : Option α) (userID : Option String)
      (page limit : Int) (resp : LaundryListResponse α),
      laundryService.GetAll lenv env db search isOpen lat lng userID page limit = .ok resp →
      ∃ rows total,
        laundryRepository.FindAll lenv db search isOpen (normalPage page) (normalLimit limit) =
          some (rows, total) ∧
        resp.Laundries.Perm
          (rows.map (laundryService.GetAll.item lenv env db
            (laundryService.GetAll.geo lenv env lat lng userID))) ∧
        resp.Laundries.length = rows.length := by
  refine ⟨sort_perm _ _, sort_perm _ _, rank_perm geo items, (rank_perm geo items).length_eq, ?_⟩
  intro search isOpen lat lng userID page limit resp h
  rw [getAll_unfold] at h
  split at h
  · cases h
  · rename_i rows total hfind
    injection h with h
    subst h
    refine ⟨rows, total, hfind, rank_perm _ _, ?_⟩
    rw [(rank_perm _ _).length_eq, List.length_map]

/-- C30, on the three listings of the concrete listing, in both branches. -/
theorem rank_is_permutation_witness :
    (laundryService.GetAll.rank demoNoGeo demoItems).Perm demoItems ∧
    (laundryService.GetAll.rank demoGeo demoItemsNear).Perm demoItemsNear ∧
    (laundryService.GetAll.rank demoGeo demoItemsNear).length = 3 ∧
    (laundryService.GetAll demoLaundryEnv demoListingEnv demoListingStore "" none (some 0)
      (some 0) none 1 10).toOption.map (fun r => r.Laundries) =
        some (laundryService.GetAll.rank demoGeo demoItemsNear) :=
  ⟨(rank_is_permutation demoLaundryEnv demoListingEnv demoListingStore demoNoGeo demoItems).2.2.1,
    (rank_is_permutation demoLaundryEnv demoListingEnv demoListingStore demoGeo
      demoItemsNear).2.2.1,
    by rfl, by rfl⟩

/-! ## The distance between two points -/

/-- C25: `CalculateDistance` gives the same result for two points taken in
either order.  The operations of `float64` are any operations with these
properties of the IEEE 754 arithmetic and of Go's `math`: `a - b` is the
negation of `b - a`, or equal to it (both are zero when `a = b`); negation
commutes with division and with `math.Sin`, and moves out of a product; and
a product does not depend on the order of its factors. -/
theorem calculateDistance_symmetric {α : Type} [Add α] [Sub α] [Mul α] [Div α] [Neg α]
    [NatCast α] (math : GoMath α)
    (hsub : ∀ a b : α, a - b = -(b - a) ∨ a - b = b - a)
    (hdiv : ∀ a b : α, -a / b = -(a / b))
    (hsin : ∀ a : α, math.Sin (-a) = -math.Sin a)
    (hnegneg : ∀ a b : α, -a * -b = a * b)
    (hmulneg : ∀ a b : α, a * -b = -(a * b))
    (hcomm : ∀ a b : α, a * b = b * a)
    (lat1 lon1 lat2 lon2 : α) :
    utils.CalculateDistance math lat1 lon1 lat2 lon2 =
      utils.CalculateDistance math lat2 lon2 lat1 lon1 := by
  have hk : ∀ k x y : α,
      k * math.Sin ((x - y) / (2 : Nat)) * math.Sin ((x - y) / (2 : Nat)) =
        k * math.Sin ((y - x) / (2 : Nat)) * math.Sin ((y - x) / (2 : Nat)) := by
    intro k x y
    rcases hsub x y with h | h
    · rw [h, hdiv, hsin, hmulneg k, hnegneg]
    · rw [h]
  have hsq : ∀ x y : α,
      math.Sin ((x - y) / (2 : Nat)) * math.Sin ((x - y) / (2 : Nat)) =
        math.Sin ((y - x) / (2 : Nat)) * math.Sin ((y - x) / (2 : Nat)) := by
    intro x y
    rcases hsub x y with h | h
    · rw [h, hdiv, hsin, hnegneg]
    · rw [h]
  unfold utils.CalculateDistance
  simp only
  rw [hsq (lat2 * math.Pi / (180 : Nat)) (lat1 * math.Pi / (180 : Nat)),
    hk _ (lon2 * math.Pi / (180 : Nat)) (lon1 * math.Pi / (180 : Nat)),
    hcomm (math.Cos (lat1 * math.Pi / (180 : Nat))) (math.Cos (lat2 * math.Pi / (180 : Nat)))]

/-- C25, on the two points of the seed, with the interpretation `demoMath`. -/
theorem calculateDistance_symmetric_witness :
    utils.CalculateDistance demoMath (-62088 / 10000) (1068456 / 10000) (-61944 / 10000)
        (1068229 / 10000) =
      utils.CalculateDistance demoMath (-61944 / 10000) (1068229 / 10000) (-62088 / 10000)
        (1068456 / 10000) :=
  calculateDistance_symmetric demoMath (fun a b => Or.inl (neg_sub b a).symm)
    (fun a b => neg_div b a) (fun _ => rfl) (fun a b => neg_mul_neg a b)
    (fun a b => mul_neg a b) (fun a b => mul_comm a b) _ _ _ _

/-- C26: the distance from a point to itself is 0, for a point whose
coordinates in radians are finite: each minus itself is zero, and the
product of the cosines of the latitude times zero is zero. -/
theorem calculateDistance_self {α : Type} [Add α] [Sub α] [Mul α] [Div α] [NatCast α]
    (math : GoMath α) (lat lon : α) (hzero : ExactAtZero math)
    (hlat : lat * math.Pi / (180 : Nat) - lat * math.Pi / (180 : Nat) = (0 : Nat))
    (hlon : lon * math.Pi / (180 : Nat) - lon * math.Pi / (180 : Nat) = (0 : Nat))
    (hcos : math.Cos (lat * math.Pi / (180 : Nat)) * math.Cos (lat * math.Pi / (180 : Nat)) *
      (0 : Nat) = (0 : Nat)) :
    utils.CalculateDistance math lat lon lat lon = (0 : Nat) := by
  obtain ⟨h1, h2, h3, h4, h5, h6, h7, h8, h9, h10, h11, h12, h13⟩ := hzero
  unfold utils.CalculateDistance
  simp only
  rw [hlat, hlon, h1, h2, h3, hcos, h3, h4, h5, h6, h7, h8, h9, h10, h11, h12, h13]

/-- C26, on the first point of the seed, with the interpretation `demoMath`. -/
theorem calculateDistance_self_witness :
    utils.CalculateDistance demoMath (-62088 / 10000) (1068456 / 10000) (-62088 / 10000)
      (1068456 / 10000) = (0 : Nat) :=
  calculateDistance_self demoMath (-62088 / 10000) (1068456 / 10000)
    (by simp [ExactAtZero, demoMath]) (by simp) (by simp) (by simp)

/-- C27 fails on the code: for a distance of 0.29 the result, the hundredfold
29 divided by 100, is the `float64` nearest to 0.29; a hundred times it is
28.999999999999996 in `float64`, which is not an integer, and is not an
integer in exact arithmetic either. -/
theorem calculateDistance_hundredfold_not_integer :
    ((29 : Nat) : Binary64) / ((100 : Nat) : Binary64) = ⟨5224175567749775, -54⟩ ∧
    roundTwoDecimals Binary64.Round ⟨5224175567749775, -54⟩ = ⟨5224175567749775, -54⟩ ∧
    (⟨5224175567749775, -54⟩ : Binary64) * ((100 : Nat) : Binary64) =
      ⟨8162774324609023, -48⟩ ∧
    Binary64.isInteger ⟨8162774324609023, -48⟩ = false ∧
    ¬ ((2 : Int) ^ 54 ∣ 5224175567749775 * 100) :=
  ⟨by rfl, by rfl, by rfl, by rfl, by decide⟩

/-- C27, amended: `CalculateDistance` returns the haversine distance of the
two points, their coordinates taken in radians, rounded to two decimals by
`math.Round` of the hundredfold divided by 100, every operation being that of
`float64`; it is a function of the math library and its four arguments alone.
Doubling is exact in `float64`, which is the one law used. -/
theorem calculateDistance_is_rounded_haversine {α : Type} [Add α] [Sub α] [Mul α] [Div α]
    [NatCast α] (math : GoMath α)
    (hdouble : ∀ t : α, ((6371 : Nat) : α) * ((2 : Nat) * t) = (6371 : Nat) * (2 : Nat) * t)
    (lat1 lon1 lat2 lon2 : α) :
    utils.CalculateDistance math lat1 lon1 lat2 lon2 =
      roundTwoDecimals math.Round
        (haversine math (radians math lat1) (radians math lon1) (radians math lat2)
          (radians math lon2)) := by
  unfold utils.CalculateDistance roundTwoDecimals haversine radians
  simp only
  rw [hdouble]

/-- C27 amended, on the two points of the seed, with the interpretation
`demoMath`. -/
theorem calculateDistance_is_rounded_haversine_witness :
    utils.CalculateDistance demoMath (-62088 / 10000) (1068456 / 10000) (-61944 / 10000)
        (1068229 / 10000) =
      roundTwoDecimals demoMath.Round
        (haversine demoMath (radians demoMath (-62088 / 10000))
          (radians demoMath (1068456 / 10000)) (radians demoMath (-61944 / 10000))
          (radians demoMath (1068229 / 10000))) :=
  calculateDistance_is_rounded_haversine demoMath (fun t => (mul_assoc _ _ t).symm) _ _ _ _

end LaundryGo
